import Mathlib

/-!
# sm500 driver and libCsm500Dev: acquisition engine and flow control

A shallow embedding of the interrupt handler (`sm500_driver.c`), of the command
dispatcher (`sm500_ioctl.c`) and of the user-side classes `Csm500DriverInterface`
and `Csm500DevCtrl`, followed by the properties established about them.

Conventions of the embedding:

* C machine integers are natural numbers; every store into a field of width `w`
  goes through `u8`, `u16` or `u32`, so that truncation is explicit.
* `BAR0` is the register file seen through its 32-bit view
  (`((uint32_t *)sm500.BAR0)[reg]`).
* The kernel memory of a DMA buffer is a map from 32-bit word offsets to words.
* The `while` loop of the interrupt handler takes a bound on the number of
  iterations and yields `none` when the bound does not suffice.
* A call that goes to sleep on a wait queue yields `ioctl_result.sleeping`; the
  sleeper evaluates its wait condition again when it is woken, which is the
  same as evaluating the command again on the state reached by then, because
  nothing is modified before the wait.
-/

namespace SM500

/-! ## Machine integers -/

/-- Store into a `uint8_t`. -/
def u8 (x : Nat) : Nat := x % 2 ^ 8

/-- Store into a `uint16_t`. -/
def u16 (x : Nat) : Nat := x % 2 ^ 16

/-- Store into a `uint32_t`. -/
def u32 (x : Nat) : Nat := x % 2 ^ 32

/-- The `uint32_t` expression `x - 1` (wraps to `0xFFFFFFFF` at zero). -/
def u32_pred (x : Nat) : Nat := (x + (2 ^ 32 - 1)) % 2 ^ 32

/-! ## sm500_public.h -/

def SM500_MMAP_FS_BUFFER : Nat := 0x80000000
def SM500_MMAP_PEAKS_BUFFER : Nat := 0x0

def SM500_REG_HVER : Nat := 0x01
def SM500_REG_DMATAR0 : Nat := 0x02
def SM500_REG_DMATAR7 : Nat := 0x09
def SM500_REG_DMAXP : Nat := 0x0A
def SM500_REG_DMACNT : Nat := 0x0B
def SM500_REG_DMACR : Nat := 0x0C
def SM500_REG_DMAFSAR : Nat := 0x30
def SM500_REG_NFSBUF : Nat := 0x31
def SM500_REG_FSBUFSZ : Nat := 0x32
def SM500_REG_NPKBUF : Nat := 0x33
def SM500_REG_PKBUFSZ : Nat := 0x34
def SM500_REG_TSOFST : Nat := 0x35
def SM500_REG_DMASNLO : Nat := 0x36
def SM500_REG_DMASNHI : Nat := 0x37
def SM500_REG_SYSCON : Nat := 0x80
def SM500_REG_INTE : Nat := 0x100
def SM500_REG_INTF : Nat := 0x101
def SM500_REG_INTDR : Nat := 0x102

def SM500_DMA_CLEAR : Nat := 0x0000
def SM500_DMA_PK : Nat := 0x0002
def SM500_DMA_FS : Nat := 0x0004

def SM500_INT_CLEAR : Nat := 0x0000
def SM500_INT_PK : Nat := 0x0002
def SM500_INT_FS : Nat := 0x0004
def SM500_INT_FS_SET : Nat := 1 <<< 31

/-! ## sm500_private.h -/

def SM500_VERSION_MAJOR : Nat := 0
def SM500_VERSION_MINOR : Nat := 51
def SM500_VERSION_I : Nat := (SM500_VERSION_MAJOR <<< 16) + SM500_VERSION_MINOR

def SM500_MAX_NUM_CLIENTS : Int := 1

def EAGAIN : Int := 11
def EINVAL : Int := 22

/-- The device context `struct dev_sm500` (the fields that carry state of the
acquisition engine; the PCI and character-device handles are left out).
`BAR0` stands for the registers the pointer of that name maps, and the two
buffer fields for the kernel memory behind `kernel_addr` of each slot. -/
structure dev_sm500 where
  BAR0 : Nat → Nat
  open_count : Int
  dma_peaks_buffer : Nat → Nat → Nat
  dma_fs_buffer : Nat → Nat → Nat
  mmap_index : Nat
  NumDmaPeaksBuffers : Nat
  NumDmaFsBuffers : Nat
  DmaPeaksBufferSize : Nat
  DmaFsBufferSize : Nat
  DmaBufferSnOffset32 : Nat
  fs_data_ready : Nat
  peaks_data_ready : Nat
  peaks_buf_wr_ptr : Nat
  peaks_buf_rd_ptr : Nat
  fs_buf_wr_ptr : Nat
  fs_buf_rd_ptr : Nat
  target_pk_buf_index : Nat
  fs_timestamp_sec : Nat
  fs_timestamp_nsec : Nat

/-- Register read `sm500_ioread32`. -/
def sm500_ioread32 (st : dev_sm500) (reg : Nat) : Nat :=
  u32 (st.BAR0 reg)

/-- Register write `sm500_iowrite32`. -/
def sm500_iowrite32 (st : dev_sm500) (reg : Nat) (value : Nat) : dev_sm500 :=
  { st with BAR0 := Function.update st.BAR0 reg (u32 value) }

/-- The store `((uint32_t*)buf[slot].kernel_addr)[off] = value`. -/
def store32 (mem : Nat → Nat → Nat) (slot off value : Nat) : Nat → Nat → Nat :=
  Function.update mem slot (Function.update (mem slot) off (u32 value))

/-! ## sm500_driver.c -/

/-- The device context `sm500_init` and `sm500_probe` leave behind: cursors and
flags zeroed by `sm500_init`, geometry read from the registers `regs` by
`sm500_probe`. The buffer memory is whatever the allocator returned; the
writes of the bus addresses to the DMA address registers in `sm500_probe` are
not part of this definition (an `event.fpga` can put any contents into `BAR0`
afterwards). -/
def sm500_init (regs : Nat → Nat) (pk fs : Nat → Nat → Nat) : dev_sm500 :=
  { BAR0 := regs
    open_count := 0
    dma_peaks_buffer := pk
    dma_fs_buffer := fs
    mmap_index := 0
    NumDmaPeaksBuffers := u32 (regs SM500_REG_NPKBUF)
    NumDmaFsBuffers := u32 (regs SM500_REG_NFSBUF)
    DmaPeaksBufferSize := u32 (regs SM500_REG_PKBUFSZ)
    DmaFsBufferSize := u32 (regs SM500_REG_FSBUFSZ)
    DmaBufferSnOffset32 := u16 (u32 (regs SM500_REG_TSOFST) >>> 2)
    fs_data_ready := 0
    peaks_data_ready := 0
    peaks_buf_wr_ptr := 0
    peaks_buf_rd_ptr := 0
    fs_buf_wr_ptr := 0
    fs_buf_rd_ptr := 0
    target_pk_buf_index := 0
    fs_timestamp_sec := 0
    fs_timestamp_nsec := 0 }

/-- The function `sm500_open`: error code and new state. -/
def sm500_open (st : dev_sm500) : Int × dev_sm500 :=
  if st.open_count = SM500_MAX_NUM_CLIENTS then (-EAGAIN, st)
  else
    (0, { st with
            peaks_buf_rd_ptr := st.peaks_buf_wr_ptr
            fs_buf_rd_ptr := st.fs_buf_wr_ptr
            open_count := st.open_count + 1 })

/-- The function `sm500_close`. -/
def sm500_close (st : dev_sm500) : Int × dev_sm500 :=
  (0, { st with open_count := st.open_count - 1 })

/-- Body of the `while` loop of the peaks branch of `sm500_ISR`: stamp the slot
under the write pointer, store the timestamp for the full spectrum when the
`SM500_INT_FS_SET` bit is on, advance the write pointer. -/
def peaks_drain_body (int_flag tv_sec tv_nsec : Nat) (st : dev_sm500) : dev_sm500 :=
  let st1 := { st with
    dma_peaks_buffer :=
      store32 st.dma_peaks_buffer st.peaks_buf_wr_ptr st.DmaBufferSnOffset32 tv_sec }
  let st2 := { st1 with
    dma_peaks_buffer :=
      store32 st1.dma_peaks_buffer st1.peaks_buf_wr_ptr (st1.DmaBufferSnOffset32 + 1) tv_nsec }
  let st3 :=
    if int_flag &&& SM500_INT_FS_SET ≠ 0 then
      { st2 with fs_timestamp_sec := u32 tv_sec, fs_timestamp_nsec := u32 tv_nsec }
    else st2
  { st3 with
    peaks_buf_wr_ptr := u16 ((st3.peaks_buf_wr_ptr + 1) &&& u32_pred st3.NumDmaPeaksBuffers) }

/-- The `while (peaks_buf_wr_ptr != target_pk_buf_index)` loop of `sm500_ISR`,
allowed `fuel` iterations; `none` when the loop is still running after them. -/
def peaks_drain (int_flag tv_sec tv_nsec : Nat) : Nat → dev_sm500 → Option dev_sm500
  | fuel, st =>
    if st.peaks_buf_wr_ptr ≠ st.target_pk_buf_index then
      match fuel with
      | 0 => none
      | n + 1 => peaks_drain int_flag tv_sec tv_nsec n (peaks_drain_body int_flag tv_sec tv_nsec st)
    else some st

/-- The full-spectrum branch of `sm500_ISR`. -/
def fs_branch (st : dev_sm500) : dev_sm500 :=
  let st1 := { st with
    dma_fs_buffer :=
      store32 st.dma_fs_buffer st.fs_buf_wr_ptr st.DmaBufferSnOffset32 st.fs_timestamp_sec }
  let st2 := { st1 with
    dma_fs_buffer :=
      store32 st1.dma_fs_buffer st1.fs_buf_wr_ptr (st1.DmaBufferSnOffset32 + 1)
        st1.fs_timestamp_nsec }
  { st2 with fs_data_ready := 1 }

/-- The peaks branch of `sm500_ISR` after `getnstimeofday`: the target index
is computed from the serial number register, then the loop runs. -/
def peaks_branch (fuel int_flag tv_sec tv_nsec : Nat) (st : dev_sm500) : Option dev_sm500 :=
  peaks_drain int_flag tv_sec tv_nsec fuel
    { st with
      target_pk_buf_index :=
        u8 (u32 (sm500_ioread32 st SM500_REG_DMASNLO + 1) &&& u32_pred st.NumDmaPeaksBuffers) }

/-- The interrupt service routine `sm500_ISR`. `tv_sec` and `tv_nsec` are what
`getnstimeofday` returns; `fuel` bounds the iterations of the drain loop. -/
def sm500_ISR (fuel tv_sec tv_nsec : Nat) (st : dev_sm500) : Option dev_sm500 :=
  let int_flag := sm500_ioread32 st SM500_REG_INTF
  let st0 := sm500_iowrite32 st SM500_REG_INTF SM500_INT_CLEAR
  if int_flag = 0 then some st0
  else
    let st1 := if int_flag &&& SM500_INT_FS ≠ 0 then fs_branch st0 else st0
    if int_flag &&& SM500_INT_PK ≠ 0 then peaks_branch fuel int_flag tv_sec tv_nsec st1
    else some st1

/-! ## sm500_ioctl.c -/

/-- The commands `sm500_ioctl` dispatches on, each with the argument it reads
(`arg.io->reg`, `arg.io->value`, `arg.data32`). The 8-bit and 16-bit register
commands reach the same registers through the narrower views of `BAR0` and
touch no field of the device context; `other` is any command number the
`switch` does not list. -/
inductive ioctl_cmd where
  | DRV_VERSION
  | READ_REG32 (reg : Nat)
  | WRITE_REG32 (reg value : Nat)
  | SET_MMAP_INDEX (data32 : Nat)
  | GET_PEAKS_DATA
  | PEAKS_DATA_READY
  | GET_SPECTRUM
  | FS_DATA_READY
  | CANCEL_READ
  | other (cmd : Nat)

/-- Outcome of one `sm500_ioctl` call: the caller sleeps on a wait queue, or
the call returns `err`, having stored `out` through the argument pointer. -/
inductive ioctl_result where
  | sleeping
  | returned (err : Int) (out : Option Nat) (st : dev_sm500)

/-- The kernel macro `wait_event_interruptible(wq, condition)`: `true` when the
wait ends (the condition holds, or a signal is pending for the sleeper),
`false` when the caller stays asleep. -/
def wait_event_interruptible (condition signal_pending : Bool) : Bool :=
  condition || signal_pending

/-- The function `sm500_ioctl`. -/
def sm500_ioctl (signal_pending : Bool) (cmd : ioctl_cmd) (st : dev_sm500) : ioctl_result :=
  match cmd with
  | .DRV_VERSION => .returned 0 (some (u32 SM500_VERSION_I)) st
  | .READ_REG32 reg => .returned 0 (some (sm500_ioread32 st reg)) st
  | .WRITE_REG32 reg value => .returned 0 none (sm500_iowrite32 st reg (u32 value))
  | .SET_MMAP_INDEX data32 => .returned 0 none { st with mmap_index := u32 data32 }
  | .GET_PEAKS_DATA =>
    if st.peaks_buf_rd_ptr = st.peaks_buf_wr_ptr ∧
        wait_event_interruptible (st.peaks_buf_rd_ptr != st.peaks_buf_wr_ptr) signal_pending
          = false then
      .sleeping
    else
      .returned 0 (some (u16 st.peaks_buf_rd_ptr))
        { st with
          peaks_buf_rd_ptr := u16 ((st.peaks_buf_rd_ptr + 1) &&& u32_pred st.NumDmaPeaksBuffers) }
  | .PEAKS_DATA_READY => .returned 0 (some (u8 st.peaks_data_ready)) st
  | .GET_SPECTRUM =>
    if st.fs_data_ready = 0 ∧
        wait_event_interruptible (st.fs_data_ready != 0) signal_pending = false then
      .sleeping
    else
      .returned 0 (some (u16 0)) { st with fs_data_ready := 0 }
  | .FS_DATA_READY => .returned 0 (some (u8 st.fs_data_ready)) st
  | .CANCEL_READ =>
    .returned 0 none
      { st with
        fs_data_ready := 1
        peaks_buf_rd_ptr := u16 st.NumDmaPeaksBuffers }
  | .other _ => .returned (-EINVAL) none st

/-! ## libCsm500Dev -/

/-- The value `MAP_FAILED`, `(void*)-1` on the 32-bit user side. -/
def MAP_FAILED : Nat := 2 ^ 32 - 1

/-- Data members of `Csm500DriverInterface` and of `Csm500DevCtrl` derived from
it. The two pointer arrays are lists of mapped addresses. -/
structure Csm500DevCtrl where
  fd : Int
  NumDmaFsBuffers : Nat
  DmaFsBufferSize : Nat
  DmaFsBuffer : List Nat
  NumDmaPeaksBuffers : Nat
  DmaPeaksBufferSize : Nat
  DmaPeaksBuffer : List Nat
  bOpen : Bool

/-- What a member function that talks to the driver does: it throws `errno`,
does not come back because the thread sleeps in the driver, or returns. -/
inductive call_result (α : Type) where
  | throws (errno : Int)
  | sleeping
  | returns (value : α) (st : dev_sm500)

/-- The user-side `ioctl` wrapper: `-1` with `errno` set when the driver
function returns a negative value. -/
def user_ioctl (signal_pending : Bool) (cmd : ioctl_cmd) (st : dev_sm500) :
    call_result (Option Nat) :=
  match sm500_ioctl signal_pending cmd st with
  | .sleeping => .sleeping
  | .returned err out st' => if err < 0 then .throws (-err) else .returns out st'

/-- The element `array[val]`; `none` stands for an access outside the array. -/
def array_at (array : List Nat) (val : Nat) : Option Nat := array.get? val

/-- The member `Csm500DevCtrl::GetPeaksData`: the pointer `DmaPeaksBuffer[val]`. -/
def Csm500DevCtrl.GetPeaksData (self : Csm500DevCtrl) (signal_pending : Bool)
    (st : dev_sm500) : call_result (Option Nat) :=
  match user_ioctl signal_pending .GET_PEAKS_DATA st with
  | .throws e => .throws e
  | .sleeping => .sleeping
  | .returns out st' => .returns (array_at self.DmaPeaksBuffer (out.getD 0)) st'

/-- The member `Csm500DevCtrl::GetFsData`: the pointer `DmaFsBuffer[val]`. -/
def Csm500DevCtrl.GetFsData (self : Csm500DevCtrl) (signal_pending : Bool)
    (st : dev_sm500) : call_result (Option Nat) :=
  match user_ioctl signal_pending .GET_SPECTRUM st with
  | .throws e => .throws e
  | .sleeping => .sleeping
  | .returns out st' => .returns (array_at self.DmaFsBuffer (out.getD 0)) st'

/-- The member `Csm500DevCtrl::PeaksDataReady`. -/
def Csm500DevCtrl.PeaksDataReady (st : dev_sm500) : call_result Bool :=
  match user_ioctl false .PEAKS_DATA_READY st with
  | .throws e => .throws e
  | .sleeping => .sleeping
  | .returns out st' => .returns (out.getD 0 != 0) st'

/-- The member `Csm500DevCtrl::FsDataReady`. -/
def Csm500DevCtrl.FsDataReady (st : dev_sm500) : call_result Bool :=
  match user_ioctl false .FS_DATA_READY st with
  | .throws e => .throws e
  | .sleeping => .sleeping
  | .returns out st' => .returns (out.getD 0 != 0) st'

/-- The member `Csm500DevCtrl::CancelReads`. -/
def Csm500DevCtrl.CancelReads (st : dev_sm500) : call_result Unit :=
  match user_ioctl false .CANCEL_READ st with
  | .throws e => .throws e
  | .sleeping => .sleeping
  | .returns _ st' => .returns () st'

/-- The conversion `%d` of `sprintf` applied to a 32-bit argument: the decimal
digits, with a minus sign when the value read as `int` is negative. -/
def printf_d (x : Nat) : List Char :=
  if u32 x < 2 ^ 31 then Nat.toDigits 10 (u32 x)
  else '-' :: Nat.toDigits 10 (2 ^ 32 - u32 x)

/-- The member `Csm500DriverInterface::GetDriverVersion` on the value `val` the
driver stored: the characters `sprintf(DriverVersion, "%d.%d", val>>16,
val&0xFFFF)` writes from `DriverVersion[0]` on, terminator included. -/
def Csm500DriverInterface.GetDriverVersion (val : Nat) : List Char :=
  printf_d (u32 val >>> 16) ++ ['.'] ++ printf_d (u32 val &&& 0xFFFF) ++ [Char.ofNat 0]

/-- The object representation of a `uint32_t` on the little-endian host of the
driver: byte `i` of the union member `hdl_str`. -/
def hdl_str (hdl_u32 : Nat) (i : Nat) : Nat := (u32 hdl_u32 >>> (8 * i)) &&& 0xFF

/-- The loop of `Csm500DevCtrl::GetHdlVersion` from index `i` on, filling
`HdlVersion[i] = hdl_str[sizeof(uint32_t)-1 - i]`. -/
def GetHdlVersion_loop (hdl_u32 : Nat) (HdlVersion : Nat → Nat) : Nat → Nat → Nat → Nat
  | 0, _ => HdlVersion
  | n + 1, i =>
    GetHdlVersion_loop hdl_u32 (Function.update HdlVersion i (hdl_str hdl_u32 (4 - 1 - i))) n (i + 1)

/-- The member `Csm500DevCtrl::GetHdlVersion` on the value `ReadReg32(SM500_REG_HVER)`
returned: the five bytes of `HdlVersion` afterwards (the array starts out as
`HdlVersion0`). -/
def Csm500DevCtrl.GetHdlVersion (HdlVersion0 : Nat → Nat) (hdl_u32 : Nat) : List Nat :=
  let filled := GetHdlVersion_loop hdl_u32 HdlVersion0 4 0
  let terminated := Function.update filled 4 0
  (List.range 5).map terminated

/-- The C string a `char` array holds: the characters before the first zero. -/
def c_str (bytes : List Nat) : List Char :=
  (bytes.takeWhile (fun b => b != 0)).map Char.ofNat


/-! ## sm500_mmap -/

/-- The function `sm500_mmap`. `remap_err` is what `remap_pfn_range` returns.
The result is the error code, the buffer handed to `remap_pfn_range`
(`true` for a full-spectrum buffer) when the call gets that far, and the new
state. -/
def sm500_mmap (remap_err : Int) (st : dev_sm500) : Int × Option (Bool × Nat) × dev_sm500 :=
  let index := st.mmap_index &&& 0xFFFF
  if st.mmap_index &&& SM500_MMAP_FS_BUFFER ≠ 0 then
    if index ≥ st.NumDmaFsBuffers then (-EAGAIN, none, st)
    else (remap_err, some (true, index), { st with mmap_index := u32 (st.mmap_index + 1) })
  else
    if index ≥ st.NumDmaPeaksBuffers then (-EAGAIN, none, st)
    else (remap_err, some (false, index), { st with mmap_index := u32 (st.mmap_index + 1) })

/-! ## Entry points of the driver as events -/

/-- Everything that can happen to the device context: the instrument changes
its registers or transfers data into the DMA buffers (`fpga`), an interrupt is
serviced, or a process calls `open`, `close`, `ioctl` or `mmap`. -/
inductive event where
  | fpga (regs : Nat → Nat) (pk fs : Nat → Nat → Nat)
  | irq (fuel tv_sec tv_nsec : Nat)
  | sys_open
  | sys_close
  | sys_ioctl (signal_pending : Bool) (cmd : ioctl_cmd)
  | sys_mmap (remap_err : Int)

/-- State after one event; `none` when the interrupt handler is still in its
loop after `fuel` iterations. A call that sleeps leaves the state as it is. -/
def step (e : event) (st : dev_sm500) : Option dev_sm500 :=
  match e with
  | .fpga regs pk fs => some { st with BAR0 := regs, dma_peaks_buffer := pk, dma_fs_buffer := fs }
  | .irq fuel tv_sec tv_nsec => sm500_ISR fuel tv_sec tv_nsec st
  | .sys_open => some (sm500_open st).2
  | .sys_close => some (sm500_close st).2
  | .sys_ioctl signal_pending cmd =>
    match sm500_ioctl signal_pending cmd st with
    | .sleeping => some st
    | .returned _ _ st' => some st'
  | .sys_mmap remap_err => some (sm500_mmap remap_err st).2.2

/-- State after a sequence of events. -/
def run : List event → dev_sm500 → Option dev_sm500
  | [], st => some st
  | e :: es, st => (step e st).bind (run es)

/-- The event sets the full-spectrum readiness flag: an interrupt serviced while
the flag register shows `SM500_INT_FS`, or the command `CANCEL_READ`. -/
def sets_fs_ready (e : event) (st : dev_sm500) : Bool :=
  match e with
  | .irq _ _ _ => sm500_ioread32 st SM500_REG_INTF &&& SM500_INT_FS != 0
  | .sys_ioctl _ .CANCEL_READ => true
  | _ => false

/-- No event of the sequence, run from `st`, sets the full-spectrum readiness
flag. -/
def fs_quiet : List event → dev_sm500 → Bool
  | [], _ => true
  | e :: es, st =>
    !(sets_fs_ready e st) &&
      match step e st with
      | none => true
      | some st' => fs_quiet es st'

/-! ## The instrument next to the driver -/

/-- The driver together with a record of what the instrument transferred:
`peaks_dataset slot` is the serial number of the data set that the last DMA
into `slot` delivered. -/
structure sm500_bench where
  dev : dev_sm500
  peaks_dataset : Nat → Nat

/-- The instrument completes one peaks transfer. Register `SM500_REG_DMASNLO`
holds the serial number of the most recently transferred data set
(sm500_public.h) and the slot after the one just filled is the next to be
written (comment on `target_pk_buf_index`, sm500_private.h), so the data set
with serial number `sn` lands in slot `sn & (NumDmaPeaksBuffers-1)`. -/
def fpga_peaks_dma (b : sm500_bench) : sm500_bench :=
  let sn := u32 (b.dev.BAR0 SM500_REG_DMASNLO + 1)
  { dev := { b.dev with BAR0 := Function.update b.dev.BAR0 SM500_REG_DMASNLO sn }
    peaks_dataset :=
      Function.update b.peaks_dataset (sn &&& u32_pred b.dev.NumDmaPeaksBuffers) sn }

/-- The instrument completes `n` peaks transfers in a row. -/
def fpga_peaks_burst : Nat → sm500_bench → sm500_bench
  | 0, b => b
  | n + 1, b => fpga_peaks_burst n (fpga_peaks_dma b)

/-- One interrupt: the number of peaks transfers the instrument completed since
the previous one, the value it shows in the flag register, and the time the
handler reads. -/
structure irq_event where
  completions : Nat
  int_flag : Nat
  tv_sec : Nat
  tv_nsec : Nat

/-- The instrument completes the transfers of `e`, raises the flags, and the
handler runs. -/
def interrupt (fuel : Nat) (e : irq_event) (b : sm500_bench) : Option sm500_bench :=
  let b1 := fpga_peaks_burst e.completions b
  let dev1 := { b1.dev with
    BAR0 := Function.update b1.dev.BAR0 SM500_REG_INTF (u32 e.int_flag) }
  (sm500_ISR fuel e.tv_sec e.tv_nsec dev1).map (fun d => { b1 with dev := d })

/-- A sequence of interrupts. -/
def interrupts (fuel : Nat) : List irq_event → sm500_bench → Option sm500_bench
  | [], b => some b
  | e :: es, b => (interrupt fuel e b).bind (interrupts fuel es)

/-- Total number of peaks transfers a sequence of interrupts reports. -/
def total_completions (es : List irq_event) : Nat :=
  (es.map irq_event.completions).sum

/-- The command `GET_PEAKS_DATA` issued `k` times in a row with no signal
pending: the values returned, or `none` when one of the calls goes to sleep or
fails. -/
def retrieve_peaks : Nat → dev_sm500 → Option (List Nat × dev_sm500)
  | 0, st => some ([], st)
  | k + 1, st =>
    match sm500_ioctl false .GET_PEAKS_DATA st with
    | .returned 0 (some v) st' => (retrieve_peaks k st').map (fun r => (v :: r.1, r.2))
    | _ => none

/-- Sleepers on the peaks wait queue woken one after another, each evaluating
its wait condition and, when it holds, finishing `GET_PEAKS_DATA`: per sleeper
the value returned, or `none` when the sleeper stays asleep. -/
def wake_peaks_sleepers : Nat → dev_sm500 → List (Option Nat) × dev_sm500
  | 0, st => ([], st)
  | k + 1, st =>
    match sm500_ioctl false .GET_PEAKS_DATA st with
    | .sleeping =>
      let r := wake_peaks_sleepers k st
      (none :: r.1, r.2)
    | .returned _ out st' =>
      let r := wake_peaks_sleepers k st'
      (out :: r.1, r.2)

/-- Error code and stored value of a call that returned. -/
def ioctl_result.code_and_out : ioctl_result → Option (Int × Option Nat)
  | .sleeping => none
  | .returned err out _ => some (err, out)

/-- State a call that returned leaves behind. -/
def ioctl_result.state : ioctl_result → Option dev_sm500
  | .sleeping => none
  | .returned _ _ st => some st

/-- Value of a member function that returned. -/
def call_result.value {α : Type} : call_result α → Option α
  | .returns v _ => some v
  | _ => none

/-- Register contents of an instrument with `count` peaks buffers and one
full-spectrum buffer, the serial number register at `0xFFFFFFFF` (the first
data set will carry serial number 0). -/
def fresh_regs (count : Nat) : Nat → Nat :=
  fun r =>
    if r = SM500_REG_NPKBUF then count
    else if r = SM500_REG_NFSBUF then 1
    else if r = SM500_REG_DMASNLO then 2 ^ 32 - 1
    else 0

/-- A device right after initialisation on the registers `fresh_regs count`,
with zeroed buffers. -/
def fresh_dev (count : Nat) : dev_sm500 :=
  sm500_init (fresh_regs count) (fun _ _ => 0) (fun _ _ => 0)

/-- The bench around `fresh_dev`. -/
def fresh_bench (count : Nat) : sm500_bench :=
  { dev := fresh_dev count, peaks_dataset := fun _ => 0 }

/-- One peaks interrupt reporting one completed transfer at time `t`. -/
def single_peak (t : Nat) : irq_event :=
  { completions := 1, int_flag := SM500_INT_PK, tv_sec := t, tv_nsec := 0 }


/-- Range of the peaks cursors on a stream of `2 ^ e` buffers: the write
pointer is a slot index, the read pointer is a slot index or the count
itself. -/
def cursors_in_range (e : Nat) (st : dev_sm500) : Prop :=
  st.NumDmaPeaksBuffers = 2 ^ e ∧ st.peaks_buf_wr_ptr < 2 ^ e ∧ st.peaks_buf_rd_ptr ≤ 2 ^ e

/-- A library object after a successful `Init` on a device with `count` peaks
buffers and one full-spectrum buffer, each mapped at an address of its own. -/
def mapped_lib (count : Nat) : Csm500DevCtrl :=
  { fd := 3
    NumDmaFsBuffers := 1
    DmaFsBufferSize := 4096
    DmaFsBuffer := [0x20000000]
    NumDmaPeaksBuffers := count
    DmaPeaksBufferSize := 4096
    DmaPeaksBuffer := (List.range count).map (fun i => 0x10000000 + 4096 * i)
    bOpen := true }

/-- The device `st` with the instrument showing `int_flag` in the interrupt flag
register. -/
def raise_flag (int_flag : Nat) (st : dev_sm500) : dev_sm500 :=
  { st with BAR0 := Function.update st.BAR0 SM500_REG_INTF (u32 int_flag) }

/-- The two stores of the loop body into one buffer: the seconds at word `off`,
the nanoseconds in the following word. -/
def stamp (buf : Nat → Nat) (off tv_sec tv_nsec : Nat) : Nat → Nat :=
  Function.update (Function.update buf off (u32 tv_sec)) (off + 1) (u32 tv_nsec)

/-- The `d` slots `w, w+1, ...` taken modulo `count`. -/
def drain_slots (count w d : Nat) : List Nat :=
  (List.range d).map (fun i => (w + i) % count)

/-! ## The library above the system calls

The member functions of `Csm500DriverInterface`, `Csm500DevCtrl` and
`Csm500Dev` that open and close the device, run on an object of dynamic type
`Csm500Dev`, together with the system calls they make. The calls `open`,
`close`, `ioctl` and `mmap` on the device node enter the driver through
`sm500_open`, `sm500_close`, `sm500_ioctl` and `sm500_mmap`; what the kernel
decides on its own (whether the node can be opened, which descriptor and which
address it hands out, what `remap_pfn_range` returns) comes from an
`os_oracle`, asked with the number of system calls made so far. -/

deriving instance DecidableEq for ioctl_cmd

/-- The error number `EBADF`. -/
def EBADF : Int := 9

/-- One mapping in the address space of the process: where it is, how long, and
which driver buffer (`fs` for a full-spectrum buffer, and its index) the driver
handed to `remap_pfn_range` for it. -/
structure user_mapping where
  addr : Nat
  length : Nat
  fs : Bool
  index : Nat
deriving DecidableEq

/-- A system call as the process issued it. -/
inductive os_call where
  | open_node
  | close (fd : Int)
  | ioctl (fd : Int) (cmd : ioctl_cmd)
  | mmap (fd : Int) (length : Nat)
  | munmap (addr length : Nat)
deriving DecidableEq

/-- The driver's device context together with what the kernel keeps for the
process: the descriptors open on the device node, the mappings, the thread's
`errno`, and the system calls made so far, oldest first. -/
structure os_state where
  dev : dev_sm500
  fds : List Int
  maps : List user_mapping
  errno : Int
  log : List os_call

/-- The decisions of the kernel, each asked with the number of system calls made
before the one being served: the error of `open` before the driver is entered
(0 for none), the descriptor `open` returns, the result of `remap_pfn_range`,
the address `mmap` picks; and `fresh_word`, the contents of memory that
`new` returns. -/
structure os_oracle where
  node_errno : Nat → Int
  new_fd : Nat → Nat
  remap_err : Nat → Int
  map_addr : Nat → Nat
  fresh_word : Nat

/-- The call `open(DevNode, O_RDWR)`: the descriptor, or `-1` with `errno` set. -/
def os_open (o : os_oracle) (sys : os_state) : Int × os_state :=
  let n := sys.log.length
  let sys0 := { sys with log := sys.log ++ [os_call.open_node] }
  if o.node_errno n ≠ 0 then (-1, { sys0 with errno := o.node_errno n })
  else
    let r := sm500_open sys.dev
    if r.1 ≠ 0 then (-1, { sys0 with dev := r.2, errno := -r.1 })
    else ((o.new_fd n : Int), { sys0 with dev := r.2, fds := (o.new_fd n : Int) :: sys.fds })

/-- The call `close(fd)`. -/
def os_close (fd : Int) (sys : os_state) : Int × os_state :=
  let sys0 := { sys with log := sys.log ++ [os_call.close fd] }
  if fd ∈ sys.fds then
    (0, { sys0 with dev := (sm500_close sys.dev).2, fds := sys.fds.erase fd })
  else (-1, { sys0 with errno := EBADF })

/-- The call `ioctl(fd, cmd, arg)` with no signal arriving: `none` when the
thread stays asleep in the driver, else the return value (`-1` with `errno`
set when the driver returns a negative value), what the driver stored through
the argument pointer, and the new state. -/
def os_ioctl (fd : Int) (cmd : ioctl_cmd) (sys : os_state) :
    Option (Int × Option Nat × os_state) :=
  let sys0 := { sys with log := sys.log ++ [os_call.ioctl fd cmd] }
  if fd ∈ sys.fds then
    match sm500_ioctl false cmd sys.dev with
    | .sleeping => none
    | .returned err out dev =>
      if err < 0 then some (-1, none, { sys0 with dev := dev, errno := -err })
      else some (err, out, { sys0 with dev := dev })
  else some (-1, none, { sys0 with errno := EBADF })

/-- The call `mmap(0, length, PROT_READ, MAP_FILE|MAP_SHARED, fd, 0)`: the
address of the new mapping, or `MAP_FAILED` with `errno` set when the
descriptor is not open or `sm500_mmap` returns an error. -/
def os_mmap (o : os_oracle) (fd : Int) (length : Nat) (sys : os_state) : Nat × os_state :=
  let n := sys.log.length
  let sys0 := { sys with log := sys.log ++ [os_call.mmap fd length] }
  if fd ∈ sys.fds then
    let r := sm500_mmap (o.remap_err n) sys.dev
    if r.1 ≠ 0 then (MAP_FAILED, { sys0 with dev := r.2.2, errno := -r.1 })
    else
      (o.map_addr n,
        { sys0 with
          dev := r.2.2
          maps := sys.maps ++
            (match r.2.1 with
             | some target => [{ addr := o.map_addr n, length := length,
                                 fs := target.1, index := target.2 }]
             | none => []) })
  else (MAP_FAILED, { sys0 with errno := EBADF })

/-- The call `munmap(addr, length)`; the library ignores what it returns. -/
def os_munmap (addr length : Nat) (sys : os_state) : os_state :=
  { sys with
    log := sys.log ++ [os_call.munmap addr length]
    maps := sys.maps.filter (fun m => m.addr ≠ addr) }

/-- An object of class `Csm500Dev`: the members it inherits from
`Csm500DevCtrl`, and its own member `bOpen`, which hides the inherited one. -/
structure Csm500Dev where
  ctrl : Csm500DevCtrl
  bOpen : Bool

/-- The object and the system it runs on. -/
structure lib_state where
  self : Csm500Dev
  sys : os_state

/-- How a member function ends: it throws an `int`, the thread stays asleep in
the driver, the behaviour is not defined by the language (an element outside
an array, an array of negative size), or it returns. -/
inductive outcome (α : Type) where
  | throws (err : Int) (s : lib_state)
  | sleeping
  | undefined
  | returns (value : α) (s : lib_state)

/-- Sequencing: the rest of a function body runs when the call returns. -/
def outcome.bind {α β : Type} (r : outcome α) (f : α → lib_state → outcome β) : outcome β :=
  match r with
  | .throws err s => .throws err s
  | .sleeping => .sleeping
  | .undefined => .undefined
  | .returns value s => f value s

/-- The block `try { ... } catch (int err) { handler; throw (err); }`. -/
def outcome.catch_rethrow {α : Type} (r : outcome α) (handler : lib_state → lib_state) :
    outcome α :=
  match r with
  | .throws err s => .throws err (handler s)
  | .sleeping => .sleeping
  | .undefined => .undefined
  | .returns value s => .returns value s

/-- The constructors `Csm500DriverInterface()`, `Csm500DevCtrl()` and
`Csm500Dev()` in the order they run. The sizes and the two array pointers are
left uninitialised by the constructors; with both counts 0 they are not
read. -/
def Csm500Dev_constructor : Csm500Dev :=
  { ctrl :=
      { fd := 0
        NumDmaFsBuffers := 0
        DmaFsBufferSize := 0
        DmaFsBuffer := []
        NumDmaPeaksBuffers := 0
        DmaPeaksBufferSize := 0
        DmaPeaksBuffer := []
        bOpen := false }
    bOpen := false }

/-- The member `Csm500DriverInterface::ReadReg32`. -/
def Csm500DriverInterface.ReadReg32 (reg : Nat) (s : lib_state) : outcome Nat :=
  match os_ioctl s.self.ctrl.fd (.READ_REG32 reg) s.sys with
  | none => .sleeping
  | some (ret, out, sys) =>
    if ret = -1 then .throws sys.errno { s with sys := sys }
    else .returns (u32 (out.getD 0)) { s with sys := sys }

/-- The member `Csm500DriverInterface::WriteReg32`. -/
def Csm500DriverInterface.WriteReg32 (reg value : Nat) (s : lib_state) : outcome Unit :=
  match os_ioctl s.self.ctrl.fd (.WRITE_REG32 reg value) s.sys with
  | none => .sleeping
  | some (ret, _, sys) =>
    if ret = -1 then .throws sys.errno { s with sys := sys }
    else .returns () { s with sys := sys }

/-- The statement `if (ioctl(fd, SM500_IOC_SET_MMAP_INDEX, data32) == -1) throw errno;`
of `SetupMemoryMap`. -/
def SetupMemoryMap_set_index (data32 : Nat) (s : lib_state) : outcome Unit :=
  match os_ioctl s.self.ctrl.fd (.SET_MMAP_INDEX data32) s.sys with
  | none => .sleeping
  | some (ret, _, sys) =>
    if ret = -1 then .throws sys.errno { s with sys := sys }
    else .returns () { s with sys := sys }

/-- The mapping loop of `SetupMemoryMap`,
`for (; i < N; i++) { buf[i] = mmap(...); if (buf[i] == MAP_FAILED) throw errno; }`,
with `N - i` iterations to go: the thrown `errno` if any, the array and the
system afterwards. -/
def SetupMemoryMap_loop (o : os_oracle) (fd : Int) (size : Nat) :
    Nat → Nat → List Nat → os_state → Option Int × List Nat × os_state
  | _, 0, buf, sys => (none, buf, sys)
  | i, n + 1, buf, sys =>
    let r := os_mmap o fd size sys
    if r.1 = MAP_FAILED then (some r.2.errno, buf.set i r.1, r.2)
    else SetupMemoryMap_loop o fd size (i + 1) n (buf.set i r.1) r.2

/-- The loop of `SetupMemoryMap` that maps the peaks buffers, on the object. -/
def SetupMemoryMap_map_peaks (o : os_oracle) (s : lib_state) : outcome Unit :=
  let r := SetupMemoryMap_loop o s.self.ctrl.fd s.self.ctrl.DmaPeaksBufferSize 0
    s.self.ctrl.NumDmaPeaksBuffers s.self.ctrl.DmaPeaksBuffer s.sys
  match r.1 with
  | some err => .throws err { s with self.ctrl.DmaPeaksBuffer := r.2.1, sys := r.2.2 }
  | none => .returns () { s with self.ctrl.DmaPeaksBuffer := r.2.1, sys := r.2.2 }

/-- The loop of `SetupMemoryMap` that maps the full-spectrum buffers, on the
object. -/
def SetupMemoryMap_map_fs (o : os_oracle) (s : lib_state) : outcome Unit :=
  let r := SetupMemoryMap_loop o s.self.ctrl.fd s.self.ctrl.DmaFsBufferSize 0
    s.self.ctrl.NumDmaFsBuffers s.self.ctrl.DmaFsBuffer s.sys
  match r.1 with
  | some err => .throws err { s with self.ctrl.DmaFsBuffer := r.2.1, sys := r.2.2 }
  | none => .returns () { s with self.ctrl.DmaFsBuffer := r.2.1, sys := r.2.2 }

/-- Peaks half of `Csm500DriverInterface::SetupMemoryMap`. The count is stored
in an `int`; a value from `2 ^ 31` on makes `new void*[N]` an allocation of
negative size. The loop that voids the new array writes `MAP_FAILED` into each
of its `N` elements. -/
def SetupMemoryMap_peaks (o : os_oracle) (s : lib_state) : outcome Unit :=
  (Csm500DriverInterface.ReadReg32 SM500_REG_NPKBUF s).bind fun n s =>
  if 2 ^ 31 ≤ n then .undefined
  else
    (Csm500DriverInterface.ReadReg32 SM500_REG_PKBUFSZ
      { s with
        self.ctrl.NumDmaPeaksBuffers := n
        self.ctrl.DmaPeaksBuffer := List.replicate n o.fresh_word }).bind fun size s =>
    (SetupMemoryMap_set_index (SM500_MMAP_PEAKS_BUFFER + 0)
      { s with
        self.ctrl.DmaPeaksBufferSize := size
        self.ctrl.DmaPeaksBuffer := List.replicate n MAP_FAILED }).bind fun _ s =>
    SetupMemoryMap_map_peaks o s

/-- Full-spectrum half of `Csm500DriverInterface::SetupMemoryMap`. -/
def SetupMemoryMap_fs (o : os_oracle) (s : lib_state) : outcome Unit :=
  (Csm500DriverInterface.ReadReg32 SM500_REG_NFSBUF s).bind fun n s =>
  if 2 ^ 31 ≤ n then .undefined
  else
    (Csm500DriverInterface.ReadReg32 SM500_REG_FSBUFSZ
      { s with
        self.ctrl.NumDmaFsBuffers := n
        self.ctrl.DmaFsBuffer := List.replicate n o.fresh_word }).bind fun size s =>
    (SetupMemoryMap_set_index (SM500_MMAP_FS_BUFFER + 0)
      { s with
        self.ctrl.DmaFsBufferSize := size
        self.ctrl.DmaFsBuffer := List.replicate n MAP_FAILED }).bind fun _ s =>
    SetupMemoryMap_map_fs o s

/-- The member `Csm500DriverInterface::SetupMemoryMap`. -/
def Csm500DriverInterface.SetupMemoryMap (o : os_oracle) (s : lib_state) : outcome Unit :=
  (SetupMemoryMap_peaks o s).bind fun _ s => SetupMemoryMap_fs o s

/-- One loop of `ReleaseMemoryMap`,
`for (; i < N; i++) { if (buf[i] != MAP_FAILED) munmap(buf[i], size); buf[i] = MAP_FAILED; }`,
with `N - i` iterations to go; `none` when an element outside the array is
read. -/
def ReleaseMemoryMap_loop (size : Nat) :
    Nat → Nat → List Nat → os_state → Option (List Nat × os_state)
  | _, 0, buf, sys => some (buf, sys)
  | i, n + 1, buf, sys =>
    match array_at buf i with
    | none => none
    | some p =>
      ReleaseMemoryMap_loop size (i + 1) n (buf.set i MAP_FAILED)
        (if p ≠ MAP_FAILED then os_munmap p size sys else sys)

/-- The member `Csm500DriverInterface::ReleaseMemoryMap`. -/
def Csm500DriverInterface.ReleaseMemoryMap (s : lib_state) : outcome Unit :=
  match ReleaseMemoryMap_loop s.self.ctrl.DmaPeaksBufferSize 0 s.self.ctrl.NumDmaPeaksBuffers
      s.self.ctrl.DmaPeaksBuffer s.sys with
  | none => .undefined
  | some pk =>
    match ReleaseMemoryMap_loop s.self.ctrl.DmaFsBufferSize 0 s.self.ctrl.NumDmaFsBuffers
        s.self.ctrl.DmaFsBuffer pk.2 with
    | none => .undefined
    | some fs =>
      .returns () { s with self.ctrl.DmaPeaksBuffer := pk.1, self.ctrl.DmaFsBuffer := fs.1,
                           sys := fs.2 }

/-- The member `Csm500DriverInterface::Init(const char*)`. -/
def Csm500DriverInterface.Init_node (o : os_oracle) (s : lib_state) : outcome Unit :=
  let r := os_open o s.sys
  if r.1 = -1 then .throws r.2.errno { s with self.ctrl.fd := 0, sys := r.2 }
  else Csm500DriverInterface.SetupMemoryMap o { s with self.ctrl.fd := r.1, sys := r.2 }

/-- The member `Csm500DriverInterface::Close`. -/
def Csm500DriverInterface.Close (s : lib_state) : outcome Unit :=
  if s.self.ctrl.fd = 0 ∨ s.self.ctrl.fd = -1 then .returns () s
  else
    (Csm500DriverInterface.ReleaseMemoryMap s).bind fun _ s =>
    .returns () { s with self.ctrl.fd := 0, sys := (os_close s.self.ctrl.fd s.sys).2 }

/-- The member `Csm500DevCtrl::EnableInterrupts`. -/
def Csm500DevCtrl.EnableInterrupts (IntEnableFlag : Nat) (s : lib_state) : outcome Unit :=
  Csm500DriverInterface.WriteReg32 SM500_REG_INTE IntEnableFlag s

/-- The member `Csm500DevCtrl::EnableDma`. -/
def Csm500DevCtrl.EnableDma (DmaEnableFlag : Nat) (s : lib_state) : outcome Unit :=
  Csm500DriverInterface.WriteReg32 SM500_REG_DMACR DmaEnableFlag s

/-- The member `Csm500DevCtrl::Init(const char*)`. -/
def Csm500DevCtrl.Init_node (o : os_oracle) (s : lib_state) : outcome Unit :=
  ((Csm500DriverInterface.Init_node o s).catch_rethrow
    fun s => { s with self.ctrl.bOpen := false }).bind fun _ s =>
  (Csm500DevCtrl.EnableInterrupts (SM500_INT_PK + SM500_INT_FS) s).bind fun _ s =>
  Csm500DevCtrl.EnableDma (SM500_DMA_PK + SM500_DMA_FS) s

/-- The member `Csm500Dev::Init(const char*)`. -/
def Csm500Dev.Init_node (o : os_oracle) (s : lib_state) : outcome Unit :=
  ((Csm500DevCtrl.Init_node o s).catch_rethrow
    fun s => { s with self.bOpen := false }).bind fun _ s =>
  .returns () { s with self.bOpen := true }

/-- The member `Csm500DriverInterface::Init(void)`: its body is the virtual call
`Init(DEFAULT_DEV_NODE)`, which on an object of class `Csm500Dev` runs
`Csm500Dev::Init(const char*)`. -/
def Csm500DriverInterface.Init (o : os_oracle) (s : lib_state) : outcome Unit :=
  Csm500Dev.Init_node o s

/-- The member `Csm500DevCtrl::Init()`. -/
def Csm500DevCtrl.Init (o : os_oracle) (s : lib_state) : outcome Unit :=
  ((Csm500DriverInterface.Init o s).catch_rethrow
    fun s => { s with self.ctrl.bOpen := false }).bind fun _ s =>
  (Csm500DevCtrl.EnableInterrupts (SM500_INT_PK + SM500_INT_FS)
    { s with self.ctrl.bOpen := true }).bind fun _ s =>
  Csm500DevCtrl.EnableDma (SM500_DMA_PK + SM500_DMA_FS) s

/-- The member `Csm500Dev::Init()`. -/
def Csm500Dev.Init (o : os_oracle) (s : lib_state) : outcome Unit :=
  ((Csm500DevCtrl.Init o s).catch_rethrow
    fun s => { s with self.bOpen := false }).bind fun _ s =>
  .returns () { s with self.bOpen := true }

/-- The member `Csm500DevCtrl::Close`. -/
def Csm500DevCtrl.Close (s : lib_state) : outcome Unit :=
  if s.self.ctrl.bOpen = false then .returns () s
  else
    (Csm500DevCtrl.EnableInterrupts SM500_INT_CLEAR s).bind fun _ s =>
    (Csm500DevCtrl.EnableDma SM500_DMA_CLEAR s).bind fun _ s =>
    (Csm500DriverInterface.Close s).bind fun _ s =>
    .returns () { s with self.ctrl.bOpen := false }

/-- The member `Csm500Dev::Close`. -/
def Csm500Dev.Close (s : lib_state) : outcome Unit :=
  if s.self.bOpen = false then .returns () s
  else
    (Csm500DevCtrl.Close s).bind fun _ s =>
    .returns () { s with self.bOpen := false }

/-- The state an outcome leaves behind, `s` when the call does not come back. -/
def outcome.state {α : Type} (s : lib_state) : outcome α → lib_state
  | .throws _ s' => s'
  | .sleeping => s
  | .undefined => s
  | .returns _ s' => s'

/-- A kernel that opens the node as descriptor 3, lets every `remap_pfn_range`
succeed and places the mapping made by system call number `n` at page
`0x10000 + n`. -/
def plain_kernel : os_oracle :=
  { node_errno := fun _ => 0
    new_fd := fun _ => 3
    remap_err := fun _ => 0
    map_addr := fun n => 4096 * (0x10000 + n)
    fresh_word := 0 }

/-- The kernel `plain_kernel`, except that `remap_pfn_range` fails with
`-ENOMEM` in system call number `n`. -/
def failing_kernel (n : Nat) : os_oracle :=
  { plain_kernel with remap_err := fun k => if k = n then -12 else 0 }

/-- The registers `fresh_regs count` with buffers of 4096 bytes. -/
def sized_regs (count : Nat) : Nat → Nat :=
  fun r =>
    if r = SM500_REG_PKBUFSZ then 4096
    else if r = SM500_REG_FSBUFSZ then 4096
    else fresh_regs count r

/-- A newly constructed object in a process with no descriptor on the device,
above a driver just initialised on the registers `sized_regs count`. -/
def fresh_lib (count : Nat) : lib_state :=
  { self := Csm500Dev_constructor
    sys :=
      { dev := sm500_init (sized_regs count) (fun _ _ => 0) (fun _ _ => 0)
        fds := []
        maps := []
        errno := 0
        log := [] } }

/-- The system calls that release nothing: `ioctl` and `mmap`. -/
def os_call.acquires : os_call → Bool
  | .ioctl _ _ => true
  | .mmap _ _ => true
  | _ => false

/-- Between `sys` and `sys'` the process made only `ioctl` and `mmap` calls:
the open descriptors are the same and mappings were only added. -/
def os_state.only_acquired (sys sys' : os_state) : Prop :=
  sys'.fds = sys.fds ∧
  (∃ ext, sys'.log = sys.log ++ ext ∧ ∀ c ∈ ext, c.acquires = true) ∧
  (∃ m, sys'.maps = sys.maps ++ m)

/-- One `ioctl` call with command `cmd` on the object's descriptor lies between
`s` and `s'`, and the object itself is as before. -/
def ioctl_step (cmd : ioctl_cmd) (s s' : lib_state) : Prop :=
  s'.self = s.self ∧ s'.sys.fds = s.sys.fds ∧ s'.sys.maps = s.sys.maps ∧
  s'.sys.log = s.sys.log ++ [os_call.ioctl s.self.ctrl.fd cmd]

/-- An outcome meets `T` if it throws and `R` if it returns. -/
def outcome.sat {α : Type} (r : outcome α) (T : Int → lib_state → Prop)
    (R : α → lib_state → Prop) : Prop :=
  match r with
  | .throws err s => T err s
  | .sleeping => True
  | .undefined => True
  | .returns value s => R value s

/-- The mappings of the buffers of one stream, in the order of the pointer
array `buf`: element `i` of the array is the address of a mapping of `size`
bytes of the driver's buffer `i` of that stream. -/
def stream_maps (fs : Bool) (size : Nat) (first : Nat) (buf : List Nat) : List user_mapping :=
  (buf.enumFrom first).map
    (fun p => { addr := p.2, length := size, fs := fs, index := p.1 })

/-- Between `s` and `s'` the object kept its descriptor and both `bOpen` members,
and the process made only `ioctl` and `mmap` calls. -/
def proceeds (s s' : lib_state) : Prop :=
  s'.self.ctrl.fd = s.self.ctrl.fd ∧ s'.self.ctrl.bOpen = s.self.ctrl.bOpen ∧
  s'.self.bOpen = s.self.bOpen ∧ s.sys.only_acquired s'.sys

/-- The pointer array `buf` of a stream holds `count` addresses, none of them
`MAP_FAILED`. -/
def all_mapped (count : Nat) (buf : List Nat) : Prop :=
  buf.length = count ∧ ∀ a ∈ buf, a ≠ MAP_FAILED

/-- Between `s` and `s'` the call `open` was refused: the object holds no
descriptor, and nothing but that call happened. -/
def open_refused (s s' : lib_state) : Prop :=
  s'.self.ctrl.fd = 0 ∧ s'.sys.fds = s.sys.fds ∧ s'.sys.maps = s.sys.maps ∧
  s'.sys.log = s.sys.log ++ [os_call.open_node]

/-- Between `s` and `s'` the call `open` succeeded and nothing was released
afterwards: the object holds the new descriptor, the descriptor is open, only
`ioctl` and `mmap` calls followed the `open`, and mappings were only added. -/
def holds_handle (o : os_oracle) (s s' : lib_state) : Prop :=
  s'.self.ctrl.fd = (o.new_fd s.sys.log.length : Int) ∧
  s'.sys.fds = s'.self.ctrl.fd :: s.sys.fds ∧
  (∃ ext, s'.sys.log = s.sys.log ++ os_call.open_node :: ext ∧ ∀ c ∈ ext, c.acquires = true) ∧
  ∃ m, s'.sys.maps = s.sys.maps ++ m

/-- Both pointer arrays of the object are fully mapped. -/
def buffers_mapped (s : lib_state) : Prop :=
  all_mapped s.self.ctrl.NumDmaPeaksBuffers s.self.ctrl.DmaPeaksBuffer ∧
  all_mapped s.self.ctrl.NumDmaFsBuffers s.self.ctrl.DmaFsBuffer

/-- The `munmap` calls one loop of `ReleaseMemoryMap` makes over the array
`buf`: one for each element that is not `MAP_FAILED`, in array order. -/
def release_calls (size : Nat) (buf : List Nat) : List os_call :=
  (buf.filter (fun p => p ≠ MAP_FAILED)).map (fun p => os_call.munmap p size)

/-- The object is in a state its member functions leave it in: each array has
as many elements as its count says, and when `Csm500DevCtrl::bOpen` is set the
descriptor is open. -/
def well_formed (s : lib_state) : Prop :=
  s.self.ctrl.DmaPeaksBuffer.length = s.self.ctrl.NumDmaPeaksBuffers ∧
  s.self.ctrl.DmaFsBuffer.length = s.self.ctrl.NumDmaFsBuffers ∧
  (s.self.ctrl.bOpen = true → s.self.ctrl.fd ∈ s.sys.fds)

/-- The object `fresh_lib count` after `Init()` under `plain_kernel`. -/
def opened_lib (count : Nat) : lib_state :=
  (Csm500Dev.Init plain_kernel (fresh_lib count)).state (fresh_lib count)

/-- The object `fresh_lib count` after `Init(DevNode)` under `plain_kernel`. -/
def node_opened_lib (count : Nat) : lib_state :=
  (Csm500Dev.Init_node plain_kernel (fresh_lib count)).state (fresh_lib count)

/-- The object `fresh_lib count` right after the `open` call of
`Csm500DriverInterface::Init(const char*)` under `plain_kernel`. -/
def handle_lib (count : Nat) : lib_state :=
  { fresh_lib count with
    self.ctrl.fd := (os_open plain_kernel (fresh_lib count).sys).1
    sys := (os_open plain_kernel (fresh_lib count).sys).2 }

/-- Each pointer array of the object has as many elements as its count says. -/
def arrays_sized (s : lib_state) : Prop :=
  s.self.ctrl.DmaPeaksBuffer.length = s.self.ctrl.NumDmaPeaksBuffers ∧
  s.self.ctrl.DmaFsBuffer.length = s.self.ctrl.NumDmaFsBuffers

/-! ## Register bit helpers of sm500_private.h -/

/-- A `uint32_t` value passed for the `int` parameter `reg` of a register
accessor: the register index, or `none` for a value from `2 ^ 31` on, which
as an `int` is negative and addresses memory before `BAR0`. -/
def int_reg (x : Nat) : Option Nat :=
  if u32 x < 2 ^ 31 then some (u32 x) else none

/-- The function `sm500_set_register_bits32`, whose body is
`sm500_iowrite32(sm500_ioread32(reg) | bitmask, reg);` while `sm500_iowrite32`
is declared as `sm500_iowrite32(int reg, uint32_t value)`. -/
def sm500_set_register_bits32 (st : dev_sm500) (reg bitmask : Nat) : Option dev_sm500 :=
  (int_reg (sm500_ioread32 st reg ||| u32 bitmask)).map fun r => sm500_iowrite32 st r reg

/-- The function `sm500_clear_register_bits32`, whose body is
`sm500_iowrite32(sm500_ioread32(reg) & (~bitmask), reg);`. -/
def sm500_clear_register_bits32 (st : dev_sm500) (reg bitmask : Nat) : Option dev_sm500 :=
  (int_reg (sm500_ioread32 st reg &&& (2 ^ 32 - 1 - u32 bitmask))).map
    fun r => sm500_iowrite32 st r reg

/-- The count-3 device with the peaks-complete flag raised and serial number 1
in the serial number register. -/
def count3_dev : dev_sm500 :=
  { raise_flag SM500_INT_PK (fresh_dev 3) with
    BAR0 := Function.update (raise_flag SM500_INT_PK (fresh_dev 3)).BAR0 SM500_REG_DMASNLO 1 }

/-- Whether, once the event `ev` has been taken in state `st`, a cancel is
pending: the last so far of the events `CANCEL_READ`, `GET_PEAKS_DATA` that
returned, and `open` that succeeded, was a `CANCEL_READ`. `pending` says so
for the events before `ev`. -/
def cancel_pending (ev : event) (st : dev_sm500) (pending : Bool) : Bool :=
  match ev with
  | .sys_ioctl _ .CANCEL_READ => true
  | .sys_ioctl signal_pending .GET_PEAKS_DATA =>
    match sm500_ioctl signal_pending .GET_PEAKS_DATA st with
    | .sleeping => pending
    | .returned _ _ _ => false
  | .sys_open => if (sm500_open st).1 = 0 then false else pending
  | _ => pending

/-- State after a sequence of events, together with the record that
`cancel_pending` keeps along the way. -/
def run_tracking : List event → dev_sm500 × Bool → Option (dev_sm500 × Bool)
  | [], s => some s
  | ev :: evs, s =>
    (step ev s.1).bind fun st' => run_tracking evs (st', cancel_pending ev s.1 s.2)

/-! ## sm500_probe: registering the peaks buffers -/

/-- The loop of `sm500_probe` that allocates the peaks buffers and writes their
bus addresses to the instrument,
`for (; i < NumDmaPeaksBuffers; i++) { ...pci_alloc_consistent...; sm500_iowrite32(SM500_REG_DMATAR0 + i, bus_addr); }`,
with `NumDmaPeaksBuffers - i` iterations to go. `alloc i` is the bus address
of buffer `i`, `none` when the allocation fails and the loop is left through
`goto pci_dma_alloc_failed`. The result is the list of register writes made
(register and value, first write first), whether the loop ran to its end, and
the state. -/
def sm500_probe_peaks (alloc : Nat → Option Nat) :
    Nat → Nat → dev_sm500 → List (Nat × Nat) × Bool × dev_sm500
  | _, 0, st => ([], true, st)
  | i, n + 1, st =>
    match alloc i with
    | none => ([], false, st)
    | some bus_addr =>
      let r := sm500_probe_peaks alloc (i + 1) n
        (sm500_iowrite32 st (SM500_REG_DMATAR0 + i) bus_addr)
      ((SM500_REG_DMATAR0 + i, u32 bus_addr) :: r.1, r.2.1, r.2.2)

/-- An allocator that places buffer `i` at bus address `0x1000 * (i + 1)`. -/
def page_alloc (i : Nat) : Option Nat := some (0x1000 * (i + 1))

/-- Register contents of an instrument with `count` peaks buffers and one
full-spectrum buffer whose serial number register reads `sn` when the driver
is loaded. -/
def serial_regs (count sn : Nat) : Nat → Nat :=
  fun r =>
    if r = SM500_REG_NPKBUF then count
    else if r = SM500_REG_NFSBUF then 1
    else if r = SM500_REG_DMASNLO then sn
    else 0

/-- A device right after initialisation on the registers `serial_regs count sn`,
with zeroed buffers: both peaks cursors are 0 whatever `sn` is. -/
def serial_dev (count sn : Nat) : dev_sm500 :=
  sm500_init (serial_regs count sn) (fun _ _ => 0) (fun _ _ => 0)

/-- The bench around `serial_dev`. -/
def serial_bench (count sn : Nat) : sm500_bench :=
  { dev := serial_dev count sn, peaks_dataset := fun _ => 0 }

/-! ## Arithmetic of the cursors -/

theorem u32_pred_two_pow (e : Nat) (he : e ≤ 31) : u32_pred (2 ^ e) = 2 ^ e - 1 := by
  have h1 : 0 < 2 ^ e := Nat.two_pow_pos _
  have h2 : 2 ^ e ≤ 2 ^ 31 := Nat.pow_le_pow_right (by decide) he
  unfold u32_pred
  generalize 2 ^ e = N at *
  omega

theorem two_pow_le_of_le (e m : Nat) (he : e ≤ m) : 2 ^ e ≤ 2 ^ m :=
  Nat.pow_le_pow_right (by decide) he

theorem mod_lt_twice (a N : Nat) (h : a < 2 * N) : a % N = if a < N then a else a - N := by
  split
  · exact Nat.mod_eq_of_lt (by assumption)
  · have h1 : N ≤ a := by omega
    rw [Nat.mod_eq_sub_mod h1]
    exact Nat.mod_eq_of_lt (by omega)

theorem succ_mod (r N : Nat) (h : r < N) : (r + 1) % N = if r + 1 = N then 0 else r + 1 := by
  rw [mod_lt_twice (r + 1) N (by omega)]
  split <;> split <;> omega

/-- Advancing a cursor below `2 ^ e` with the mask of the driver. -/
theorem cursor_advance (e r : Nat) (he : e ≤ 16) :
    u16 ((r + 1) &&& u32_pred (2 ^ e)) = (r + 1) % 2 ^ e := by
  rw [u32_pred_two_pow e (by omega), Nat.and_pow_two_sub_one_eq_mod]
  have h2 : 2 ^ e ≤ 2 ^ 16 := two_pow_le_of_le e 16 he
  have h3 : (r + 1) % 2 ^ e < 2 ^ e := Nat.mod_lt _ (Nat.two_pow_pos _)
  unfold u16
  exact Nat.mod_eq_of_lt (by omega)

/-- The target index computed from the serial number register. -/
theorem target_index (e sn : Nat) (he : e ≤ 8) :
    u8 (u32 (sn + 1) &&& u32_pred (2 ^ e)) = (sn + 1) % 2 ^ e := by
  rw [u32_pred_two_pow e (by omega), Nat.and_pow_two_sub_one_eq_mod]
  have h2 : 2 ^ e ≤ 2 ^ 8 := two_pow_le_of_le e 8 he
  have h3 : (u32 (sn + 1)) % 2 ^ e < 2 ^ e := Nat.mod_lt _ (Nat.two_pow_pos _)
  have h4 : u32 (sn + 1) % 2 ^ e = (sn + 1) % 2 ^ e := by
    unfold u32
    exact Nat.mod_mod_of_dvd _ (Nat.pow_dvd_pow 2 (by omega))
  unfold u8
  rw [Nat.mod_eq_of_lt (by omega), h4]


theorem mod_two_pow_congr (a b c e : Nat) (he : e ≤ 32) (h : a % 2 ^ 32 = b % 2 ^ 32) :
    (a + c) % 2 ^ e = (b + c) % 2 ^ e := by
  have hd : 2 ^ e ∣ 2 ^ 32 := Nat.pow_dvd_pow 2 he
  have h1 : a % 2 ^ e = b % 2 ^ e := by
    rw [← Nat.mod_mod_of_dvd a hd, ← Nat.mod_mod_of_dvd b hd, h]
  rw [Nat.add_mod, h1, ← Nat.add_mod]

theorem u32_add_mod (sn c e : Nat) (he : e ≤ 32) : (u32 sn + c) % 2 ^ e = (sn + c) % 2 ^ e :=
  mod_two_pow_congr (u32 sn) sn c e he (by unfold u32; exact Nat.mod_mod _ _)

/-! ## The drain loop -/

theorem peaks_drain_body_wr (int_flag tv_sec tv_nsec : Nat) (st : dev_sm500) :
    (peaks_drain_body int_flag tv_sec tv_nsec st).peaks_buf_wr_ptr =
      u16 ((st.peaks_buf_wr_ptr + 1) &&& u32_pred st.NumDmaPeaksBuffers) := by
  unfold peaks_drain_body
  by_cases h : int_flag &&& SM500_INT_FS_SET ≠ 0 <;> simp [h]

theorem peaks_drain_body_target (int_flag tv_sec tv_nsec : Nat) (st : dev_sm500) :
    (peaks_drain_body int_flag tv_sec tv_nsec st).target_pk_buf_index = st.target_pk_buf_index := by
  unfold peaks_drain_body
  by_cases h : int_flag &&& SM500_INT_FS_SET ≠ 0 <;> simp [h]

theorem peaks_drain_body_count (int_flag tv_sec tv_nsec : Nat) (st : dev_sm500) :
    (peaks_drain_body int_flag tv_sec tv_nsec st).NumDmaPeaksBuffers = st.NumDmaPeaksBuffers := by
  unfold peaks_drain_body
  by_cases h : int_flag &&& SM500_INT_FS_SET ≠ 0 <;> simp [h]

theorem peaks_drain_body_rd (int_flag tv_sec tv_nsec : Nat) (st : dev_sm500) :
    (peaks_drain_body int_flag tv_sec tv_nsec st).peaks_buf_rd_ptr = st.peaks_buf_rd_ptr := by
  unfold peaks_drain_body
  by_cases h : int_flag &&& SM500_INT_FS_SET ≠ 0 <;> simp [h]

theorem peaks_drain_body_BAR0 (int_flag tv_sec tv_nsec : Nat) (st : dev_sm500) :
    (peaks_drain_body int_flag tv_sec tv_nsec st).BAR0 = st.BAR0 := by
  unfold peaks_drain_body
  by_cases h : int_flag &&& SM500_INT_FS_SET ≠ 0 <;> simp [h]

theorem peaks_drain_body_fs_ready (int_flag tv_sec tv_nsec : Nat) (st : dev_sm500) :
    (peaks_drain_body int_flag tv_sec tv_nsec st).fs_data_ready = st.fs_data_ready := by
  unfold peaks_drain_body
  by_cases h : int_flag &&& SM500_INT_FS_SET ≠ 0 <;> simp [h]

theorem peaks_drain_body_peaks_ready (int_flag tv_sec tv_nsec : Nat) (st : dev_sm500) :
    (peaks_drain_body int_flag tv_sec tv_nsec st).peaks_data_ready = st.peaks_data_ready := by
  unfold peaks_drain_body
  by_cases h : int_flag &&& SM500_INT_FS_SET ≠ 0 <;> simp [h]

/-- Whatever the loop body leaves alone, the loop leaves alone. -/
theorem peaks_drain_keeps {α : Type} (f : dev_sm500 → α) (int_flag tv_sec tv_nsec : Nat)
    (hf : ∀ st, f (peaks_drain_body int_flag tv_sec tv_nsec st) = f st) :
    ∀ (fuel : Nat) (st st' : dev_sm500),
      peaks_drain int_flag tv_sec tv_nsec fuel st = some st' → f st' = f st := by
  intro fuel
  induction fuel with
  | zero =>
    intro st st' h
    unfold peaks_drain at h
    by_cases hc : st.peaks_buf_wr_ptr ≠ st.target_pk_buf_index
    · simp [hc] at h
    · simp [hc] at h
      rw [← h]
  | succ n ih =>
    intro st st' h
    unfold peaks_drain at h
    by_cases hc : st.peaks_buf_wr_ptr ≠ st.target_pk_buf_index
    · simp [hc] at h
      rw [ih _ _ h, hf]
    · simp [hc] at h
      rw [← h]

/-- With the count a power of two and both cursors in range, the loop ends with
the write pointer on the target once it is allowed as many iterations as slots
lie between the two. -/
theorem peaks_drain_reaches (int_flag tv_sec tv_nsec e : Nat) (he : e ≤ 16) :
    ∀ (fuel : Nat) (st : dev_sm500),
      st.NumDmaPeaksBuffers = 2 ^ e →
      st.peaks_buf_wr_ptr < 2 ^ e →
      st.target_pk_buf_index < 2 ^ e →
      (st.peaks_buf_wr_ptr ≤ st.target_pk_buf_index →
        st.target_pk_buf_index - st.peaks_buf_wr_ptr ≤ fuel) →
      (st.target_pk_buf_index < st.peaks_buf_wr_ptr →
        st.target_pk_buf_index + 2 ^ e - st.peaks_buf_wr_ptr ≤ fuel) →
      ∃ st', peaks_drain int_flag tv_sec tv_nsec fuel st = some st' ∧
        st'.peaks_buf_wr_ptr = st.target_pk_buf_index := by
  intro fuel
  induction fuel with
  | zero =>
    intro st hN hw ht h1 h2
    have heq : st.peaks_buf_wr_ptr = st.target_pk_buf_index := by omega
    refine ⟨st, ?_, heq⟩
    unfold peaks_drain
    simp [heq]
  | succ n ih =>
    intro st hN hw ht h1 h2
    by_cases heq : st.peaks_buf_wr_ptr = st.target_pk_buf_index
    · refine ⟨st, ?_, heq⟩
      unfold peaks_drain
      simp [heq]
    · have hwr := peaks_drain_body_wr int_flag tv_sec tv_nsec st
      rw [hN, cursor_advance e _ he, succ_mod _ _ hw] at hwr
      have htg := peaks_drain_body_target int_flag tv_sec tv_nsec st
      have hct := peaks_drain_body_count int_flag tv_sec tv_nsec st
      have hpos : 0 < 2 ^ e := Nat.two_pow_pos _
      obtain ⟨st', hrun, hfin⟩ := ih (peaks_drain_body int_flag tv_sec tv_nsec st)
        (by rw [hct, hN]) (by rw [hwr]; split <;> omega) (by rw [htg]; exact ht)
        (by rw [hwr, htg]; split <;> omega) (by rw [hwr, htg]; split <;> omega)
      refine ⟨st', ?_, by rw [hfin, htg]⟩
      unfold peaks_drain
      simp [heq, hrun]


/-! ## The interrupt handler -/

theorem land_ne_zero_ne_zero (a b : Nat) (h : a &&& b ≠ 0) : a ≠ 0 := by
  intro h0
  apply h
  rw [h0]
  exact Nat.zero_and b

/-- The peaks branch on a stream whose count is a power of two up to 256 leaves
the write pointer one past the serial number, modulo the count. -/
theorem peaks_branch_reaches (fuel int_flag tv_sec tv_nsec e : Nat) (st : dev_sm500)
    (he : e ≤ 8) (hN : st.NumDmaPeaksBuffers = 2 ^ e) (hw : st.peaks_buf_wr_ptr < 2 ^ e)
    (hfuel : 2 ^ e ≤ fuel + 1) :
    ∃ st', peaks_branch fuel int_flag tv_sec tv_nsec st = some st' ∧
      st'.peaks_buf_wr_ptr = (st.BAR0 SM500_REG_DMASNLO + 1) % 2 ^ e := by
  have hpos : 0 < 2 ^ e := Nat.two_pow_pos _
  have htlt : (st.BAR0 SM500_REG_DMASNLO + 1) % 2 ^ e < 2 ^ e := Nat.mod_lt _ hpos
  have e_tg : u8 (u32 (sm500_ioread32 st SM500_REG_DMASNLO + 1) &&&
      u32_pred st.NumDmaPeaksBuffers) = (st.BAR0 SM500_REG_DMASNLO + 1) % 2 ^ e := by
    rw [hN, target_index e _ he, sm500_ioread32, u32_add_mod _ _ _ (by omega)]
  unfold peaks_branch
  rw [e_tg]
  obtain ⟨st', hrun, hfin⟩ :=
    peaks_drain_reaches int_flag tv_sec tv_nsec e (by omega) fuel
      { st with target_pk_buf_index := (st.BAR0 SM500_REG_DMASNLO + 1) % 2 ^ e }
      hN hw htlt (by simp only; omega) (by simp only; omega)
  exact ⟨st', hrun, hfin⟩

/-- Whatever the loop body leaves alone and does not depend on the target
index, the peaks branch leaves alone. -/
theorem peaks_branch_keeps {α : Type} (f : dev_sm500 → α) (fuel int_flag tv_sec tv_nsec : Nat)
    (hf : ∀ st, f (peaks_drain_body int_flag tv_sec tv_nsec st) = f st)
    (ht : ∀ (st : dev_sm500) (t : Nat), f { st with target_pk_buf_index := t } = f st)
    (st st' : dev_sm500) (h : peaks_branch fuel int_flag tv_sec tv_nsec st = some st') :
    f st' = f st := by
  unfold peaks_branch at h
  rw [peaks_drain_keeps f int_flag tv_sec tv_nsec hf fuel _ st' h, ht]

/-- Whatever the three parts of the handler leave alone, the handler leaves
alone. -/
theorem sm500_ISR_keeps {α : Type} (f : dev_sm500 → α) (fuel tv_sec tv_nsec : Nat)
    (hb : ∀ flag st, f (peaks_drain_body flag tv_sec tv_nsec st) = f st)
    (ht : ∀ (st : dev_sm500) (t : Nat), f { st with target_pk_buf_index := t } = f st)
    (hfs : ∀ st, f (fs_branch st) = f st)
    (hwr : ∀ st, f (sm500_iowrite32 st SM500_REG_INTF SM500_INT_CLEAR) = f st)
    (st st' : dev_sm500) (h : sm500_ISR fuel tv_sec tv_nsec st = some st') :
    f st' = f st := by
  unfold sm500_ISR at h
  simp only at h
  split at h
  · simp only [Option.some.injEq] at h
    rw [← h, hwr]
  · split at h
    · rw [peaks_branch_keeps f fuel _ tv_sec tv_nsec (hb _) ht _ st' h]
      split
      · rw [hfs, hwr]
      · rw [hwr]
    · simp only [Option.some.injEq] at h
      rw [← h]
      split
      · rw [hfs, hwr]
      · rw [hwr]

/-- A peaks interrupt on a stream whose count is a power of two up to 256
leaves the write pointer one past the serial number, modulo the count. -/
theorem sm500_ISR_peaks (fuel tv_sec tv_nsec e : Nat) (st : dev_sm500) (he : e ≤ 8)
    (hN : st.NumDmaPeaksBuffers = 2 ^ e) (hw : st.peaks_buf_wr_ptr < 2 ^ e)
    (hpk : u32 (st.BAR0 SM500_REG_INTF) &&& SM500_INT_PK ≠ 0) (hfuel : 2 ^ e ≤ fuel + 1) :
    ∃ st', sm500_ISR fuel tv_sec tv_nsec st = some st' ∧
      st'.peaks_buf_wr_ptr = (st.BAR0 SM500_REG_DMASNLO + 1) % 2 ^ e := by
  have h0 : u32 (st.BAR0 SM500_REG_INTF) ≠ 0 := land_ne_zero_ne_zero _ _ hpk
  unfold sm500_ISR
  simp only [sm500_ioread32]
  rw [if_neg h0, if_pos hpk]
  by_cases hfs : u32 (st.BAR0 SM500_REG_INTF) &&& SM500_INT_FS ≠ 0
  · rw [if_pos hfs]
    obtain ⟨st', h1, h2⟩ := peaks_branch_reaches fuel (u32 (st.BAR0 SM500_REG_INTF)) tv_sec tv_nsec e
      (fs_branch (sm500_iowrite32 st SM500_REG_INTF SM500_INT_CLEAR)) he hN hw hfuel
    refine ⟨st', h1, ?_⟩
    rw [h2]
    simp [fs_branch, sm500_iowrite32, SM500_REG_INTF, SM500_REG_DMASNLO]
  · rw [if_neg hfs]
    obtain ⟨st', h1, h2⟩ := peaks_branch_reaches fuel (u32 (st.BAR0 SM500_REG_INTF)) tv_sec tv_nsec e
      (sm500_iowrite32 st SM500_REG_INTF SM500_INT_CLEAR) he hN hw hfuel
    refine ⟨st', h1, ?_⟩
    rw [h2]
    simp [sm500_iowrite32, SM500_REG_INTF, SM500_REG_DMASNLO]

theorem sm500_ISR_rd (fuel tv_sec tv_nsec : Nat) (st st' : dev_sm500)
    (h : sm500_ISR fuel tv_sec tv_nsec st = some st') :
    st'.peaks_buf_rd_ptr = st.peaks_buf_rd_ptr :=
  sm500_ISR_keeps (fun s => s.peaks_buf_rd_ptr) fuel tv_sec tv_nsec
    (fun _ _ => peaks_drain_body_rd _ _ _ _) (fun _ _ => rfl) (fun _ => rfl) (fun _ => rfl) st st' h

theorem sm500_ISR_count (fuel tv_sec tv_nsec : Nat) (st st' : dev_sm500)
    (h : sm500_ISR fuel tv_sec tv_nsec st = some st') :
    st'.NumDmaPeaksBuffers = st.NumDmaPeaksBuffers :=
  sm500_ISR_keeps (fun s => s.NumDmaPeaksBuffers) fuel tv_sec tv_nsec
    (fun _ _ => peaks_drain_body_count _ _ _ _) (fun _ _ => rfl) (fun _ => rfl) (fun _ => rfl)
    st st' h

theorem sm500_ISR_peaks_ready (fuel tv_sec tv_nsec : Nat) (st st' : dev_sm500)
    (h : sm500_ISR fuel tv_sec tv_nsec st = some st') :
    st'.peaks_data_ready = st.peaks_data_ready :=
  sm500_ISR_keeps (fun s => s.peaks_data_ready) fuel tv_sec tv_nsec
    (fun _ _ => peaks_drain_body_peaks_ready _ _ _ _) (fun _ _ => rfl) (fun _ => rfl)
    (fun _ => rfl) st st' h

theorem sm500_ISR_serial (fuel tv_sec tv_nsec : Nat) (st st' : dev_sm500)
    (h : sm500_ISR fuel tv_sec tv_nsec st = some st') :
    st'.BAR0 SM500_REG_DMASNLO = st.BAR0 SM500_REG_DMASNLO :=
  sm500_ISR_keeps (fun s => s.BAR0 SM500_REG_DMASNLO) fuel tv_sec tv_nsec
    (fun _ _ => by simp only [peaks_drain_body_BAR0]) (fun _ _ => rfl) (fun _ => rfl)
    (fun _ => by simp [sm500_iowrite32, SM500_REG_INTF, SM500_REG_DMASNLO]) st st' h


/-! ## The instrument and sequences of interrupts -/

theorem fpga_peaks_burst_dev (n : Nat) : ∀ b : sm500_bench,
    (fpga_peaks_burst n b).dev.NumDmaPeaksBuffers = b.dev.NumDmaPeaksBuffers ∧
    (fpga_peaks_burst n b).dev.peaks_buf_wr_ptr = b.dev.peaks_buf_wr_ptr ∧
    (fpga_peaks_burst n b).dev.peaks_buf_rd_ptr = b.dev.peaks_buf_rd_ptr ∧
    (fpga_peaks_burst n b).dev.peaks_data_ready = b.dev.peaks_data_ready ∧
    (fpga_peaks_burst n b).dev.BAR0 SM500_REG_DMASNLO % 2 ^ 32 =
      (b.dev.BAR0 SM500_REG_DMASNLO + n) % 2 ^ 32 := by
  induction n with
  | zero => intro b; simp [fpga_peaks_burst]
  | succ n ih =>
    intro b
    obtain ⟨h1, h2, h3, h4, h5⟩ := ih (fpga_peaks_dma b)
    unfold fpga_peaks_burst
    refine ⟨h1, h2, h3, h4, ?_⟩
    rw [h5]
    simp only [fpga_peaks_dma, Function.update_same, u32]
    omega

/-- The slot named by the serial number register holds the data set with that
serial number. -/
theorem fpga_peaks_burst_dataset (n : Nat) : ∀ b : sm500_bench,
    (0 < n ∨ (b.dev.BAR0 SM500_REG_DMASNLO < 2 ^ 32 ∧
      b.peaks_dataset (b.dev.BAR0 SM500_REG_DMASNLO &&& u32_pred b.dev.NumDmaPeaksBuffers) =
        b.dev.BAR0 SM500_REG_DMASNLO)) →
    (fpga_peaks_burst n b).dev.BAR0 SM500_REG_DMASNLO < 2 ^ 32 ∧
    (fpga_peaks_burst n b).peaks_dataset
      ((fpga_peaks_burst n b).dev.BAR0 SM500_REG_DMASNLO &&&
        u32_pred (fpga_peaks_burst n b).dev.NumDmaPeaksBuffers) =
      (fpga_peaks_burst n b).dev.BAR0 SM500_REG_DMASNLO := by
  induction n with
  | zero =>
    intro b h
    rcases h with h | h
    · omega
    · simpa [fpga_peaks_burst] using h
  | succ n ih =>
    intro b _
    unfold fpga_peaks_burst
    apply ih
    right
    simp only [fpga_peaks_dma, Function.update_same, u32]
    exact ⟨Nat.mod_lt _ (by decide), trivial⟩


/-- One peaks interrupt on the bench. -/
theorem interrupt_peaks (fuel e : Nat) (ev : irq_event) (b : sm500_bench) (he : e ≤ 8)
    (hN : b.dev.NumDmaPeaksBuffers = 2 ^ e) (hw : b.dev.peaks_buf_wr_ptr < 2 ^ e)
    (hpk : u32 ev.int_flag &&& SM500_INT_PK ≠ 0) (hfuel : 2 ^ e ≤ fuel + 1) :
    ∃ b', interrupt fuel ev b = some b' ∧
      b'.dev.NumDmaPeaksBuffers = 2 ^ e ∧
      b'.dev.peaks_buf_rd_ptr = b.dev.peaks_buf_rd_ptr ∧
      b'.dev.peaks_data_ready = b.dev.peaks_data_ready ∧
      b'.dev.BAR0 SM500_REG_DMASNLO % 2 ^ 32 =
        (b.dev.BAR0 SM500_REG_DMASNLO + ev.completions) % 2 ^ 32 ∧
      b'.dev.peaks_buf_wr_ptr = (b.dev.BAR0 SM500_REG_DMASNLO + ev.completions + 1) % 2 ^ e ∧
      b'.dev.BAR0 SM500_REG_DMASNLO =
        (fpga_peaks_burst ev.completions b).dev.BAR0 SM500_REG_DMASNLO ∧
      b'.peaks_dataset = (fpga_peaks_burst ev.completions b).peaks_dataset := by
  obtain ⟨g1, g2, g3, g4, g5⟩ := fpga_peaks_burst_dev ev.completions b
  generalize hb1 : fpga_peaks_burst ev.completions b = b1 at g1 g2 g3 g4 g5
  have hflag : u32 (Function.update b1.dev.BAR0 SM500_REG_INTF (u32 ev.int_flag) SM500_REG_INTF)
      &&& SM500_INT_PK ≠ 0 := by
    rw [Function.update_same]
    have : u32 (u32 ev.int_flag) = u32 ev.int_flag := by unfold u32; exact Nat.mod_mod _ _
    rw [this]; exact hpk
  obtain ⟨d, hd, hdw⟩ := sm500_ISR_peaks fuel ev.tv_sec ev.tv_nsec e
    { b1.dev with BAR0 := Function.update b1.dev.BAR0 SM500_REG_INTF (u32 ev.int_flag) } he
    (by simp only; rw [g1, hN]) (by simp only; rw [g2]; exact hw) hflag hfuel
  have hsn0 : Function.update b1.dev.BAR0 SM500_REG_INTF (u32 ev.int_flag) SM500_REG_DMASNLO =
      b1.dev.BAR0 SM500_REG_DMASNLO := by
    simp [SM500_REG_INTF, SM500_REG_DMASNLO]
  have k_rd := sm500_ISR_rd _ _ _ _ _ hd
  have k_N := sm500_ISR_count _ _ _ _ _ hd
  have k_pr := sm500_ISR_peaks_ready _ _ _ _ _ hd
  have k_sn := sm500_ISR_serial _ _ _ _ _ hd
  simp only at k_rd k_N k_pr k_sn hdw
  rw [hsn0] at k_sn hdw
  refine ⟨{ b1 with dev := d }, ?_, ?_, ?_, ?_, ?_, ?_, ?_, ?_⟩
  · unfold interrupt
    simp only [hb1, hd, Option.map_some']
  · simp only; rw [k_N, g1, hN]
  · simp only; rw [k_rd, g3]
  · simp only; rw [k_pr, g4]
  · simp only; rw [k_sn, g5]
  · simp only; rw [hdw]
    exact mod_two_pow_congr _ _ 1 e (by omega) g5
  · simp only; rw [k_sn]
  · rfl


theorem total_completions_cons (ev : irq_event) (es : List irq_event) :
    total_completions (ev :: es) = ev.completions + total_completions es := by
  simp [total_completions]

/-- A sequence of peaks interrupts on the bench: every handler returns, the read
pointer stays, the serial number has advanced by the number of transfers, the
write pointer is one past it, and the slot named by the serial number holds
the data set of that number. -/
theorem interrupts_peaks (fuel e : Nat) (he : e ≤ 8) (hfuel : 2 ^ e ≤ fuel + 1) :
    ∀ (es : List irq_event) (b : sm500_bench),
      b.dev.NumDmaPeaksBuffers = 2 ^ e →
      b.dev.peaks_buf_wr_ptr < 2 ^ e →
      (∀ ev ∈ es, u32 ev.int_flag &&& SM500_INT_PK ≠ 0) →
      ∃ b', interrupts fuel es b = some b' ∧
        b'.dev.NumDmaPeaksBuffers = 2 ^ e ∧
        b'.dev.peaks_buf_rd_ptr = b.dev.peaks_buf_rd_ptr ∧
        b'.dev.peaks_data_ready = b.dev.peaks_data_ready ∧
        b'.dev.BAR0 SM500_REG_DMASNLO % 2 ^ 32 =
          (b.dev.BAR0 SM500_REG_DMASNLO + total_completions es) % 2 ^ 32 ∧
        b'.dev.peaks_buf_wr_ptr < 2 ^ e ∧
        (es ≠ [] → b'.dev.peaks_buf_wr_ptr =
          (b.dev.BAR0 SM500_REG_DMASNLO + total_completions es + 1) % 2 ^ e) ∧
        ((0 < total_completions es ∨ (b.dev.BAR0 SM500_REG_DMASNLO < 2 ^ 32 ∧
            b.peaks_dataset (b.dev.BAR0 SM500_REG_DMASNLO &&& u32_pred b.dev.NumDmaPeaksBuffers) =
              b.dev.BAR0 SM500_REG_DMASNLO)) →
          (b'.dev.BAR0 SM500_REG_DMASNLO < 2 ^ 32 ∧
            b'.peaks_dataset
              (b'.dev.BAR0 SM500_REG_DMASNLO &&& u32_pred b'.dev.NumDmaPeaksBuffers) =
              b'.dev.BAR0 SM500_REG_DMASNLO)) := by
  intro es
  induction es with
  | nil =>
    intro b hN hw _
    refine ⟨b, rfl, hN, rfl, rfl, by simp [total_completions], hw, fun h => absurd rfl h, ?_⟩
    intro h
    rcases h with h | h
    · simp [total_completions] at h
    · exact h
  | cons ev es ih =>
    intro b hN hw hall
    have hpk : u32 ev.int_flag &&& SM500_INT_PK ≠ 0 := hall ev (List.mem_cons_self _ _)
    obtain ⟨b1, r1, n1, rd1, pr1, sn1, w1, snb, dsb⟩ := interrupt_peaks fuel e ev b he hN hw hpk hfuel
    have hpos : 0 < 2 ^ e := Nat.two_pow_pos _
    have hw1 : b1.dev.peaks_buf_wr_ptr < 2 ^ e := by rw [w1]; exact Nat.mod_lt _ hpos
    obtain ⟨b', r2, n2, rd2, pr2, sn2, w2, wq, ds2⟩ :=
      ih b1 n1 hw1 (fun x hx => hall x (List.mem_cons_of_mem _ hx))
    have hsn : b'.dev.BAR0 SM500_REG_DMASNLO % 2 ^ 32 =
        (b.dev.BAR0 SM500_REG_DMASNLO + total_completions (ev :: es)) % 2 ^ 32 := by
      rw [sn2, total_completions_cons, Nat.add_mod, sn1, ← Nat.add_mod, Nat.add_assoc]
    refine ⟨b', ?_, n2, by rw [rd2, rd1], by rw [pr2, pr1], hsn, w2, ?_, ?_⟩
    · simp only [interrupts, r1, Option.some_bind]
      exact r2
    · intro _
      by_cases hes : es = []
      · subst hes
        simp only [interrupts, Option.some.injEq] at r2
        rw [← r2, w1]
        simp [total_completions]
      · rw [wq hes, total_completions_cons]
        have := mod_two_pow_congr _ _ (total_completions es + 1) e (by omega) sn1
        rw [Nat.add_assoc, this]
        congr 1
        omega
    · intro h
      apply ds2
      by_cases hc : 0 < total_completions es
      · left; exact hc
      · right
        rw [total_completions_cons] at h
        have hb := fpga_peaks_burst_dataset ev.completions b
          (by rcases h with h | h
              · left; omega
              · right; exact h)
        have hNb := (fpga_peaks_burst_dev ev.completions b).1
        rw [snb, dsb, n1, ← hN, ← hNb]
        exact hb


/-! ## Retrieval -/

/-- The command `GET_PEAKS_DATA` when the cursors differ. -/
theorem get_peaks_data_ready (signal_pending : Bool) (st : dev_sm500)
    (h : st.peaks_buf_rd_ptr ≠ st.peaks_buf_wr_ptr) :
    sm500_ioctl signal_pending .GET_PEAKS_DATA st =
      .returned 0 (some (u16 st.peaks_buf_rd_ptr))
        { st with
          peaks_buf_rd_ptr := u16 ((st.peaks_buf_rd_ptr + 1) &&& u32_pred st.NumDmaPeaksBuffers) } := by
  simp [sm500_ioctl, h]

/-- The command `GET_PEAKS_DATA` when the cursors are equal and no signal is
pending. -/
theorem get_peaks_data_sleeps (st : dev_sm500)
    (h : st.peaks_buf_rd_ptr = st.peaks_buf_wr_ptr) :
    sm500_ioctl false .GET_PEAKS_DATA st = .sleeping := by
  simp [sm500_ioctl, h, wait_event_interruptible]

theorem u16_of_lt (e r : Nat) (he : e ≤ 16) (hr : r < 2 ^ e) : u16 r = r := by
  have h2 : 2 ^ e ≤ 2 ^ 16 := two_pow_le_of_le e 16 he
  unfold u16
  exact Nat.mod_eq_of_lt (by omega)

theorem add_mod_ne_self (r k N : Nat) (hr : r < N) (hk : 0 < k) (hkN : k < N) :
    (r + k) % N ≠ r := by
  rw [mod_lt_twice (r + k) N (by omega)]
  split <;> omega

/-- With `k` slots between the read and the write pointer, `k` retrievals in a
row return the slots from the read pointer on, modulo the count, none of them
goes to sleep, and the read pointer ends on the write pointer. -/
theorem retrieve_peaks_fifo (e : Nat) (he : e ≤ 16) :
    ∀ (k : Nat) (st : dev_sm500),
      st.NumDmaPeaksBuffers = 2 ^ e →
      st.peaks_buf_rd_ptr < 2 ^ e →
      k < 2 ^ e →
      st.peaks_buf_wr_ptr = (st.peaks_buf_rd_ptr + k) % 2 ^ e →
      ∃ st', retrieve_peaks k st =
          some ((List.range k).map (fun i => (st.peaks_buf_rd_ptr + i) % 2 ^ e), st') ∧
        st'.peaks_buf_rd_ptr = st'.peaks_buf_wr_ptr ∧
        st'.peaks_buf_wr_ptr = st.peaks_buf_wr_ptr := by
  intro k
  induction k with
  | zero =>
    intro st _ hr _ hw
    refine ⟨st, by simp [retrieve_peaks], ?_, rfl⟩
    rw [hw, Nat.add_zero, Nat.mod_eq_of_lt hr]
  | succ k ih =>
    intro st hN hr hk hw
    have hne : st.peaks_buf_rd_ptr ≠ st.peaks_buf_wr_ptr := by
      rw [hw]
      exact (add_mod_ne_self _ _ _ hr (by omega) hk).symm
    have hpos : 0 < 2 ^ e := Nat.two_pow_pos _
    obtain ⟨st', h1, h2, h3⟩ := ih
      { st with
        peaks_buf_rd_ptr := u16 ((st.peaks_buf_rd_ptr + 1) &&& u32_pred st.NumDmaPeaksBuffers) }
      hN (by simp only; rw [hN, cursor_advance e _ he]; exact Nat.mod_lt _ hpos) (by omega)
      (by simp only
          rw [hN, cursor_advance e _ he, hw, Nat.mod_add_mod]
          congr 1
          omega)
    refine ⟨st', ?_, h2, h3⟩
    unfold retrieve_peaks
    rw [get_peaks_data_ready false st hne]
    simp only [h1, Option.map_some']
    rw [u16_of_lt e _ he hr, List.range_succ_eq_map]
    simp only [List.map_cons, List.map_map, Nat.add_zero, Nat.mod_eq_of_lt hr]
    have hfun : (fun i => (u16 ((st.peaks_buf_rd_ptr + 1) &&& u32_pred st.NumDmaPeaksBuffers) + i)
        % 2 ^ e) = ((fun i => (st.peaks_buf_rd_ptr + i) % 2 ^ e) ∘ Nat.succ) := by
      funext i
      simp only [Function.comp, hN, cursor_advance e _ he, Nat.mod_add_mod]
      congr 1
      omega
    rw [hfun]


/-! ## Claims about the peaks stream -/

theorem total_completions_pos_ne_nil (es : List irq_event) (h : 0 < total_completions es) :
    es ≠ [] := by
  intro h0
  rw [h0] at h
  simp [total_completions] at h

/-- C1 (amended; FIFO order, P1): on a peaks stream whose count `N = 2 ^ e` is a
power of two up to 256, starting drained (`read_ptr = write_ptr = w`) with the
write pointer in step with the instrument (`(serial number + 1) mod N = w`),
after `k` completions with `1 ≤ k ≤ N - 1` delivered over any sequence of
peaks interrupts, every handler returns and `k` consecutive `GET_PEAKS_DATA`
calls return, without sleeping, the slots `w, w+1, ..., w+k-1` modulo `N`,
leaving `read_ptr = write_ptr`. -/
theorem C1_fifo_order (e w k fuel : Nat) (es : List irq_event) (b : sm500_bench)
    (he : e ≤ 8) (hN : b.dev.NumDmaPeaksBuffers = 2 ^ e)
    (hrd : b.dev.peaks_buf_rd_ptr = w) (hwr : b.dev.peaks_buf_wr_ptr = w) (hw : w < 2 ^ e)
    (hsync : (b.dev.BAR0 SM500_REG_DMASNLO + 1) % 2 ^ e = w)
    (hpk : ∀ ev ∈ es, u32 ev.int_flag &&& SM500_INT_PK ≠ 0)
    (hk : total_completions es = k) (hk1 : 1 ≤ k) (hkN : k ≤ 2 ^ e - 1)
    (hfuel : 2 ^ e ≤ fuel + 1) :
    ∃ b' st', interrupts fuel es b = some b' ∧
      retrieve_peaks k b'.dev = some ((List.range k).map (fun i => (w + i) % 2 ^ e), st') ∧
      st'.peaks_buf_rd_ptr = st'.peaks_buf_wr_ptr := by
  obtain ⟨b', r, n', rd', _, _, _, wq, _⟩ :=
    interrupts_peaks fuel e he hfuel es b hN (by rw [hwr]; exact hw) hpk
  have hne : es ≠ [] := total_completions_pos_ne_nil es (by omega)
  have hwr' : b'.dev.peaks_buf_wr_ptr = (b'.dev.peaks_buf_rd_ptr + k) % 2 ^ e := by
    rw [wq hne, rd', hrd, hk, ← hsync, Nat.mod_add_mod]
    congr 1
    omega
  obtain ⟨st', h1, h2, _⟩ := retrieve_peaks_fifo e (by omega) k b'.dev n'
    (by rw [rd', hrd]; exact hw) (by omega) hwr'
  refine ⟨b', st', r, ?_, h2⟩
  rw [h1, rd', hrd]

/-- C2 (amended; overrun overwrite, P2): on a peaks stream whose count
`N = 2 ^ e` is a power of two with `2 ≤ N ≤ 256`, starting drained
(`read_ptr = write_ptr`) with the write pointer in step with the instrument
(`(serial number + 1) mod N = write_ptr`), when the instrument completes
`N + 1` transfers (over any sequence of peaks interrupts) before any
retrieval, every handler returns, the first `GET_PEAKS_DATA` afterwards does
not sleep and returns the slot the first transfer went into, and that slot now
holds the data set of the last transfer, not of the first. -/
theorem C2_overrun_overwrite (e fuel : Nat) (es : List irq_event) (b : sm500_bench)
    (he1 : 1 ≤ e) (he : e ≤ 8) (hN : b.dev.NumDmaPeaksBuffers = 2 ^ e)
    (hrd : b.dev.peaks_buf_rd_ptr = b.dev.peaks_buf_wr_ptr)
    (hw : b.dev.peaks_buf_wr_ptr < 2 ^ e)
    (hsync : (b.dev.BAR0 SM500_REG_DMASNLO + 1) % 2 ^ e = b.dev.peaks_buf_wr_ptr)
    (hpk : ∀ ev ∈ es, u32 ev.int_flag &&& SM500_INT_PK ≠ 0)
    (hk : total_completions es = 2 ^ e + 1) (hfuel : 2 ^ e ≤ fuel + 1) :
    ∃ b' v st', interrupts fuel es b = some b' ∧
      sm500_ioctl false .GET_PEAKS_DATA b'.dev = .returned 0 (some v) st' ∧
      v = u32 (b.dev.BAR0 SM500_REG_DMASNLO + 1) &&& u32_pred (2 ^ e) ∧
      b'.peaks_dataset v = u32 (b.dev.BAR0 SM500_REG_DMASNLO + (2 ^ e + 1)) ∧
      b'.peaks_dataset v ≠ u32 (b.dev.BAR0 SM500_REG_DMASNLO + 1) := by
  obtain ⟨b', r, n', rd', _, sn', _, wq, ds⟩ :=
    interrupts_peaks fuel e he hfuel es b hN hw hpk
  have hpos : 0 < 2 ^ e := Nat.two_pow_pos _
  have h2 : 2 ≤ 2 ^ e := by
    calc 2 = 2 ^ 1 := rfl
      _ ≤ 2 ^ e := two_pow_le_of_le 1 e he1
  have h256 : 2 ^ e ≤ 2 ^ 8 := two_pow_le_of_le e 8 he
  have hne : es ≠ [] := total_completions_pos_ne_nil es (by omega)
  obtain ⟨dlt, dset⟩ := ds (Or.inl (by omega))
  rw [hk] at sn'
  rw [Nat.mod_eq_of_lt dlt] at sn'
  -- the slot of the last transfer is the slot of the first
  have hslot : b'.dev.BAR0 SM500_REG_DMASNLO &&& u32_pred b'.dev.NumDmaPeaksBuffers =
      b.dev.peaks_buf_wr_ptr := by
    rw [n', u32_pred_two_pow e (by omega), Nat.and_pow_two_sub_one_eq_mod, sn',
      Nat.mod_mod_of_dvd _ (Nat.pow_dvd_pow 2 (by omega : e ≤ 32)), ← hsync]
    rw [show b.dev.BAR0 SM500_REG_DMASNLO + (2 ^ e + 1) =
      b.dev.BAR0 SM500_REG_DMASNLO + 1 + 2 ^ e by omega, Nat.add_mod_right]
  have hfirst : u32 (b.dev.BAR0 SM500_REG_DMASNLO + 1) &&& u32_pred (2 ^ e) =
      b.dev.peaks_buf_wr_ptr := by
    rw [u32_pred_two_pow e (by omega), Nat.and_pow_two_sub_one_eq_mod, ← hsync]
    unfold u32
    exact Nat.mod_mod_of_dvd _ (Nat.pow_dvd_pow 2 (by omega : e ≤ 32))
  have hwr' : b'.dev.peaks_buf_wr_ptr = (b.dev.peaks_buf_wr_ptr + 1) % 2 ^ e := by
    rw [wq hne, hk, ← hsync, Nat.mod_add_mod]
    rw [show b.dev.BAR0 SM500_REG_DMASNLO + (2 ^ e + 1) + 1 =
      b.dev.BAR0 SM500_REG_DMASNLO + 1 + 1 + 2 ^ e by omega, Nat.add_mod_right]
  have hneq : b'.dev.peaks_buf_rd_ptr ≠ b'.dev.peaks_buf_wr_ptr := by
    rw [rd', hrd, hwr']
    exact (add_mod_ne_self _ 1 _ hw (by omega) (by omega)).symm
  have hget := get_peaks_data_ready false b'.dev hneq
  have hv : u16 b'.dev.peaks_buf_rd_ptr = b.dev.peaks_buf_wr_ptr := by
    rw [rd', hrd, u16_of_lt e _ (by omega) hw]
  rw [hv] at hget
  refine ⟨b', b.dev.peaks_buf_wr_ptr, _, r, hget, hfirst.symm, ?_, ?_⟩
  · rw [← hslot, dset, sn']
    rfl
  · rw [← hslot, dset, sn']
    unfold u32
    generalize 2 ^ e = N at *
    omega

theorem total_completions_ones (es : List irq_event) (h : ∀ ev ∈ es, ev.completions = 1) :
    total_completions es = es.length := by
  induction es with
  | nil => simp [total_completions]
  | cons ev es ih =>
    rw [total_completions_cons, h ev (List.mem_cons_self _ _),
      ih (fun x hx => h x (List.mem_cons_of_mem _ hx)), List.length_cons]
    omega

/-- C7 (amended; cursor wraparound, P4): on a peaks stream whose count
`N = 2 ^ e` is a power of two up to 256, from a write pointer `w < N` in step
with the instrument (`(serial number + 1) mod N = w`), after `N` completions,
each reported by its own peaks interrupt with the serial number one higher
than before, every handler returns and the write pointer is `w` again. -/
theorem C7_cursor_wraparound (e w fuel : Nat) (es : List irq_event) (b : sm500_bench)
    (he : e ≤ 8) (hN : b.dev.NumDmaPeaksBuffers = 2 ^ e)
    (hwr : b.dev.peaks_buf_wr_ptr = w) (hw : w < 2 ^ e)
    (hsync : (b.dev.BAR0 SM500_REG_DMASNLO + 1) % 2 ^ e = w)
    (hev : ∀ ev ∈ es, ev.completions = 1 ∧ u32 ev.int_flag &&& SM500_INT_PK ≠ 0)
    (hlen : es.length = 2 ^ e) (hfuel : 2 ^ e ≤ fuel + 1) :
    ∃ b', interrupts fuel es b = some b' ∧ b'.dev.peaks_buf_wr_ptr = w := by
  obtain ⟨b', r, _, _, _, _, _, wq, _⟩ :=
    interrupts_peaks fuel e he hfuel es b hN (by rw [hwr]; exact hw) (fun ev h => (hev ev h).2)
  have hpos : 0 < 2 ^ e := Nat.two_pow_pos _
  have hne : es ≠ [] := by
    intro h0
    rw [h0] at hlen
    simp at hlen
    omega
  refine ⟨b', r, ?_⟩
  rw [wq hne, total_completions_ones es (fun ev h => (hev ev h).1), hlen, ← hsync]
  rw [show b.dev.BAR0 SM500_REG_DMASNLO + 2 ^ e + 1 =
    b.dev.BAR0 SM500_REG_DMASNLO + 1 + 2 ^ e by omega, Nat.add_mod_right]


theorem single_peaks_flag (ts : List Nat) :
    ∀ ev ∈ ts.map single_peak, ev.completions = 1 ∧ u32 ev.int_flag &&& SM500_INT_PK ≠ 0 := by
  intro ev h
  obtain ⟨t, _, rfl⟩ := List.mem_map.mp h
  exact ⟨rfl, (by decide : u32 SM500_INT_PK &&& SM500_INT_PK ≠ 0)⟩

/-- Instance of C1 (amended): count 4, three completions at times 1, 2, 3, each with its
own interrupt; three retrievals return slots 0, 1, 2. -/
theorem C1_fifo_order_witness :
    ∃ b' st', interrupts 3 ([1, 2, 3].map single_peak) (fresh_bench 4) = some b' ∧
      retrieve_peaks 3 b'.dev = some ((List.range 3).map (fun i => (0 + i) % 2 ^ 2), st') ∧
      st'.peaks_buf_rd_ptr = st'.peaks_buf_wr_ptr :=
  C1_fifo_order 2 0 3 3 ([1, 2, 3].map single_peak) (fresh_bench 4) (by decide) rfl rfl rfl
    (by decide) rfl (fun ev h => (single_peaks_flag [1, 2, 3] ev h).2) rfl (by decide)
    (by decide) (by decide)

/-- Instance of C2 (amended): count 4, five completions before the first retrieval. -/
theorem C2_overrun_overwrite_witness :
    ∃ b' v st', interrupts 3 ([1, 2, 3, 4, 5].map single_peak) (fresh_bench 4) = some b' ∧
      sm500_ioctl false .GET_PEAKS_DATA b'.dev = .returned 0 (some v) st' ∧
      v = u32 ((fresh_bench 4).dev.BAR0 SM500_REG_DMASNLO + 1) &&& u32_pred (2 ^ 2) ∧
      b'.peaks_dataset v = u32 ((fresh_bench 4).dev.BAR0 SM500_REG_DMASNLO + (2 ^ 2 + 1)) ∧
      b'.peaks_dataset v ≠ u32 ((fresh_bench 4).dev.BAR0 SM500_REG_DMASNLO + 1) :=
  C2_overrun_overwrite 2 3 ([1, 2, 3, 4, 5].map single_peak) (fresh_bench 4) (by decide)
    (by decide) rfl rfl (by decide) rfl
    (fun ev h => (single_peaks_flag [1, 2, 3, 4, 5] ev h).2) rfl (by decide)

/-- Instance of C7 (amended): count 4, write pointer 0, four completions: the write
pointer is 0 again, not 4. -/
theorem C7_cursor_wraparound_witness :
    ∃ b', interrupts 3 ([1, 2, 3, 4].map single_peak) (fresh_bench 4) = some b' ∧
      b'.dev.peaks_buf_wr_ptr = 0 :=
  C7_cursor_wraparound 2 0 3 ([1, 2, 3, 4].map single_peak) (fresh_bench 4) (by decide) rfl rfl
    (by decide) rfl (single_peaks_flag [1, 2, 3, 4]) rfl (by decide)

/-- C3: the command `PEAKS_DATA_READY` reports the field `peaks_data_ready`,
which nothing sets. On a count-4 stream after three completions with no
retrieval the cursors differ and `GET_PEAKS_DATA` returns slot 0 at once, yet
`PeaksDataReady` answers false. -/
theorem C3_peaks_ready_false_with_data :
    ∃ b', interrupts 3 ([1, 2, 3].map single_peak) (fresh_bench 4) = some b' ∧
      b'.dev.peaks_buf_rd_ptr = 0 ∧ b'.dev.peaks_buf_wr_ptr = 3 ∧
      (∃ st', sm500_ioctl false .GET_PEAKS_DATA b'.dev = .returned 0 (some 0) st') ∧
      Csm500DevCtrl.PeaksDataReady b'.dev = .returns false b'.dev := by
  obtain ⟨b', r, _, rd', pr', _, _, wq, _⟩ :=
    interrupts_peaks 3 2 (by decide) (by decide) ([1, 2, 3].map single_peak) (fresh_bench 4)
      rfl (by decide) (fun ev h => (single_peaks_flag [1, 2, 3] ev h).2)
  have hrd : b'.dev.peaks_buf_rd_ptr = 0 := rd'
  have hwr : b'.dev.peaks_buf_wr_ptr = 3 := wq (by simp)
  have hpr : b'.dev.peaks_data_ready = 0 := pr'
  refine ⟨b', r, hrd, hwr, ?_, ?_⟩
  · have hget := get_peaks_data_ready false b'.dev (by rw [hrd, hwr]; decide)
    rw [hrd] at hget
    exact ⟨_, hget⟩
  · simp [Csm500DevCtrl.PeaksDataReady, user_ioctl, sm500_ioctl, hpr, u8]

/-- C5: two callers sleep in `GET_PEAKS_DATA` on a count-4 stream with both
cursors at 0 (respectively at 1). After one `CANCEL_READ` the first caller
woken returns the out-of-range value 4; that call resets the read pointer to
1, so the second caller returns slot 1 although no transfer has completed
(respectively, with the write pointer at 1, stays asleep). -/
theorem C5_cancel_releases_first_sleeper_only :
    (sm500_ioctl false .CANCEL_READ (fresh_dev 4)).state.map
        (fun st => (wake_peaks_sleepers 2 st).1) = some [some 4, some 1] ∧
    (sm500_ioctl false .CANCEL_READ
        { fresh_dev 4 with peaks_buf_wr_ptr := 1, peaks_buf_rd_ptr := 1 }).state.map
        (fun st => (wake_peaks_sleepers 2 st).1) = some [some 4, none] :=
  ⟨rfl, rfl⟩


/-! ## Reachable states -/

/-- Whatever the loop body maintains, the loop maintains. -/
theorem peaks_drain_inv (P : dev_sm500 → Prop) (int_flag tv_sec tv_nsec : Nat)
    (hP : ∀ st, P st → P (peaks_drain_body int_flag tv_sec tv_nsec st)) :
    ∀ (fuel : Nat) (st st' : dev_sm500),
      P st → peaks_drain int_flag tv_sec tv_nsec fuel st = some st' → P st' := by
  intro fuel
  induction fuel with
  | zero =>
    intro st st' hst h
    unfold peaks_drain at h
    by_cases hc : st.peaks_buf_wr_ptr ≠ st.target_pk_buf_index
    · simp [hc] at h
    · simp [hc] at h
      rw [← h]; exact hst
  | succ n ih =>
    intro st st' hst h
    unfold peaks_drain at h
    by_cases hc : st.peaks_buf_wr_ptr ≠ st.target_pk_buf_index
    · simp [hc] at h
      exact ih _ _ (hP st hst) h
    · simp [hc] at h
      rw [← h]; exact hst

/-- Whatever the parts of the handler maintain, the handler maintains. -/
theorem sm500_ISR_inv (P : dev_sm500 → Prop) (fuel tv_sec tv_nsec : Nat)
    (hb : ∀ flag st, P st → P (peaks_drain_body flag tv_sec tv_nsec st))
    (ht : ∀ (st : dev_sm500) (t : Nat), P st → P { st with target_pk_buf_index := t })
    (hfs : ∀ st, P st → P (fs_branch st))
    (hwr : ∀ st, P st → P (sm500_iowrite32 st SM500_REG_INTF SM500_INT_CLEAR))
    (st st' : dev_sm500) (hst : P st) (h : sm500_ISR fuel tv_sec tv_nsec st = some st') :
    P st' := by
  unfold sm500_ISR at h
  simp only at h
  have h0 := hwr st hst
  split at h
  · simp only [Option.some.injEq] at h
    rw [← h]; exact h0
  · have h1 : P (if sm500_ioread32 st SM500_REG_INTF &&& SM500_INT_FS ≠ 0
        then fs_branch (sm500_iowrite32 st SM500_REG_INTF SM500_INT_CLEAR)
        else sm500_iowrite32 st SM500_REG_INTF SM500_INT_CLEAR) := by
      split
      · exact hfs _ h0
      · exact h0
    split at h
    · unfold peaks_branch at h
      exact peaks_drain_inv P _ tv_sec tv_nsec (hb _) fuel _ st' (ht _ _ h1) h
    · simp only [Option.some.injEq] at h
      rw [← h]; exact h1

theorem cursors_in_range_body (e : Nat) (he : e ≤ 16) (flag tv_sec tv_nsec : Nat)
    (st : dev_sm500) (h : cursors_in_range e st) :
    cursors_in_range e (peaks_drain_body flag tv_sec tv_nsec st) := by
  obtain ⟨hN, _, hr⟩ := h
  refine ⟨by rw [peaks_drain_body_count, hN], ?_, by rw [peaks_drain_body_rd]; exact hr⟩
  rw [peaks_drain_body_wr, hN, cursor_advance e _ he]
  exact Nat.mod_lt _ (Nat.two_pow_pos _)

/-- Every event keeps the peaks cursors in range. -/
theorem step_cursors_in_range (e : Nat) (he : e ≤ 15) (ev : event) (st st' : dev_sm500)
    (hst : cursors_in_range e st) (h : step ev st = some st') : cursors_in_range e st' := by
  have hpos : 0 < 2 ^ e := Nat.two_pow_pos _
  have h15 : 2 ^ e ≤ 2 ^ 15 := two_pow_le_of_le e 15 he
  cases ev with
  | fpga regs pk fs =>
    simp only [step, Option.some.injEq] at h
    rw [← h]; exact hst
  | irq fuel tv_sec tv_nsec =>
    exact sm500_ISR_inv (cursors_in_range e) fuel tv_sec tv_nsec
      (fun flag s hs => cursors_in_range_body e (by omega) flag tv_sec tv_nsec s hs)
      (fun _ _ hs => hs) (fun _ hs => hs) (fun _ hs => hs) st st' hst h
  | sys_open =>
    simp only [step, sm500_open, Option.some.injEq] at h
    rw [← h]
    obtain ⟨hN, hw, hr⟩ := hst
    split
    · exact ⟨hN, hw, hr⟩
    · exact ⟨hN, hw, Nat.le_of_lt hw⟩
  | sys_close =>
    simp only [step, sm500_close, Option.some.injEq] at h
    rw [← h]; exact hst
  | sys_mmap remap_err =>
    simp only [step, sm500_mmap, Option.some.injEq] at h
    rw [← h]
    split <;> split <;> exact hst
  | sys_ioctl signal_pending cmd =>
    obtain ⟨hN, hw, hr⟩ := hst
    cases cmd with
    | GET_PEAKS_DATA =>
      simp only [step, sm500_ioctl] at h
      by_cases hc : st.peaks_buf_rd_ptr = st.peaks_buf_wr_ptr ∧
          wait_event_interruptible (st.peaks_buf_rd_ptr != st.peaks_buf_wr_ptr) signal_pending
            = false
      · rw [if_pos hc] at h
        simp only [Option.some.injEq] at h
        rw [← h]; exact ⟨hN, hw, hr⟩
      · rw [if_neg hc] at h
        simp only [Option.some.injEq] at h
        rw [← h]
        refine ⟨hN, hw, ?_⟩
        simp only
        rw [hN, cursor_advance e _ (by omega)]
        exact Nat.le_of_lt (Nat.mod_lt _ hpos)
    | GET_SPECTRUM =>
      simp only [step, sm500_ioctl] at h
      by_cases hc : st.fs_data_ready = 0 ∧
          wait_event_interruptible (st.fs_data_ready != 0) signal_pending = false
      · rw [if_pos hc] at h
        simp only [Option.some.injEq] at h
        rw [← h]; exact ⟨hN, hw, hr⟩
      · rw [if_neg hc] at h
        simp only [Option.some.injEq] at h
        rw [← h]; exact ⟨hN, hw, hr⟩
    | CANCEL_READ =>
      simp only [step, sm500_ioctl, Option.some.injEq] at h
      rw [← h]
      refine ⟨hN, hw, ?_⟩
      simp only
      rw [hN]
      unfold u16
      exact Nat.mod_le _ _
    | DRV_VERSION =>
      simp only [step, sm500_ioctl, Option.some.injEq] at h
      rw [← h]; exact ⟨hN, hw, hr⟩
    | READ_REG32 reg =>
      simp only [step, sm500_ioctl, Option.some.injEq] at h
      rw [← h]; exact ⟨hN, hw, hr⟩
    | WRITE_REG32 reg value =>
      simp only [step, sm500_ioctl, Option.some.injEq] at h
      rw [← h]; exact ⟨hN, hw, hr⟩
    | SET_MMAP_INDEX data32 =>
      simp only [step, sm500_ioctl, Option.some.injEq] at h
      rw [← h]; exact ⟨hN, hw, hr⟩
    | PEAKS_DATA_READY =>
      simp only [step, sm500_ioctl, Option.some.injEq] at h
      rw [← h]; exact ⟨hN, hw, hr⟩
    | FS_DATA_READY =>
      simp only [step, sm500_ioctl, Option.some.injEq] at h
      rw [← h]; exact ⟨hN, hw, hr⟩
    | other c =>
      simp only [step, sm500_ioctl, Option.some.injEq] at h
      rw [← h]; exact ⟨hN, hw, hr⟩

/-- Every sequence of events keeps the peaks cursors in range. -/
theorem run_cursors_in_range (e : Nat) (he : e ≤ 15) :
    ∀ (evs : List event) (st st' : dev_sm500),
      cursors_in_range e st → run evs st = some st' → cursors_in_range e st' := by
  intro evs
  induction evs with
  | nil =>
    intro st st' hst h
    simp only [run, Option.some.injEq] at h
    rw [← h]; exact hst
  | cons ev evs ih =>
    intro st st' hst h
    simp only [run] at h
    cases hs : step ev st with
    | none => rw [hs] at h; simp at h
    | some s1 =>
      rw [hs] at h
      simp only [Option.some_bind] at h
      exact ih s1 st' (step_cursors_in_range e he ev st s1 hst hs) h

theorem sm500_init_cursors_in_range (e : Nat) (regs : Nat → Nat) (pk fs : Nat → Nat → Nat)
    (hN : u32 (regs SM500_REG_NPKBUF) = 2 ^ e) :
    cursors_in_range e (sm500_init regs pk fs) :=
  ⟨hN, Nat.two_pow_pos _, Nat.zero_le _⟩


/-! ## Claims about retrieval results -/

/-- Counterexample to C4 as stated: on a count-4 stream, after `CANCEL_READ` the
command `GET_PEAKS_DATA` reports no error and yields 4, which is not a slot
index, and the lookup `DmaPeaksBuffer[4]` of `GetPeaksData` falls outside the
four-element array. -/
theorem C4_retrieve_after_cancel_out_of_range :
    ∃ st st', run [.sys_ioctl false .CANCEL_READ] (fresh_dev 4) = some st ∧
      st.NumDmaPeaksBuffers = 4 ∧
      sm500_ioctl false .GET_PEAKS_DATA st = .returned 0 (some 4) st' ∧
      (mapped_lib 4).DmaPeaksBuffer.length = 4 ∧
      (Csm500DevCtrl.GetPeaksData (mapped_lib 4) false st).value = some none :=
  ⟨_, _, rfl, rfl, rfl, rfl, rfl⟩

/-- C4 (amended): in every state reachable from initialisation by any sequence
of events, on a stream of `2 ^ e ≤ 32768` buffers, a `GET_PEAKS_DATA` that
returns reports no error and yields the read pointer, which is at most the
count: a slot index, or the count itself exactly when the read pointer holds
that value (set by `CANCEL_READ`). Whenever the value is a slot index, the
lookup `DmaPeaksBuffer[val]` of `GetPeaksData` is inside the array. -/
theorem C4_retrieve_index_at_most_count (e : Nat) (regs : Nat → Nat) (pk fs : Nat → Nat → Nat)
    (evs : List event) (st : dev_sm500) (signal_pending : Bool) (self : Csm500DevCtrl)
    (he : e ≤ 15) (hN : u32 (regs SM500_REG_NPKBUF) = 2 ^ e)
    (hrun : run evs (sm500_init regs pk fs) = some st)
    (hlen : self.DmaPeaksBuffer.length = 2 ^ e) :
    sm500_ioctl signal_pending .GET_PEAKS_DATA st = .sleeping ∨
    ∃ v st', sm500_ioctl signal_pending .GET_PEAKS_DATA st = .returned 0 (some v) st' ∧
      v = st.peaks_buf_rd_ptr ∧ v ≤ 2 ^ e ∧
      (v < 2 ^ e → ∃ p, self.GetPeaksData signal_pending st = .returns (some p) st') := by
  obtain ⟨_, _, hr⟩ :=
    run_cursors_in_range e he evs _ st (sm500_init_cursors_in_range e regs pk fs hN) hrun
  have h15 : 2 ^ e ≤ 2 ^ 15 := two_pow_le_of_le e 15 he
  have hu : u16 st.peaks_buf_rd_ptr = st.peaks_buf_rd_ptr := by
    unfold u16
    exact Nat.mod_eq_of_lt (by omega)
  by_cases hc : st.peaks_buf_rd_ptr = st.peaks_buf_wr_ptr ∧
      wait_event_interruptible (st.peaks_buf_rd_ptr != st.peaks_buf_wr_ptr) signal_pending
        = false
  · left
    simp only [sm500_ioctl]
    rw [if_pos hc]
  · right
    have hio : sm500_ioctl signal_pending .GET_PEAKS_DATA st =
        .returned 0 (some st.peaks_buf_rd_ptr)
          { st with
            peaks_buf_rd_ptr :=
              u16 ((st.peaks_buf_rd_ptr + 1) &&& u32_pred st.NumDmaPeaksBuffers) } := by
      simp only [sm500_ioctl]
      rw [if_neg hc, hu]
    refine ⟨st.peaks_buf_rd_ptr, _, hio, rfl, hr, ?_⟩
    intro hlt
    have hin : st.peaks_buf_rd_ptr < self.DmaPeaksBuffer.length := by rw [hlen]; exact hlt
    have hget : array_at self.DmaPeaksBuffer st.peaks_buf_rd_ptr =
        some (self.DmaPeaksBuffer.get ⟨st.peaks_buf_rd_ptr, hin⟩) := by
      unfold array_at
      exact List.get?_eq_get hin
    refine ⟨self.DmaPeaksBuffer.get ⟨st.peaks_buf_rd_ptr, hin⟩, ?_⟩
    rw [Csm500DevCtrl.GetPeaksData, user_ioctl, hio]
    simp [hget]

/-- Instance of C4 (amended): the count-4 device after `CANCEL_READ`. -/
theorem C4_retrieve_index_at_most_count_witness :
    sm500_ioctl false .GET_PEAKS_DATA
        { fresh_dev 4 with fs_data_ready := 1, peaks_buf_rd_ptr := u16 4 } = .sleeping ∨
    ∃ v st', sm500_ioctl false .GET_PEAKS_DATA
        { fresh_dev 4 with fs_data_ready := 1, peaks_buf_rd_ptr := u16 4 } =
          .returned 0 (some v) st' ∧
      v = 4 ∧ v ≤ 2 ^ 2 ∧
      (v < 2 ^ 2 → ∃ p, (mapped_lib 4).GetPeaksData false
        { fresh_dev 4 with fs_data_ready := 1, peaks_buf_rd_ptr := u16 4 } =
          .returns (some p) st') :=
  C4_retrieve_index_at_most_count 2 (fresh_regs 4) (fun _ _ => 0) (fun _ _ => 0)
    [.sys_ioctl false .CANCEL_READ] _ false (mapped_lib 4) (by decide) rfl rfl rfl


/-! ## Claims about the full-spectrum stream -/

theorem peaks_branch_fs_ready (fuel int_flag tv_sec tv_nsec : Nat) (st st' : dev_sm500)
    (h : peaks_branch fuel int_flag tv_sec tv_nsec st = some st') :
    st'.fs_data_ready = st.fs_data_ready :=
  peaks_branch_keeps (fun s => s.fs_data_ready) fuel int_flag tv_sec tv_nsec
    (fun _ => peaks_drain_body_fs_ready _ _ _ _) (fun _ _ => rfl) st st' h

/-- An interrupt serviced while the flag register shows `SM500_INT_FS` leaves
the full-spectrum readiness flag at 1. -/
theorem sm500_ISR_sets_fs_ready (fuel tv_sec tv_nsec : Nat) (st st' : dev_sm500)
    (hfs : sm500_ioread32 st SM500_REG_INTF &&& SM500_INT_FS ≠ 0)
    (h : sm500_ISR fuel tv_sec tv_nsec st = some st') : st'.fs_data_ready = 1 := by
  have h0 : sm500_ioread32 st SM500_REG_INTF ≠ 0 := land_ne_zero_ne_zero _ _ hfs
  unfold sm500_ISR at h
  simp only at h
  rw [if_neg h0, if_pos hfs] at h
  split at h
  · rw [peaks_branch_fs_ready _ _ _ _ _ _ h]
    rfl
  · simp only [Option.some.injEq] at h
    rw [← h]
    rfl

/-- An interrupt serviced while the flag register does not show `SM500_INT_FS`
leaves the full-spectrum readiness flag as it was. -/
theorem sm500_ISR_keeps_fs_ready (fuel tv_sec tv_nsec : Nat) (st st' : dev_sm500)
    (hfs : sm500_ioread32 st SM500_REG_INTF &&& SM500_INT_FS = 0)
    (h : sm500_ISR fuel tv_sec tv_nsec st = some st') :
    st'.fs_data_ready = st.fs_data_ready := by
  have hn : ¬ (sm500_ioread32 st SM500_REG_INTF &&& SM500_INT_FS ≠ 0) := by
    rw [hfs]; simp
  unfold sm500_ISR at h
  simp only at h
  rw [if_neg hn] at h
  split at h
  · simp only [Option.some.injEq] at h
    rw [← h]
    rfl
  · split at h
    · rw [peaks_branch_fs_ready _ _ _ _ _ _ h]
      rfl
    · simp only [Option.some.injEq] at h
      rw [← h]
      rfl

/-- The command `GET_SPECTRUM` when the readiness flag is set. -/
theorem get_spectrum_ready (signal_pending : Bool) (st : dev_sm500)
    (h : st.fs_data_ready ≠ 0) :
    sm500_ioctl signal_pending .GET_SPECTRUM st =
      .returned 0 (some 0) { st with fs_data_ready := 0 } := by
  simp [sm500_ioctl, h, u16]

/-- The member `FsDataReady` on a state whose readiness flag is clear. -/
theorem FsDataReady_false (st : dev_sm500) (h : st.fs_data_ready = 0) :
    Csm500DevCtrl.FsDataReady st = .returns false st := by
  simp [Csm500DevCtrl.FsDataReady, user_ioctl, sm500_ioctl, h, u8]

/-- Counterexample to C6 as stated: on the count-4 device with a caller asleep
in `GET_SPECTRUM`, the result the caller gets after `CANCEL_READ` and the
result it gets after a full-spectrum interrupt are the same, error code 0 and
value 0, and `GetFsData` returns the same pointer. -/
theorem C6_fs_cancel_result_equals_data_result :
    (sm500_ioctl false .GET_SPECTRUM (fresh_dev 4) = .sleeping) ∧
    ((sm500_ioctl false .CANCEL_READ (fresh_dev 4)).state.bind
        (fun st => (sm500_ioctl false .GET_SPECTRUM st).code_and_out)) = some (0, some 0) ∧
    ((sm500_ISR 0 1 0 (raise_flag SM500_INT_FS (fresh_dev 4))).bind
        (fun st => (sm500_ioctl false .GET_SPECTRUM st).code_and_out)) = some (0, some 0) ∧
    ((sm500_ioctl false .CANCEL_READ (fresh_dev 4)).state.bind
        (fun st => (Csm500DevCtrl.GetFsData (mapped_lib 4) false st).value)) =
      ((sm500_ISR 0 1 0 (raise_flag SM500_INT_FS (fresh_dev 4))).bind
        (fun st => (Csm500DevCtrl.GetFsData (mapped_lib 4) false st).value)) :=
  ⟨rfl, rfl, rfl, rfl⟩

/-- C6 (amended): a caller released from `GET_SPECTRUM` gets the same result
whether `CANCEL_READ` or a full-spectrum interrupt released it: error code 0
and value 0 in both cases, and `GetFsData` returns the same pointer
`DmaFsBuffer[0]`; the result does not tell the two apart. -/
theorem C6_fs_cancel_same_as_data (st st_irq : dev_sm500) (fuel tv_sec tv_nsec : Nat)
    (signal_pending : Bool) (self : Csm500DevCtrl)
    (hfs : sm500_ioread32 st SM500_REG_INTF &&& SM500_INT_FS ≠ 0)
    (hirq : sm500_ISR fuel tv_sec tv_nsec st = some st_irq) :
    ∃ st_cancel, sm500_ioctl false .CANCEL_READ st = .returned 0 none st_cancel ∧
      (sm500_ioctl signal_pending .GET_SPECTRUM st_cancel).code_and_out = some (0, some 0) ∧
      (sm500_ioctl signal_pending .GET_SPECTRUM st_irq).code_and_out = some (0, some 0) ∧
      (self.GetFsData signal_pending st_cancel).value = some (array_at self.DmaFsBuffer 0) ∧
      (self.GetFsData signal_pending st_irq).value = some (array_at self.DmaFsBuffer 0) := by
  have h1 : st_irq.fs_data_ready ≠ 0 := by
    rw [sm500_ISR_sets_fs_ready fuel tv_sec tv_nsec st st_irq hfs hirq]
    decide
  refine ⟨{ st with fs_data_ready := 1, peaks_buf_rd_ptr := u16 st.NumDmaPeaksBuffers }, rfl,
    ?_, ?_, ?_, ?_⟩
  · rw [get_spectrum_ready signal_pending _ (by simp)]
    rfl
  · rw [get_spectrum_ready signal_pending _ h1]
    rfl
  · rw [Csm500DevCtrl.GetFsData, user_ioctl, get_spectrum_ready signal_pending _ (by simp)]
    simp [call_result.value]
  · rw [Csm500DevCtrl.GetFsData, user_ioctl, get_spectrum_ready signal_pending _ h1]
    simp [call_result.value]

/-- Instance of C6 (amended): the count-4 device with the instrument showing
`SM500_INT_FS`. -/
theorem C6_fs_cancel_same_as_data_witness :
    ∃ st_cancel, sm500_ioctl false .CANCEL_READ (raise_flag SM500_INT_FS (fresh_dev 4)) =
        .returned 0 none st_cancel ∧
      (sm500_ioctl false .GET_SPECTRUM st_cancel).code_and_out = some (0, some 0) ∧
      (sm500_ioctl false .GET_SPECTRUM
        (fs_branch (sm500_iowrite32 (raise_flag SM500_INT_FS (fresh_dev 4)) SM500_REG_INTF
          SM500_INT_CLEAR))).code_and_out = some (0, some 0) ∧
      ((mapped_lib 4).GetFsData false st_cancel).value =
        some (array_at (mapped_lib 4).DmaFsBuffer 0) ∧
      ((mapped_lib 4).GetFsData false
        (fs_branch (sm500_iowrite32 (raise_flag SM500_INT_FS (fresh_dev 4)) SM500_REG_INTF
          SM500_INT_CLEAR))).value = some (array_at (mapped_lib 4).DmaFsBuffer 0) :=
  C6_fs_cancel_same_as_data (raise_flag SM500_INT_FS (fresh_dev 4)) _ 0 1 0 false (mapped_lib 4)
    (by decide) rfl


/-- An event that is neither a full-spectrum interrupt nor `CANCEL_READ` leaves
a clear readiness flag clear. -/
theorem step_keeps_fs_clear (ev : event) (st st' : dev_sm500)
    (hq : sets_fs_ready ev st = false) (hclear : st.fs_data_ready = 0)
    (h : step ev st = some st') : st'.fs_data_ready = 0 := by
  cases ev with
  | fpga regs pk fs =>
    simp only [step, Option.some.injEq] at h
    rw [← h]; exact hclear
  | irq fuel tv_sec tv_nsec =>
    simp only [sets_fs_ready, bne_eq_false_iff_eq] at hq
    rw [sm500_ISR_keeps_fs_ready fuel tv_sec tv_nsec st st' hq h]
    exact hclear
  | sys_open =>
    simp only [step, sm500_open, Option.some.injEq] at h
    rw [← h]
    split <;> exact hclear
  | sys_close =>
    simp only [step, sm500_close, Option.some.injEq] at h
    rw [← h]; exact hclear
  | sys_mmap remap_err =>
    simp only [step, sm500_mmap, Option.some.injEq] at h
    rw [← h]
    split <;> split <;> exact hclear
  | sys_ioctl signal_pending cmd =>
    cases cmd with
    | GET_PEAKS_DATA =>
      simp only [step, sm500_ioctl] at h
      by_cases hc : st.peaks_buf_rd_ptr = st.peaks_buf_wr_ptr ∧
          wait_event_interruptible (st.peaks_buf_rd_ptr != st.peaks_buf_wr_ptr) signal_pending
            = false
      · rw [if_pos hc] at h
        simp only [Option.some.injEq] at h
        rw [← h]; exact hclear
      · rw [if_neg hc] at h
        simp only [Option.some.injEq] at h
        rw [← h]; exact hclear
    | GET_SPECTRUM =>
      simp only [step, sm500_ioctl] at h
      by_cases hc : st.fs_data_ready = 0 ∧
          wait_event_interruptible (st.fs_data_ready != 0) signal_pending = false
      · rw [if_pos hc] at h
        simp only [Option.some.injEq] at h
        rw [← h]; exact hclear
      · rw [if_neg hc] at h
        simp only [Option.some.injEq] at h
        rw [← h]
    | CANCEL_READ => simp [sets_fs_ready] at hq
    | DRV_VERSION =>
      simp only [step, sm500_ioctl, Option.some.injEq] at h
      rw [← h]; exact hclear
    | READ_REG32 reg =>
      simp only [step, sm500_ioctl, Option.some.injEq] at h
      rw [← h]; exact hclear
    | WRITE_REG32 reg value =>
      simp only [step, sm500_ioctl, Option.some.injEq] at h
      rw [← h]; exact hclear
    | SET_MMAP_INDEX data32 =>
      simp only [step, sm500_ioctl, Option.some.injEq] at h
      rw [← h]; exact hclear
    | PEAKS_DATA_READY =>
      simp only [step, sm500_ioctl, Option.some.injEq] at h
      rw [← h]; exact hclear
    | FS_DATA_READY =>
      simp only [step, sm500_ioctl, Option.some.injEq] at h
      rw [← h]; exact hclear
    | other c =>
      simp only [step, sm500_ioctl, Option.some.injEq] at h
      rw [← h]; exact hclear

/-- A sequence of events none of which is a full-spectrum interrupt or
`CANCEL_READ` leaves a clear readiness flag clear. -/
theorem run_keeps_fs_clear :
    ∀ (evs : List event) (st st' : dev_sm500),
      fs_quiet evs st = true → st.fs_data_ready = 0 → run evs st = some st' →
      st'.fs_data_ready = 0 := by
  intro evs
  induction evs with
  | nil =>
    intro st st' _ hclear h
    simp only [run, Option.some.injEq] at h
    rw [← h]; exact hclear
  | cons ev evs ih =>
    intro st st' hq hclear h
    simp only [run] at h
    cases hs : step ev st with
    | none => rw [hs] at h; simp at h
    | some s1 =>
      rw [hs] at h
      simp only [Option.some_bind] at h
      simp only [fs_quiet, hs, Bool.and_eq_true, Bool.not_eq_true'] at hq
      exact ih s1 st' hq.2 (step_keeps_fs_clear ev st s1 hq.1 hclear hs) h

/-- C8 (full-spectrum retrieval): whenever the readiness flag is set,
`GET_SPECTRUM` returns without waiting (whether or not a signal is pending),
reports slot 0 and clears the flag, so `FsDataReady` is false right afterwards
and after any sequence of events that contains no full-spectrum interrupt and
no `CANCEL_READ`; and `FS_DATA_READY` reports the flag and leaves every state
as it is. -/
theorem C8_fs_retrieve_clears_flag (st : dev_sm500) (signal_pending : Bool)
    (hready : st.fs_data_ready ≠ 0) :
    ∃ st', sm500_ioctl signal_pending .GET_SPECTRUM st = .returned 0 (some 0) st' ∧
      st'.fs_data_ready = 0 ∧
      Csm500DevCtrl.FsDataReady st' = .returns false st' ∧
      (∀ (evs : List event) (st'' : dev_sm500),
        fs_quiet evs st' = true → run evs st' = some st'' →
        Csm500DevCtrl.FsDataReady st'' = .returns false st'') ∧
      (∀ (s : dev_sm500) (sig : Bool),
        sm500_ioctl sig .FS_DATA_READY s = .returned 0 (some (u8 s.fs_data_ready)) s) := by
  refine ⟨{ st with fs_data_ready := 0 }, get_spectrum_ready signal_pending st hready, rfl,
    FsDataReady_false _ rfl, ?_, fun _ _ => rfl⟩
  intro evs st'' hq hrun
  exact FsDataReady_false _ (run_keeps_fs_clear evs _ st'' hq rfl hrun)

/-- Instance of C8: the count-4 device after a full-spectrum interrupt. -/
theorem C8_fs_retrieve_clears_flag_witness :
    ∃ st', sm500_ioctl false .GET_SPECTRUM
        (fs_branch (sm500_iowrite32 (raise_flag SM500_INT_FS (fresh_dev 4)) SM500_REG_INTF
          SM500_INT_CLEAR)) = .returned 0 (some 0) st' ∧
      st'.fs_data_ready = 0 ∧
      Csm500DevCtrl.FsDataReady st' = .returns false st' ∧
      (∀ (evs : List event) (st'' : dev_sm500),
        fs_quiet evs st' = true → run evs st' = some st'' →
        Csm500DevCtrl.FsDataReady st'' = .returns false st'') ∧
      (∀ (s : dev_sm500) (sig : Bool),
        sm500_ioctl sig .FS_DATA_READY s = .returned 0 (some (u8 s.fs_data_ready)) s) :=
  C8_fs_retrieve_clears_flag _ false (by decide)


/-! ## Version strings -/

theorem printf_d_small (x : Nat) (h : x < 2 ^ 16) : printf_d x = Nat.toDigits 10 x := by
  have hu : u32 x = x := by unfold u32; exact Nat.mod_eq_of_lt (by omega)
  unfold printf_d
  rw [hu, if_pos (by omega)]

/-- C9 (driver version decode, P6): for every major and minor below `2 ^ 16`,
`GetDriverVersion` on the value `(major << 16) + minor` writes the decimal
digits of major, a dot, the decimal digits of minor and the terminator. -/
theorem C9_driver_version_decode (major minor : Nat) (hmaj : major < 2 ^ 16)
    (hmin : minor < 2 ^ 16) :
    Csm500DriverInterface.GetDriverVersion ((major <<< 16) + minor) =
      (Nat.repr major).toList ++ ['.'] ++ (Nat.repr minor).toList ++ [Char.ofNat 0] := by
  have hval : u32 ((major <<< 16) + minor) = major * 2 ^ 16 + minor := by
    rw [Nat.shiftLeft_eq]
    unfold u32
    exact Nat.mod_eq_of_lt (by omega)
  have hhi : (major * 2 ^ 16 + minor) >>> 16 = major := by
    rw [Nat.shiftRight_eq_div_pow]
    omega
  have hlo : (major * 2 ^ 16 + minor) &&& 0xFFFF = minor := by
    rw [show (0xFFFF : Nat) = 2 ^ 16 - 1 by decide, Nat.and_pow_two_sub_one_eq_mod]
    omega
  unfold Csm500DriverInterface.GetDriverVersion
  rw [hval, hhi, hlo, printf_d_small major hmaj, printf_d_small minor hmin]
  rfl

/-- Instance of C9: the raw value `0x00010012` decodes to "1.18". -/
theorem C9_driver_version_decode_witness :
    Csm500DriverInterface.GetDriverVersion ((1 <<< 16) + 18) =
      (Nat.repr 1).toList ++ ['.'] ++ (Nat.repr 18).toList ++ [Char.ofNat 0] ∧
    (1 <<< 16) + 18 = 0x00010012 ∧
    (Nat.repr 1).toList ++ ['.'] ++ (Nat.repr 18).toList = ['1', '.', '1', '8'] :=
  ⟨C9_driver_version_decode 1 18 (by decide) (by decide), by decide, by decide⟩

theorem hdl_str_byte (b0 b1 b2 b3 : Nat) (h0 : b0 < 256) (h1 : b1 < 256) (h2 : b2 < 256)
    (h3 : b3 < 256) :
    hdl_str (b0 + (b1 <<< 8) + (b2 <<< 16) + (b3 <<< 24)) 0 = b0 ∧
    hdl_str (b0 + (b1 <<< 8) + (b2 <<< 16) + (b3 <<< 24)) 1 = b1 ∧
    hdl_str (b0 + (b1 <<< 8) + (b2 <<< 16) + (b3 <<< 24)) 2 = b2 ∧
    hdl_str (b0 + (b1 <<< 8) + (b2 <<< 16) + (b3 <<< 24)) 3 = b3 := by
  have hmask : (0xFF : Nat) = 2 ^ 8 - 1 := by decide
  unfold hdl_str u32
  simp only [Nat.shiftLeft_eq, Nat.shiftRight_eq_div_pow, hmask, Nat.and_pow_two_sub_one_eq_mod]
  refine ⟨?_, ?_, ?_, ?_⟩ <;> omega

/-- C10 (HDL version byte reversal, P7): for every 32-bit value whose bytes
stored low to high are `b0, b1, b2, b3`, `GetHdlVersion` leaves
`b3, b2, b1, b0` and a terminating zero in `HdlVersion`, whatever the array
held before; the bytes `0x41, 0x42, 0x43, 0x44` give "DCBA". -/
theorem C10_hdl_version_reversal (HdlVersion0 : Nat → Nat) (b0 b1 b2 b3 : Nat)
    (h0 : b0 < 256) (h1 : b1 < 256) (h2 : b2 < 256) (h3 : b3 < 256) :
    Csm500DevCtrl.GetHdlVersion HdlVersion0 (b0 + (b1 <<< 8) + (b2 <<< 16) + (b3 <<< 24)) =
      [b3, b2, b1, b0, 0] := by
  obtain ⟨e0, e1, e2, e3⟩ := hdl_str_byte b0 b1 b2 b3 h0 h1 h2 h3
  simp only [Csm500DevCtrl.GetHdlVersion, GetHdlVersion_loop]
  simp [List.range, List.range.loop, Function.update, e0, e1, e2, e3]

/-- Instance of C10: the bytes `0x41, 0x42, 0x43, 0x44` decode to "DCBA". -/
theorem C10_hdl_version_reversal_witness :
    Csm500DevCtrl.GetHdlVersion (fun _ => 0xFF)
        (0x41 + (0x42 <<< 8) + (0x43 <<< 16) + (0x44 <<< 24)) = [0x44, 0x43, 0x42, 0x41, 0] ∧
    c_str [0x44, 0x43, 0x42, 0x41, 0] = ['D', 'C', 'B', 'A'] :=
  ⟨C10_hdl_version_reversal (fun _ => 0xFF) 0x41 0x42 0x43 0x44 (by decide) (by decide)
    (by decide) (by decide), by decide⟩


/-! ## Effect of one interrupt -/

/-- C20 (spurious interrupt): when the value read from the interrupt flag
register has both the peaks-complete and the full-spectrum-complete bit clear
(in particular when it is zero), the handler returns and the only change to
the device context is the clearing write to the flag register: cursors,
readiness flags, the pending full-spectrum timestamp and all buffer memory
are as before. -/
theorem C20_spurious_interrupt_only_clears_flag (fuel tv_sec tv_nsec : Nat) (st : dev_sm500) :
    (sm500_ioread32 st SM500_REG_INTF = 0 →
      sm500_ISR fuel tv_sec tv_nsec st =
        some { st with BAR0 := Function.update st.BAR0 SM500_REG_INTF 0 }) ∧
    (sm500_ioread32 st SM500_REG_INTF &&& SM500_INT_PK = 0 →
      sm500_ioread32 st SM500_REG_INTF &&& SM500_INT_FS = 0 →
      sm500_ISR fuel tv_sec tv_nsec st =
        some { st with BAR0 := Function.update st.BAR0 SM500_REG_INTF 0 }) := by
  have hw : sm500_iowrite32 st SM500_REG_INTF SM500_INT_CLEAR =
      { st with BAR0 := Function.update st.BAR0 SM500_REG_INTF 0 } := rfl
  constructor
  · intro h0
    unfold sm500_ISR
    simp only [h0, if_true, hw]
  · intro hpk hfs
    unfold sm500_ISR
    simp only [hpk, hfs, ne_eq, not_true_eq_false, if_false, hw]
    split <;> rfl

/-- Instance of C20: the count-4 device with the flag register at zero, and
with only bit 31 set in it. -/
theorem C20_spurious_interrupt_only_clears_flag_witness :
    sm500_ISR 0 1 0 (fresh_dev 4) =
      some { fresh_dev 4 with BAR0 := Function.update (fresh_dev 4).BAR0 SM500_REG_INTF 0 } ∧
    sm500_ISR 0 1 0 (raise_flag SM500_INT_FS_SET (fresh_dev 4)) =
      some { raise_flag SM500_INT_FS_SET (fresh_dev 4) with
        BAR0 := Function.update (raise_flag SM500_INT_FS_SET (fresh_dev 4)).BAR0
          SM500_REG_INTF 0 } :=
  ⟨(C20_spurious_interrupt_only_clears_flag 0 1 0 (fresh_dev 4)).1 (by decide),
   (C20_spurious_interrupt_only_clears_flag 0 1 0 (raise_flag SM500_INT_FS_SET (fresh_dev 4))).2
     (by decide) (by decide)⟩

/-- The loop ends with the write pointer on the target from any write pointer,
in range or not, once it is allowed as many iterations as there are slots. -/
theorem peaks_drain_reaches_any (int_flag tv_sec tv_nsec e : Nat) (he : e ≤ 16)
    (fuel : Nat) (st : dev_sm500) (hN : st.NumDmaPeaksBuffers = 2 ^ e)
    (ht : st.target_pk_buf_index < 2 ^ e) (hfuel : 2 ^ e ≤ fuel) :
    ∃ st', peaks_drain int_flag tv_sec tv_nsec fuel st = some st' ∧
      st'.peaks_buf_wr_ptr = st.target_pk_buf_index := by
  have hpos : 0 < 2 ^ e := Nat.two_pow_pos _
  by_cases hw : st.peaks_buf_wr_ptr < 2 ^ e
  · exact peaks_drain_reaches int_flag tv_sec tv_nsec e he fuel st hN hw ht
      (fun _ => by omega) (fun _ => by omega)
  · obtain ⟨n, rfl⟩ : ∃ n, fuel = n + 1 := ⟨fuel - 1, by omega⟩
    have hne : st.peaks_buf_wr_ptr ≠ st.target_pk_buf_index := by omega
    have hwr := peaks_drain_body_wr int_flag tv_sec tv_nsec st
    rw [hN, cursor_advance e _ he] at hwr
    have hlt : (st.peaks_buf_wr_ptr + 1) % 2 ^ e < 2 ^ e := Nat.mod_lt _ hpos
    have htg := peaks_drain_body_target int_flag tv_sec tv_nsec st
    have hct := peaks_drain_body_count int_flag tv_sec tv_nsec st
    obtain ⟨st', hrun, hfin⟩ := peaks_drain_reaches int_flag tv_sec tv_nsec e he n
      (peaks_drain_body int_flag tv_sec tv_nsec st) (by rw [hct, hN]) (by rw [hwr]; exact hlt)
      (by rw [htg]; exact ht) (fun _ => by rw [htg]; omega) (fun _ => by rw [htg, hwr]; omega)
    refine ⟨st', ?_, by rw [hfin, htg]⟩
    unfold peaks_drain
    simp [hne, hrun]

/-- C18 (amended): on a stream whose count `2 ^ e` is a power of two up to 256,
for every value `s` of the serial number register and every write pointer,
an interrupt with the peaks-complete bit set returns and leaves the write
pointer at `(s + 1) mod count`. -/
theorem C18_peaks_target_up_to_256 (e fuel tv_sec tv_nsec : Nat) (st : dev_sm500)
    (he : e ≤ 8) (hN : st.NumDmaPeaksBuffers = 2 ^ e)
    (hpk : sm500_ioread32 st SM500_REG_INTF &&& SM500_INT_PK ≠ 0) (hfuel : 2 ^ e ≤ fuel) :
    ∃ st', sm500_ISR fuel tv_sec tv_nsec st = some st' ∧
      st'.peaks_buf_wr_ptr = (sm500_ioread32 st SM500_REG_DMASNLO + 1) % 2 ^ e := by
  have h0 : sm500_ioread32 st SM500_REG_INTF ≠ 0 := land_ne_zero_ne_zero _ _ hpk
  have hpos : 0 < 2 ^ e := Nat.two_pow_pos _
  unfold sm500_ISR
  simp only
  rw [if_neg h0, if_pos hpk]
  generalize hst1 : (if sm500_ioread32 st SM500_REG_INTF &&& SM500_INT_FS ≠ 0
      then fs_branch (sm500_iowrite32 st SM500_REG_INTF SM500_INT_CLEAR)
      else sm500_iowrite32 st SM500_REG_INTF SM500_INT_CLEAR) = st1
  have e_N : st1.NumDmaPeaksBuffers = 2 ^ e := by
    rw [← hst1, ← hN]; split <;> rfl
  have e_sn : sm500_ioread32 st1 SM500_REG_DMASNLO = sm500_ioread32 st SM500_REG_DMASNLO := by
    rw [← hst1]
    split <;> simp [sm500_ioread32, fs_branch, sm500_iowrite32, SM500_REG_INTF, SM500_REG_DMASNLO]
  have e_tg : u8 (u32 (sm500_ioread32 st1 SM500_REG_DMASNLO + 1) &&&
      u32_pred st1.NumDmaPeaksBuffers) = (sm500_ioread32 st SM500_REG_DMASNLO + 1) % 2 ^ e := by
    rw [e_N, target_index e _ he, e_sn]
  unfold peaks_branch
  rw [e_tg]
  obtain ⟨st', hrun, hfin⟩ := peaks_drain_reaches_any (sm500_ioread32 st SM500_REG_INTF)
    tv_sec tv_nsec e (by omega) fuel
    { st1 with target_pk_buf_index := (sm500_ioread32 st SM500_REG_DMASNLO + 1) % 2 ^ e }
    e_N (Nat.mod_lt _ hpos) hfuel
  exact ⟨st', hrun, hfin⟩

/-- Instance of C18 (amended): count 4, serial number 6, write pointer 0. -/
theorem C18_peaks_target_up_to_256_witness :
    ∃ st', sm500_ISR 4 1 0
        { raise_flag SM500_INT_PK (fresh_dev 4) with
          BAR0 := Function.update (raise_flag SM500_INT_PK (fresh_dev 4)).BAR0
            SM500_REG_DMASNLO 6 } = some st' ∧
      st'.peaks_buf_wr_ptr = (6 + 1) % 2 ^ 2 :=
  C18_peaks_target_up_to_256 2 4 1 0 _ (by decide) rfl (by decide) (by decide)

/-- Counterexample to C18 as stated: with 512 buffers, serial number 255 and the
write pointer at 0, the 8-bit target index is `256 mod 256 = 0`, the loop does
not run and the write pointer stays 0, while `(255 + 1) mod 512 = 256`. -/
theorem C18_target_truncated_for_512_buffers :
    ∃ st', sm500_ISR 512 1 0
        { raise_flag SM500_INT_PK (fresh_dev 512) with
          BAR0 := Function.update (raise_flag SM500_INT_PK (fresh_dev 512)).BAR0
            SM500_REG_DMASNLO 255 } = some st' ∧
      st'.NumDmaPeaksBuffers = 2 ^ 9 ∧
      st'.peaks_buf_wr_ptr = 0 ∧
      (255 + 1) % 2 ^ 9 = 256 :=
  ⟨_, rfl, rfl, rfl, rfl⟩


/-! ## The mmap index -/

theorem land_fs_bit_of_lt (n : Nat) (hn : n < 2 ^ 31) : n &&& SM500_MMAP_FS_BUFFER = 0 := by
  apply Nat.eq_of_testBit_eq
  intro i
  rw [Nat.testBit_and, Nat.zero_testBit]
  have h2 : SM500_MMAP_FS_BUFFER = 2 ^ 31 := by decide
  rw [h2, Nat.testBit_two_pow]
  by_cases hi : 31 = i
  · subst hi
    rw [Nat.testBit_lt_two_pow hn]
    rfl
  · simp [hi]

theorem land_fs_bit_of_add (n : Nat) (hn : n < 2 ^ 31) :
    (SM500_MMAP_FS_BUFFER + n) &&& SM500_MMAP_FS_BUFFER ≠ 0 := by
  intro h
  have h2 : SM500_MMAP_FS_BUFFER = 2 ^ 31 := by decide
  have ht : ((SM500_MMAP_FS_BUFFER + n) &&& SM500_MMAP_FS_BUFFER).testBit 31 = true := by
    rw [Nat.testBit_and, h2, Nat.testBit_two_pow_add_eq, Nat.testBit_lt_two_pow hn,
      Nat.testBit_two_pow_self]
    rfl
  rw [h, Nat.zero_testBit] at ht
  exact Bool.noConfusion ht

theorem land_index_mask (x : Nat) : x &&& 0xFFFF = x % 2 ^ 16 := by
  rw [show (0xFFFF : Nat) = 2 ^ 16 - 1 by decide, Nat.and_pow_two_sub_one_eq_mod]

/-- One mapping request on a state whose index selects the peaks stream. -/
theorem sm500_mmap_peaks (remap_err : Int) (st : dev_sm500)
    (hsel : st.mmap_index &&& SM500_MMAP_FS_BUFFER = 0) :
    sm500_mmap remap_err st =
      if st.NumDmaPeaksBuffers ≤ st.mmap_index % 2 ^ 16 then (-EAGAIN, none, st)
      else (remap_err, some (false, st.mmap_index % 2 ^ 16),
        { st with mmap_index := u32 (st.mmap_index + 1) }) := by
  unfold sm500_mmap
  simp only [hsel, ne_eq, not_true_eq_false, if_false, land_index_mask, ge_iff_le]

/-- One mapping request on a state whose index selects the full-spectrum
stream. -/
theorem sm500_mmap_fs (remap_err : Int) (st : dev_sm500)
    (hsel : st.mmap_index &&& SM500_MMAP_FS_BUFFER ≠ 0) :
    sm500_mmap remap_err st =
      if st.NumDmaFsBuffers ≤ st.mmap_index % 2 ^ 16 then (-EAGAIN, none, st)
      else (remap_err, some (true, st.mmap_index % 2 ^ 16),
        { st with mmap_index := u32 (st.mmap_index + 1) }) := by
  unfold sm500_mmap
  simp only [hsel, ne_eq, not_false_eq_true, if_true, land_index_mask, ge_iff_le]

/-- Counterexample to C16 as stated: on a stream of 4 peaks buffers the request
for buffer index 65536 is not rejected; it maps buffer 0 and advances the
index. -/
theorem C16_index_65536_maps_buffer_0 :
    ∃ st1, sm500_ioctl false (.SET_MMAP_INDEX (SM500_MMAP_PEAKS_BUFFER + 65536)) (fresh_dev 4)
        = .returned 0 none st1 ∧
      st1.NumDmaPeaksBuffers = 4 ∧
      sm500_mmap 0 st1 = (0, some (false, 0), { st1 with mmap_index := 65537 }) :=
  ⟨_, rfl, rfl, rfl⟩

/-- C16 (amended): the driver looks at the low 16 bits of the requested index
only. For either stream (`fs` true for full spectrum) and every requested
index `n` below `2 ^ 31`, after `SET_MMAP_INDEX(stream base + n)` a mapping
request fails with `-EAGAIN`, maps nothing and leaves the index as it is when
`n mod 65536` is at least the count of the stream; otherwise it hands buffer
`n mod 65536` of the selected stream to `remap_pfn_range`, returns its result
and advances the index by one. For `n` below 65536 this is: rejected when
`n ≥ count`, buffer `n` when `n < count`. -/
theorem C16_mmap_index_low_16_bits (st : dev_sm500) (n : Nat) (remap_err : Int) (fs : Bool)
    (hn : n < 2 ^ 31) :
    ∃ st1,
      sm500_ioctl false
        (.SET_MMAP_INDEX ((if fs then SM500_MMAP_FS_BUFFER else SM500_MMAP_PEAKS_BUFFER) + n)) st
        = .returned 0 none st1 ∧
      ((if fs then st.NumDmaFsBuffers else st.NumDmaPeaksBuffers) ≤ n % 2 ^ 16 →
        sm500_mmap remap_err st1 = (-EAGAIN, none, st1)) ∧
      (n % 2 ^ 16 < (if fs then st.NumDmaFsBuffers else st.NumDmaPeaksBuffers) →
        sm500_mmap remap_err st1 =
          (remap_err, some (fs, n % 2 ^ 16),
            { st1 with mmap_index := u32 (st1.mmap_index + 1) })) ∧
      (n < 2 ^ 16 → n % 2 ^ 16 = n) := by
  have hb : SM500_MMAP_FS_BUFFER = 2 ^ 31 := by decide
  cases fs with
  | false =>
    have hidx : u32 (SM500_MMAP_PEAKS_BUFFER + n) = n := by
      unfold u32 SM500_MMAP_PEAKS_BUFFER
      omega
    refine ⟨{ st with mmap_index := u32 (SM500_MMAP_PEAKS_BUFFER + n) }, rfl, ?_, ?_,
      fun h => Nat.mod_eq_of_lt h⟩
    · intro hc
      rw [sm500_mmap_peaks remap_err _ (by simp only; rw [hidx]; exact land_fs_bit_of_lt n hn)]
      simp only [hidx]
      rw [if_pos (by simpa using hc)]
    · intro hc
      rw [sm500_mmap_peaks remap_err _ (by simp only; rw [hidx]; exact land_fs_bit_of_lt n hn)]
      simp only [hidx]
      rw [if_neg (by simp only [Bool.false_eq_true, if_false] at hc; omega)]
  | true =>
    have hidx : u32 (SM500_MMAP_FS_BUFFER + n) = SM500_MMAP_FS_BUFFER + n := by
      unfold u32
      rw [hb]
      omega
    have hmod : (SM500_MMAP_FS_BUFFER + n) % 2 ^ 16 = n % 2 ^ 16 := by
      rw [hb]
      omega
    refine ⟨{ st with mmap_index := u32 (SM500_MMAP_FS_BUFFER + n) }, rfl, ?_, ?_,
      fun h => Nat.mod_eq_of_lt h⟩
    · intro hc
      rw [sm500_mmap_fs remap_err _ (by simp only; rw [hidx]; exact land_fs_bit_of_add n hn)]
      simp only [hidx, hmod]
      rw [if_pos (by simpa using hc)]
    · intro hc
      rw [sm500_mmap_fs remap_err _ (by simp only; rw [hidx]; exact land_fs_bit_of_add n hn)]
      simp only [hidx, hmod]
      rw [if_neg (by simp only [if_true] at hc; omega)]

/-- Instance of C16 (amended): the count-4 peaks stream and index 5. -/
theorem C16_mmap_index_low_16_bits_witness :
    ∃ st1,
      sm500_ioctl false
        (.SET_MMAP_INDEX ((if false then SM500_MMAP_FS_BUFFER else SM500_MMAP_PEAKS_BUFFER) + 5))
        (fresh_dev 4) = .returned 0 none st1 ∧
      ((if false then (fresh_dev 4).NumDmaFsBuffers else (fresh_dev 4).NumDmaPeaksBuffers)
          ≤ 5 % 2 ^ 16 →
        sm500_mmap 0 st1 = (-EAGAIN, none, st1)) ∧
      (5 % 2 ^ 16 < (if false then (fresh_dev 4).NumDmaFsBuffers
          else (fresh_dev 4).NumDmaPeaksBuffers) →
        sm500_mmap 0 st1 =
          (0, some (false, 5 % 2 ^ 16), { st1 with mmap_index := u32 (st1.mmap_index + 1) })) ∧
      (5 < 2 ^ 16 → 5 % 2 ^ 16 = 5) :=
  C16_mmap_index_low_16_bits (fresh_dev 4) 5 0 false (by decide)


/-! ## Length of the version string -/

theorem GetHdlVersion_bytes (HdlVersion0 : Nat → Nat) (hdl_u32 : Nat) :
    Csm500DevCtrl.GetHdlVersion HdlVersion0 hdl_u32 =
      [hdl_str hdl_u32 3, hdl_str hdl_u32 2, hdl_str hdl_u32 1, hdl_str hdl_u32 0, 0] := by
  simp only [Csm500DevCtrl.GetHdlVersion, GetHdlVersion_loop]
  simp [List.range, List.range.loop, Function.update]

/-- Counterexample to C11 as stated: the value `0x41004243` contains a zero
byte; the string `GetHdlVersion` returns for it is "A", one character long. -/
theorem C11_zero_byte_shortens_string :
    c_str (Csm500DevCtrl.GetHdlVersion (fun _ => 0xFF) 0x41004243) = ['A'] ∧
    (c_str (Csm500DevCtrl.GetHdlVersion (fun _ => 0xFF) 0x41004243)).length = 1 := by
  decide

/-- C11 (amended): for every raw value and whatever `HdlVersion` held before,
`GetHdlVersion` leaves five bytes of which the last is the terminator; the
string returned has at most 4 characters, and exactly 4 if and only if none
of the four bytes of the raw value is zero. -/
theorem C11_hdl_version_string_length (HdlVersion0 : Nat → Nat) (hdl_u32 : Nat) :
    (Csm500DevCtrl.GetHdlVersion HdlVersion0 hdl_u32).length = 5 ∧
    (Csm500DevCtrl.GetHdlVersion HdlVersion0 hdl_u32).get? 4 = some 0 ∧
    (c_str (Csm500DevCtrl.GetHdlVersion HdlVersion0 hdl_u32)).length ≤ 4 ∧
    ((c_str (Csm500DevCtrl.GetHdlVersion HdlVersion0 hdl_u32)).length = 4 ↔
      (hdl_str hdl_u32 0 ≠ 0 ∧ hdl_str hdl_u32 1 ≠ 0 ∧ hdl_str hdl_u32 2 ≠ 0 ∧
        hdl_str hdl_u32 3 ≠ 0)) := by
  rw [GetHdlVersion_bytes]
  generalize hdl_str hdl_u32 0 = b0
  generalize hdl_str hdl_u32 1 = b1
  generalize hdl_str hdl_u32 2 = b2
  generalize hdl_str hdl_u32 3 = b3
  refine ⟨rfl, rfl, ?_, ?_⟩
  · unfold c_str
    rw [List.length_map]
    by_cases h3 : b3 = 0 <;> by_cases h2 : b2 = 0 <;> by_cases h1 : b1 = 0 <;>
      by_cases h0 : b0 = 0 <;> simp [List.takeWhile_cons, h0, h1, h2, h3]
  · unfold c_str
    rw [List.length_map]
    by_cases h3 : b3 = 0 <;> by_cases h2 : b2 = 0 <;> by_cases h1 : b1 = 0 <;>
      by_cases h0 : b0 = 0 <;> simp [List.takeWhile_cons, h0, h1, h2, h3]


/-! ## Slots stamped by the drain loop -/

theorem stamp_stamp (buf : Nat → Nat) (off tv_sec tv_nsec : Nat) :
    stamp (stamp buf off tv_sec tv_nsec) off tv_sec tv_nsec = stamp buf off tv_sec tv_nsec := by
  funext k
  unfold stamp
  by_cases h1 : k = off + 1
  · subst h1
    rw [Function.update_same, Function.update_same]
  · rw [Function.update_noteq h1, Function.update_noteq h1]
    by_cases h0 : k = off
    · subst h0
      rw [Function.update_same, Function.update_same]
    · rw [Function.update_noteq h0, Function.update_noteq h1, Function.update_noteq h0]

theorem peaks_drain_body_buffer (int_flag tv_sec tv_nsec : Nat) (st : dev_sm500) :
    (peaks_drain_body int_flag tv_sec tv_nsec st).dma_peaks_buffer =
      Function.update st.dma_peaks_buffer st.peaks_buf_wr_ptr
        (stamp (st.dma_peaks_buffer st.peaks_buf_wr_ptr) st.DmaBufferSnOffset32 tv_sec tv_nsec) := by
  unfold peaks_drain_body
  by_cases h : int_flag &&& SM500_INT_FS_SET ≠ 0 <;>
    simp [h, store32, stamp, Function.update_idem]

theorem peaks_drain_body_offset (int_flag tv_sec tv_nsec : Nat) (st : dev_sm500) :
    (peaks_drain_body int_flag tv_sec tv_nsec st).DmaBufferSnOffset32 = st.DmaBufferSnOffset32 := by
  unfold peaks_drain_body
  by_cases h : int_flag &&& SM500_INT_FS_SET ≠ 0 <;> simp [h]

theorem drain_slots_succ (count w d : Nat) :
    drain_slots count w (d + 1) = (w % count) :: drain_slots count ((w + 1) % count) d := by
  unfold drain_slots
  rw [List.range_succ_eq_map]
  simp only [List.map_cons, List.map_map, Nat.add_zero]
  congr 1
  apply List.map_congr_left
  intro i _
  simp only [Function.comp, Nat.mod_add_mod]
  congr 1
  omega

/-- The loop started `d` slots before the target stamps the `d` slots from the
write pointer on, each once with the same time, and nothing else. -/
theorem peaks_drain_stamps (int_flag tv_sec tv_nsec e : Nat) (he : e ≤ 16) :
    ∀ (d fuel : Nat) (st : dev_sm500),
      st.NumDmaPeaksBuffers = 2 ^ e →
      st.peaks_buf_wr_ptr < 2 ^ e →
      d < 2 ^ e →
      st.target_pk_buf_index = (st.peaks_buf_wr_ptr + d) % 2 ^ e →
      d ≤ fuel →
      ∃ st', peaks_drain int_flag tv_sec tv_nsec fuel st = some st' ∧
        st'.peaks_buf_wr_ptr = st.target_pk_buf_index ∧
        ∀ j, st'.dma_peaks_buffer j =
          if j ∈ drain_slots (2 ^ e) st.peaks_buf_wr_ptr d then
            stamp (st.dma_peaks_buffer j) st.DmaBufferSnOffset32 tv_sec tv_nsec
          else st.dma_peaks_buffer j := by
  intro d
  induction d with
  | zero =>
    intro fuel st _ hw _ ht _
    have heq : st.peaks_buf_wr_ptr = st.target_pk_buf_index := by
      rw [ht, Nat.add_zero, Nat.mod_eq_of_lt hw]
    refine ⟨st, ?_, heq, ?_⟩
    · unfold peaks_drain
      simp [heq]
    · intro j
      simp [drain_slots]
  | succ d ih =>
    intro fuel st hN hw hd ht hfuel
    obtain ⟨n, rfl⟩ : ∃ n, fuel = n + 1 := ⟨fuel - 1, by omega⟩
    have hpos : 0 < 2 ^ e := Nat.two_pow_pos _
    have hne : st.peaks_buf_wr_ptr ≠ st.target_pk_buf_index := by
      rw [ht]
      exact (add_mod_ne_self _ _ _ hw (by omega) hd).symm
    have hwr := peaks_drain_body_wr int_flag tv_sec tv_nsec st
    rw [hN, cursor_advance e _ he] at hwr
    have htg := peaks_drain_body_target int_flag tv_sec tv_nsec st
    have hct := peaks_drain_body_count int_flag tv_sec tv_nsec st
    have hbuf := peaks_drain_body_buffer int_flag tv_sec tv_nsec st
    have hoff := peaks_drain_body_offset int_flag tv_sec tv_nsec st
    obtain ⟨st', hrun, hfin, hst⟩ := ih n (peaks_drain_body int_flag tv_sec tv_nsec st)
      (by rw [hct, hN]) (by rw [hwr]; exact Nat.mod_lt _ hpos) (by omega)
      (by rw [htg, hwr, ht, Nat.mod_add_mod]; congr 1; omega) (by omega)
    refine ⟨st', ?_, by rw [hfin, htg], ?_⟩
    · unfold peaks_drain
      simp [hne, hrun]
    · intro j
      rw [hst j, hwr, hbuf, hoff, drain_slots_succ, Nat.mod_eq_of_lt hw]
      by_cases hj : j = st.peaks_buf_wr_ptr
      · subst hj
        simp only [Function.update_same, List.mem_cons, true_or, if_true]
        split
        · exact stamp_stamp _ _ _ _
        · rfl
      · simp only [Function.update_noteq hj, List.mem_cons, hj, false_or]


theorem stamp_apply (buf : Nat → Nat) (off tv_sec tv_nsec k : Nat) :
    stamp buf off tv_sec tv_nsec k =
      if k = off + 1 then u32 tv_nsec else if k = off then u32 tv_sec else buf k := by
  unfold stamp
  by_cases h1 : k = off + 1
  · subst h1
    rw [Function.update_same, if_pos rfl]
  · rw [Function.update_noteq h1, if_neg h1]
    by_cases h0 : k = off
    · subst h0
      rw [Function.update_same, if_pos rfl]
    · rw [Function.update_noteq h0, if_neg h0]

theorem mod_distance (w t N : Nat) (hw : w < N) (ht : t < N) :
    (t + N - w) % N < N ∧ (w + (t + N - w) % N) % N = t := by
  have hd : (t + N - w) % N = if t + N - w < N then t + N - w else t + N - w - N :=
    mod_lt_twice _ _ (by omega)
  have hs : (w + (t + N - w) % N) % N =
      if w + (t + N - w) % N < N then w + (t + N - w) % N else w + (t + N - w) % N - N :=
    mod_lt_twice _ _ (by rw [hd]; split <;> omega)
  rw [hs, hd]
  constructor
  · split <;> omega
  · split <;> split <;> omega

/-- C19 (no completed buffer is skipped): on a stream whose count `N = 2 ^ e` is
a power of two up to 256, with the write pointer at `w < N`, one peaks
interrupt with target `t = (serial number + 1) mod N` returns, leaves the
write pointer at `t`, and stamps exactly the `d = (t - w) mod N` slots
`w, w+1, ..., t-1` (modulo `N`): in each of them word `DmaBufferSnOffset32`
holds the seconds and the following word the nanoseconds of this interrupt,
every other word of these buffers and every word of every other buffer is as
before. -/
theorem C19_drain_stamps_exactly (e fuel tv_sec tv_nsec : Nat) (st : dev_sm500) (he : e ≤ 8)
    (hN : st.NumDmaPeaksBuffers = 2 ^ e) (hw : st.peaks_buf_wr_ptr < 2 ^ e)
    (hpk : sm500_ioread32 st SM500_REG_INTF &&& SM500_INT_PK ≠ 0) (hfuel : 2 ^ e ≤ fuel + 1) :
    ∃ st' t d, sm500_ISR fuel tv_sec tv_nsec st = some st' ∧
      t = (sm500_ioread32 st SM500_REG_DMASNLO + 1) % 2 ^ e ∧
      d = (t + 2 ^ e - st.peaks_buf_wr_ptr) % 2 ^ e ∧
      st'.peaks_buf_wr_ptr = t ∧
      (drain_slots (2 ^ e) st.peaks_buf_wr_ptr d).length = d ∧
      ∀ j k, st'.dma_peaks_buffer j k =
        if j ∈ drain_slots (2 ^ e) st.peaks_buf_wr_ptr d then
          (if k = st.DmaBufferSnOffset32 + 1 then u32 tv_nsec
           else if k = st.DmaBufferSnOffset32 then u32 tv_sec
           else st.dma_peaks_buffer j k)
        else st.dma_peaks_buffer j k := by
  have h0 : sm500_ioread32 st SM500_REG_INTF ≠ 0 := land_ne_zero_ne_zero _ _ hpk
  have hpos : 0 < 2 ^ e := Nat.two_pow_pos _
  have htlt : (sm500_ioread32 st SM500_REG_DMASNLO + 1) % 2 ^ e < 2 ^ e := Nat.mod_lt _ hpos
  obtain ⟨hdlt, hdt⟩ := mod_distance st.peaks_buf_wr_ptr
    ((sm500_ioread32 st SM500_REG_DMASNLO + 1) % 2 ^ e) (2 ^ e) hw htlt
  unfold sm500_ISR
  simp only
  rw [if_neg h0, if_pos hpk]
  generalize hst1 : (if sm500_ioread32 st SM500_REG_INTF &&& SM500_INT_FS ≠ 0
      then fs_branch (sm500_iowrite32 st SM500_REG_INTF SM500_INT_CLEAR)
      else sm500_iowrite32 st SM500_REG_INTF SM500_INT_CLEAR) = st1
  have e_N : st1.NumDmaPeaksBuffers = 2 ^ e := by
    rw [← hst1, ← hN]; split <;> rfl
  have e_wr : st1.peaks_buf_wr_ptr = st.peaks_buf_wr_ptr := by
    rw [← hst1]; split <;> rfl
  have e_buf : st1.dma_peaks_buffer = st.dma_peaks_buffer := by
    rw [← hst1]; split <;> rfl
  have e_off : st1.DmaBufferSnOffset32 = st.DmaBufferSnOffset32 := by
    rw [← hst1]; split <;> rfl
  have e_sn : sm500_ioread32 st1 SM500_REG_DMASNLO = sm500_ioread32 st SM500_REG_DMASNLO := by
    rw [← hst1]
    split <;> simp [sm500_ioread32, fs_branch, sm500_iowrite32, SM500_REG_INTF, SM500_REG_DMASNLO]
  have e_tg : u8 (u32 (sm500_ioread32 st1 SM500_REG_DMASNLO + 1) &&&
      u32_pred st1.NumDmaPeaksBuffers) = (sm500_ioread32 st SM500_REG_DMASNLO + 1) % 2 ^ e := by
    rw [e_N, target_index e _ he, e_sn]
  unfold peaks_branch
  rw [e_tg]
  obtain ⟨st', hrun, hfin, hst⟩ := peaks_drain_stamps (sm500_ioread32 st SM500_REG_INTF)
    tv_sec tv_nsec e (by omega)
    (((sm500_ioread32 st SM500_REG_DMASNLO + 1) % 2 ^ e + 2 ^ e - st.peaks_buf_wr_ptr) % 2 ^ e)
    fuel
    { st1 with target_pk_buf_index := (sm500_ioread32 st SM500_REG_DMASNLO + 1) % 2 ^ e }
    e_N (by simp only; rw [e_wr]; exact hw) hdlt (by simp only; rw [e_wr, hdt]) (by omega)
  simp only [e_wr, e_buf, e_off] at hst hfin
  refine ⟨st', _, _, hrun, rfl, rfl, hfin, by simp [drain_slots], ?_⟩
  intro j k
  rw [hst j]
  split
  · exact stamp_apply _ _ _ _ _
  · rfl

/-- Instance of C19: count 4, write pointer 0, serial number 1 on the
count-4 device (target 2). -/
theorem C19_drain_stamps_exactly_witness :
    ∃ st' t d, sm500_ISR 3 7 9
        { raise_flag SM500_INT_PK (fresh_dev 4) with
          BAR0 := Function.update (raise_flag SM500_INT_PK (fresh_dev 4)).BAR0
            SM500_REG_DMASNLO 1 } = some st' ∧
      t = (1 + 1) % 2 ^ 2 ∧
      d = (t + 2 ^ 2 - 0) % 2 ^ 2 ∧
      st'.peaks_buf_wr_ptr = t ∧
      (drain_slots (2 ^ 2) 0 d).length = d ∧
      ∀ j k, st'.dma_peaks_buffer j k =
        if j ∈ drain_slots (2 ^ 2) 0 d then
          (if k = 0 + 1 then u32 9 else if k = 0 then u32 7 else 0)
        else 0 :=
  C19_drain_stamps_exactly 2 3 7 9 _ (by decide) rfl (by decide) (by decide) (by decide)


/-! ## The library above the system calls: composition rules -/

theorem outcome.sat_bind {α β : Type} (r : outcome α) (f : α → lib_state → outcome β)
    (T : Int → lib_state → Prop) (R' : α → lib_state → Prop) (R : β → lib_state → Prop)
    (hr : r.sat T R') (hf : ∀ v s, R' v s → (f v s).sat T R) : (r.bind f).sat T R := by
  cases r with
  | throws e s => exact hr
  | sleeping => trivial
  | undefined => trivial
  | returns v s => exact hf v s hr

theorem outcome.sat_catch {α : Type} (r : outcome α) (h : lib_state → lib_state)
    (T' T : Int → lib_state → Prop) (R : α → lib_state → Prop)
    (hr : r.sat T' R) (hh : ∀ e s, T' e s → T e (h s)) : (r.catch_rethrow h).sat T R := by
  cases r with
  | throws e s => exact hh e s hr
  | sleeping => trivial
  | undefined => trivial
  | returns v s => exact hr

theorem outcome.sat_mono {α : Type} (r : outcome α) (T' T : Int → lib_state → Prop)
    (R' R : α → lib_state → Prop) (hr : r.sat T' R')
    (hT : ∀ e s, T' e s → T e s) (hR : ∀ v s, R' v s → R v s) : r.sat T R := by
  cases r with
  | throws e s => exact hT e s hr
  | sleeping => trivial
  | undefined => trivial
  | returns v s => exact hR v s hr

theorem outcome.sat_returns {α : Type} (r : outcome α) (T : Int → lib_state → Prop)
    (R : α → lib_state → Prop) (hr : r.sat T R) (v : α) (s : lib_state)
    (h : r = .returns v s) : R v s := by
  subst h; exact hr

theorem outcome.sat_throws {α : Type} (r : outcome α) (T : Int → lib_state → Prop)
    (R : α → lib_state → Prop) (hr : r.sat T R) (e : Int) (s : lib_state)
    (h : r = .throws e s) : T e s := by
  subst h; exact hr

theorem only_acquired_refl (sys : os_state) : sys.only_acquired sys :=
  ⟨rfl, ⟨[], by simp, by simp⟩, ⟨[], by simp⟩⟩

theorem only_acquired_trans (a b c : os_state) (h1 : a.only_acquired b)
    (h2 : b.only_acquired c) : a.only_acquired c := by
  obtain ⟨f1, ⟨e1, l1, q1⟩, ⟨m1, p1⟩⟩ := h1
  obtain ⟨f2, ⟨e2, l2, q2⟩, ⟨m2, p2⟩⟩ := h2
  refine ⟨f2.trans f1, ⟨e1 ++ e2, by rw [l2, l1, List.append_assoc], ?_⟩,
    ⟨m1 ++ m2, by rw [p2, p1, List.append_assoc]⟩⟩
  intro c hc
  rcases List.mem_append.mp hc with h | h
  · exact q1 c h
  · exact q2 c h

theorem ioctl_step_only_acquired (cmd : ioctl_cmd) (s s' : lib_state)
    (h : ioctl_step cmd s s') : s.sys.only_acquired s'.sys := by
  obtain ⟨_, hf, hm, hl⟩ := h
  refine ⟨hf, ⟨_, hl, ?_⟩, ⟨[], by simp [hm]⟩⟩
  intro c hc
  rw [List.mem_singleton] at hc
  subst hc; rfl

/-- The `ioctl` commands the library uses while opening and closing never put
the caller to sleep and never return a negative value. -/
theorem os_ioctl_plain (fd : Int) (cmd : ioctl_cmd) (sys : os_state) (out : Option Nat)
    (dev : dev_sm500) (h : sm500_ioctl false cmd sys.dev = .returned 0 out dev) :
    os_ioctl fd cmd sys =
      if fd ∈ sys.fds then
        some (0, out, { sys with log := sys.log ++ [os_call.ioctl fd cmd], dev := dev })
      else
        some (-1, none, { sys with log := sys.log ++ [os_call.ioctl fd cmd], errno := EBADF }) := by
  unfold os_ioctl
  simp only [h]
  split <;> simp

theorem ReadReg32_sat (reg : Nat) (s : lib_state) :
    (Csm500DriverInterface.ReadReg32 reg s).sat
      (fun e s' => s.self.ctrl.fd ∉ s.sys.fds ∧ e = s'.sys.errno ∧
        ioctl_step (.READ_REG32 reg) s s')
      (fun v s' => s.self.ctrl.fd ∈ s.sys.fds ∧ v = sm500_ioread32 s.sys.dev reg ∧
        s'.sys.dev = s.sys.dev ∧ ioctl_step (.READ_REG32 reg) s s') := by
  unfold Csm500DriverInterface.ReadReg32
  rw [os_ioctl_plain s.self.ctrl.fd (.READ_REG32 reg) s.sys (some (sm500_ioread32 s.sys.dev reg))
    s.sys.dev rfl]
  by_cases hfd : s.self.ctrl.fd ∈ s.sys.fds
  · rw [if_pos hfd]
    simp [outcome.sat, hfd, ioctl_step, sm500_ioread32, u32]
  · rw [if_neg hfd]
    simp [outcome.sat, hfd, ioctl_step]

theorem WriteReg32_sat (reg value : Nat) (s : lib_state) :
    (Csm500DriverInterface.WriteReg32 reg value s).sat
      (fun e s' => s.self.ctrl.fd ∉ s.sys.fds ∧ e = s'.sys.errno ∧
        ioctl_step (.WRITE_REG32 reg value) s s')
      (fun _ s' => s.self.ctrl.fd ∈ s.sys.fds ∧
        s'.sys.dev = sm500_iowrite32 s.sys.dev reg (u32 value) ∧
        ioctl_step (.WRITE_REG32 reg value) s s') := by
  unfold Csm500DriverInterface.WriteReg32
  rw [os_ioctl_plain s.self.ctrl.fd (.WRITE_REG32 reg value) s.sys none
    (sm500_iowrite32 s.sys.dev reg (u32 value)) rfl]
  by_cases hfd : s.self.ctrl.fd ∈ s.sys.fds
  · rw [if_pos hfd]
    simp [outcome.sat, hfd, ioctl_step]
  · rw [if_neg hfd]
    simp [outcome.sat, hfd, ioctl_step]

theorem set_index_sat (data32 : Nat) (s : lib_state) :
    (SetupMemoryMap_set_index data32 s).sat
      (fun e s' => s.self.ctrl.fd ∉ s.sys.fds ∧ e = s'.sys.errno ∧
        ioctl_step (.SET_MMAP_INDEX data32) s s')
      (fun _ s' => s.self.ctrl.fd ∈ s.sys.fds ∧
        s'.sys.dev = { s.sys.dev with mmap_index := u32 data32 } ∧
        ioctl_step (.SET_MMAP_INDEX data32) s s') := by
  unfold SetupMemoryMap_set_index
  rw [os_ioctl_plain s.self.ctrl.fd (.SET_MMAP_INDEX data32) s.sys none
    { s.sys.dev with mmap_index := u32 data32 } rfl]
  by_cases hfd : s.self.ctrl.fd ∈ s.sys.fds
  · rw [if_pos hfd]
    simp [outcome.sat, hfd, ioctl_step]
  · rw [if_neg hfd]
    simp [outcome.sat, hfd, ioctl_step]


/-! ## The mapping loop -/

theorem set_at_length (pre : List Nat) (p a : Nat) (ps : List Nat) :
    (pre ++ p :: ps).set pre.length a = (pre ++ [a]) ++ ps := by
  induction pre with
  | nil => rfl
  | cons x xs ih => simp [List.set, ih]

theorem get_at_length (pre : List Nat) (p : Nat) (ps : List Nat) :
    array_at (pre ++ p :: ps) pre.length = some p := by
  unfold array_at
  induction pre with
  | nil => rfl
  | cons x xs ih => simpa using ih

/-- What one `mmap` call changes, whatever the index in the driver. -/
theorem os_mmap_acquires (o : os_oracle) (fd : Int) (size : Nat) (sys : os_state) :
    sys.only_acquired (os_mmap o fd size sys).2 := by
  unfold os_mmap
  simp only
  refine ⟨?_, ⟨[os_call.mmap fd size], ?_, ?_⟩, ?_⟩
  · split
    · split <;> rfl
    · rfl
  · split
    · split <;> rfl
    · rfl
  · intro c hc
    rw [List.mem_singleton] at hc
    subst hc; rfl
  · split
    · split
      · exact ⟨[], by simp⟩
      · exact ⟨_, rfl⟩
    · exact ⟨[], by simp⟩

/-- The stream base of a mapping index. -/
theorem stream_base_lt (fs : Bool) (i : Nat) (hi : i < 2 ^ 16) :
    ((if fs then SM500_MMAP_FS_BUFFER else SM500_MMAP_PEAKS_BUFFER) + i) % 2 ^ 16 = i ∧
    (((if fs then SM500_MMAP_FS_BUFFER else SM500_MMAP_PEAKS_BUFFER) + i) &&&
        SM500_MMAP_FS_BUFFER ≠ 0 ↔ fs = true) ∧
    u32 ((if fs then SM500_MMAP_FS_BUFFER else SM500_MMAP_PEAKS_BUFFER) + i + 1) =
      (if fs then SM500_MMAP_FS_BUFFER else SM500_MMAP_PEAKS_BUFFER) + (i + 1) := by
  have hi31 : i < 2 ^ 31 := lt_of_lt_of_le hi (by decide)
  cases fs with
  | true =>
    refine ⟨?_, ?_, ?_⟩
    · simp only [if_true, SM500_MMAP_FS_BUFFER]
      omega
    · simp only [if_true, iff_true]
      exact land_fs_bit_of_add i hi31
    · simp only [if_true, SM500_MMAP_FS_BUFFER, u32]
      omega
  | false =>
    refine ⟨?_, ?_, ?_⟩
    · simp only [SM500_MMAP_PEAKS_BUFFER, Bool.false_eq_true, if_false]
      omega
    · simp only [SM500_MMAP_PEAKS_BUFFER, Bool.false_eq_true, if_false, Nat.zero_add, iff_false,
        not_not]
      exact land_fs_bit_of_lt i hi31
    · simp only [SM500_MMAP_PEAKS_BUFFER, Bool.false_eq_true, if_false, u32]
      omega

/-- One `mmap` call that does not come back with `MAP_FAILED`, made while the
driver's index stands at buffer `i` of a stream: the new mapping is one of
buffer `i` of that stream, and the index moves on to `i + 1`. -/
theorem os_mmap_index (o : os_oracle) (fd : Int) (size : Nat) (sys : os_state) (fs : Bool)
    (i : Nat) (hi : i < 2 ^ 16)
    (hidx : sys.dev.mmap_index =
      (if fs then SM500_MMAP_FS_BUFFER else SM500_MMAP_PEAKS_BUFFER) + i)
    (hok : (os_mmap o fd size sys).1 ≠ MAP_FAILED) :
    (os_mmap o fd size sys).2.maps = sys.maps ++
        [{ addr := (os_mmap o fd size sys).1, length := size, fs := fs, index := i }] ∧
      (os_mmap o fd size sys).2.dev.mmap_index =
        (if fs then SM500_MMAP_FS_BUFFER else SM500_MMAP_PEAKS_BUFFER) + (i + 1) ∧
      i < (if fs then sys.dev.NumDmaFsBuffers else sys.dev.NumDmaPeaksBuffers) ∧
      (os_mmap o fd size sys).2.dev.NumDmaFsBuffers = sys.dev.NumDmaFsBuffers ∧
      (os_mmap o fd size sys).2.dev.NumDmaPeaksBuffers = sys.dev.NumDmaPeaksBuffers := by
  obtain ⟨hmod, hbit, hnext⟩ := stream_base_lt fs i hi
  rw [← hidx] at hmod hbit hnext
  have hm : sm500_mmap (o.remap_err sys.log.length) sys.dev =
      if (if fs then sys.dev.NumDmaFsBuffers else sys.dev.NumDmaPeaksBuffers) ≤ i then
        (-EAGAIN, none, sys.dev)
      else (o.remap_err sys.log.length, some (fs, i),
        { sys.dev with mmap_index := u32 (sys.dev.mmap_index + 1) }) := by
    cases fs with
    | true =>
      rw [sm500_mmap_fs _ _ (hbit.mpr rfl), hmod]
      simp
    | false =>
      have : sys.dev.mmap_index &&& SM500_MMAP_FS_BUFFER = 0 := by
        by_contra h
        exact Bool.noConfusion (hbit.mp h)
      rw [sm500_mmap_peaks _ _ this, hmod]
      simp
  unfold os_mmap at hok ⊢
  simp only [hm] at hok ⊢
  by_cases hfd : fd ∈ sys.fds
  · simp only [hfd, if_true] at hok ⊢
    by_cases hle : (if fs then sys.dev.NumDmaFsBuffers else sys.dev.NumDmaPeaksBuffers) ≤ i
    · simp [hle, EAGAIN] at hok
    · simp only [hle, if_false] at hok ⊢
      by_cases he : o.remap_err sys.log.length ≠ 0
      · simp [he] at hok
      · simp only [he, if_false]
        refine ⟨?_, ?_, ?_, ?_, ?_⟩ <;> first | trivial | rfl | exact hnext | omega
  · simp [hfd] at hok


theorem SetupMemoryMap_loop_succ (o : os_oracle) (fd : Int) (size i n : Nat) (buf : List Nat)
    (sys : os_state) :
    SetupMemoryMap_loop o fd size i (n + 1) buf sys =
      if (os_mmap o fd size sys).1 = MAP_FAILED then
        (some (os_mmap o fd size sys).2.errno, buf.set i (os_mmap o fd size sys).1,
          (os_mmap o fd size sys).2)
      else
        SetupMemoryMap_loop o fd size (i + 1) n (buf.set i (os_mmap o fd size sys).1)
          (os_mmap o fd size sys).2 := rfl

/-- The mapping loop from element `pre.length` on, over an array whose
remaining elements are `rest`: it only makes `mmap` calls, what it throws is
`errno`, the array keeps its length, and when it completes every remaining
element has been replaced by an address other than `MAP_FAILED`. -/
theorem SetupMemoryMap_loop_acquires (o : os_oracle) (fd : Int) (size : Nat) :
    ∀ (rest pre : List Nat) (sys : os_state),
      sys.only_acquired
        (SetupMemoryMap_loop o fd size pre.length rest.length (pre ++ rest) sys).2.2 ∧
      (∀ e, (SetupMemoryMap_loop o fd size pre.length rest.length (pre ++ rest) sys).1 = some e →
        e = (SetupMemoryMap_loop o fd size pre.length rest.length (pre ++ rest) sys).2.2.errno) ∧
      (SetupMemoryMap_loop o fd size pre.length rest.length (pre ++ rest) sys).2.1.length =
        pre.length + rest.length ∧
      ((SetupMemoryMap_loop o fd size pre.length rest.length (pre ++ rest) sys).1 = none →
        ∃ addrs,
          (SetupMemoryMap_loop o fd size pre.length rest.length (pre ++ rest) sys).2.1 =
            pre ++ addrs ∧
          addrs.length = rest.length ∧ ∀ a ∈ addrs, a ≠ MAP_FAILED) := by
  intro rest
  induction rest with
  | nil =>
    intro pre sys
    refine ⟨only_acquired_refl sys, ?_, by simp [SetupMemoryMap_loop], ?_⟩
    · intro e he
      simp [SetupMemoryMap_loop] at he
    · intro _
      exact ⟨[], by simp [SetupMemoryMap_loop], rfl, by simp⟩
  | cons p ps ih =>
    intro pre sys
    rw [List.length_cons, SetupMemoryMap_loop_succ, set_at_length]
    by_cases hf : (os_mmap o fd size sys).1 = MAP_FAILED
    · rw [if_pos hf]
      refine ⟨os_mmap_acquires o fd size sys, ?_, by simp, ?_⟩
      · intro e he
        simp only [Option.some.injEq] at he
        exact he.symm
      · intro h
        simp at h
    · rw [if_neg hf]
      have hlen : (pre ++ [(os_mmap o fd size sys).1]).length = pre.length + 1 := by simp
      have := ih (pre ++ [(os_mmap o fd size sys).1]) (os_mmap o fd size sys).2
      rw [hlen] at this
      obtain ⟨h1, h2, h3, h4⟩ := this
      refine ⟨only_acquired_trans _ _ _ (os_mmap_acquires o fd size sys) h1, h2, by omega, ?_⟩
      intro hn
      obtain ⟨addrs, ha, hl, hne⟩ := h4 hn
      refine ⟨(os_mmap o fd size sys).1 :: addrs, by rw [ha]; simp, by simp [hl], ?_⟩
      intro a hmem
      rcases List.mem_cons.mp hmem with h | h
      · rw [h]; exact hf
      · exact hne a h

/-- The mapping loop started with the driver's index at buffer `pre.length` of
a stream, and not running past buffer 65535: when it completes, the mappings
it added are, in order, those of the buffers `pre.length, pre.length + 1, ...`
of that stream at the addresses it stored in the array. -/
theorem SetupMemoryMap_loop_index (o : os_oracle) (fd : Int) (size : Nat) (fs : Bool) :
    ∀ (rest pre : List Nat) (sys : os_state),
      pre.length + rest.length ≤ 2 ^ 16 →
      sys.dev.mmap_index =
        (if fs then SM500_MMAP_FS_BUFFER else SM500_MMAP_PEAKS_BUFFER) + pre.length →
      (SetupMemoryMap_loop o fd size pre.length rest.length (pre ++ rest) sys).1 = none →
      ∃ addrs,
        (SetupMemoryMap_loop o fd size pre.length rest.length (pre ++ rest) sys).2.1 =
          pre ++ addrs ∧
        (SetupMemoryMap_loop o fd size pre.length rest.length (pre ++ rest) sys).2.2.maps =
          sys.maps ++ stream_maps fs size pre.length addrs := by
  intro rest
  induction rest with
  | nil =>
    intro pre sys _ _ _
    exact ⟨[], by simp [SetupMemoryMap_loop], by simp [SetupMemoryMap_loop, stream_maps]⟩
  | cons p ps ih =>
    intro pre sys hle hidx
    rw [List.length_cons] at hle ⊢
    rw [SetupMemoryMap_loop_succ, set_at_length]
    by_cases hf : (os_mmap o fd size sys).1 = MAP_FAILED
    · rw [if_pos hf]
      intro h
      simp at h
    · rw [if_neg hf]
      intro hn
      obtain ⟨hmaps, hnext, _, _, _⟩ :=
        os_mmap_index o fd size sys fs pre.length (by omega) hidx hf
      have hlen : (pre ++ [(os_mmap o fd size sys).1]).length = pre.length + 1 := by simp
      have := ih (pre ++ [(os_mmap o fd size sys).1]) (os_mmap o fd size sys).2
      rw [hlen] at this
      obtain ⟨addrs, ha, hm⟩ := this (by omega) hnext hn
      refine ⟨(os_mmap o fd size sys).1 :: addrs, by rw [ha]; simp, ?_⟩
      rw [hm, hmaps]
      simp [stream_maps, List.enumFrom_cons]


theorem proceeds_refl (s : lib_state) : proceeds s s :=
  ⟨rfl, rfl, rfl, only_acquired_refl _⟩

theorem proceeds_trans (a b c : lib_state) (h1 : proceeds a b) (h2 : proceeds b c) :
    proceeds a c := by
  obtain ⟨f1, c1, b1, q1⟩ := h1
  obtain ⟨f2, c2, b2, q2⟩ := h2
  exact ⟨f2.trans f1, c2.trans c1, b2.trans b1, only_acquired_trans _ _ _ q1 q2⟩

theorem ioctl_step_proceeds (cmd : ioctl_cmd) (s s' : lib_state) (h : ioctl_step cmd s s') :
    proceeds s s' := by
  have hq := ioctl_step_only_acquired cmd s s' h
  obtain ⟨hs, _⟩ := h
  exact ⟨by rw [hs], by rw [hs], by rw [hs], hq⟩

theorem ReadReg32_eq (reg : Nat) (s : lib_state) :
    Csm500DriverInterface.ReadReg32 reg s =
      if s.self.ctrl.fd ∈ s.sys.fds then
        .returns (sm500_ioread32 s.sys.dev reg)
          { s with sys := { s.sys with
              log := s.sys.log ++ [os_call.ioctl s.self.ctrl.fd (.READ_REG32 reg)] } }
      else
        .throws EBADF
          { s with sys := { s.sys with
              log := s.sys.log ++ [os_call.ioctl s.self.ctrl.fd (.READ_REG32 reg)]
              errno := EBADF } } := by
  unfold Csm500DriverInterface.ReadReg32
  rw [os_ioctl_plain s.self.ctrl.fd (.READ_REG32 reg) s.sys (some (sm500_ioread32 s.sys.dev reg))
    s.sys.dev rfl]
  by_cases hfd : s.self.ctrl.fd ∈ s.sys.fds
  · simp [hfd, sm500_ioread32, u32]
  · simp [hfd]

theorem WriteReg32_eq (reg value : Nat) (s : lib_state) :
    Csm500DriverInterface.WriteReg32 reg value s =
      if s.self.ctrl.fd ∈ s.sys.fds then
        .returns ()
          { s with sys := { s.sys with
              log := s.sys.log ++ [os_call.ioctl s.self.ctrl.fd (.WRITE_REG32 reg value)]
              dev := sm500_iowrite32 s.sys.dev reg (u32 value) } }
      else
        .throws EBADF
          { s with sys := { s.sys with
              log := s.sys.log ++ [os_call.ioctl s.self.ctrl.fd (.WRITE_REG32 reg value)]
              errno := EBADF } } := by
  unfold Csm500DriverInterface.WriteReg32
  rw [os_ioctl_plain s.self.ctrl.fd (.WRITE_REG32 reg value) s.sys none
    (sm500_iowrite32 s.sys.dev reg (u32 value)) rfl]
  by_cases hfd : s.self.ctrl.fd ∈ s.sys.fds
  · simp [hfd]
  · simp [hfd]

theorem set_index_eq (data32 : Nat) (s : lib_state) :
    SetupMemoryMap_set_index data32 s =
      if s.self.ctrl.fd ∈ s.sys.fds then
        .returns ()
          { s with sys := { s.sys with
              log := s.sys.log ++ [os_call.ioctl s.self.ctrl.fd (.SET_MMAP_INDEX data32)]
              dev := { s.sys.dev with mmap_index := u32 data32 } } }
      else
        .throws EBADF
          { s with sys := { s.sys with
              log := s.sys.log ++ [os_call.ioctl s.self.ctrl.fd (.SET_MMAP_INDEX data32)]
              errno := EBADF } } := by
  unfold SetupMemoryMap_set_index
  rw [os_ioctl_plain s.self.ctrl.fd (.SET_MMAP_INDEX data32) s.sys none
    { s.sys.dev with mmap_index := u32 data32 } rfl]
  by_cases hfd : s.self.ctrl.fd ∈ s.sys.fds
  · simp [hfd]
  · simp [hfd]

theorem only_acquired_of_log (sys sys' : os_state) (cs : List os_call)
    (hf : sys'.fds = sys.fds) (hl : sys'.log = sys.log ++ cs) (hm : sys'.maps = sys.maps)
    (hc : ∀ c ∈ cs, c.acquires = true) : sys.only_acquired sys' :=
  ⟨hf, ⟨cs, hl, hc⟩, ⟨[], by simp [hm]⟩⟩

/-- The peaks mapping loop on an object whose array has `NumDmaPeaksBuffers`
elements: only the array and the system change; a throw is `errno`; on return
every element is mapped and, with the driver's index at peaks buffer 0 and a
count up to 65536, the mappings added are those of the peaks buffers
`0, 1, ...` in array order. -/
theorem SetupMemoryMap_map_peaks_sat (o : os_oracle) (s : lib_state)
    (hlen : s.self.ctrl.DmaPeaksBuffer.length = s.self.ctrl.NumDmaPeaksBuffers) :
    (SetupMemoryMap_map_peaks o s).sat
      (fun e s' => e = s'.sys.errno ∧ s.sys.only_acquired s'.sys ∧
        ∃ buf, s'.self = { s.self with ctrl.DmaPeaksBuffer := buf })
      (fun _ s' => s.sys.only_acquired s'.sys ∧
        ∃ buf, s'.self = { s.self with ctrl.DmaPeaksBuffer := buf } ∧
          all_mapped s.self.ctrl.NumDmaPeaksBuffers buf ∧
          (s.self.ctrl.NumDmaPeaksBuffers ≤ 2 ^ 16 →
            s.sys.dev.mmap_index = SM500_MMAP_PEAKS_BUFFER + 0 →
            s'.sys.maps = s.sys.maps ++
              stream_maps false s.self.ctrl.DmaPeaksBufferSize 0 buf)) := by
  have hA := SetupMemoryMap_loop_acquires o s.self.ctrl.fd s.self.ctrl.DmaPeaksBufferSize
    s.self.ctrl.DmaPeaksBuffer [] s.sys
  have hB := SetupMemoryMap_loop_index o s.self.ctrl.fd s.self.ctrl.DmaPeaksBufferSize false
    s.self.ctrl.DmaPeaksBuffer [] s.sys
  simp only [List.length_nil, List.nil_append, hlen, Nat.zero_add, Bool.false_eq_true,
    if_false] at hA hB
  obtain ⟨hq, herr, _, hok⟩ := hA
  unfold SetupMemoryMap_map_peaks
  simp only
  split
  · next err he =>
    exact ⟨herr err he, hq, _, rfl⟩
  · next hn =>
    obtain ⟨addrs, ha, hl, hne⟩ := hok hn
    refine ⟨hq, _, rfl, ⟨by rw [ha, hl], by rw [ha]; exact hne⟩, ?_⟩
    intro hle hidx
    obtain ⟨addrs', ha', hm⟩ := hB hle hidx hn
    rw [hm, ha']

/-- The same for the full-spectrum mapping loop. -/
theorem SetupMemoryMap_map_fs_sat (o : os_oracle) (s : lib_state)
    (hlen : s.self.ctrl.DmaFsBuffer.length = s.self.ctrl.NumDmaFsBuffers) :
    (SetupMemoryMap_map_fs o s).sat
      (fun e s' => e = s'.sys.errno ∧ s.sys.only_acquired s'.sys ∧
        ∃ buf, s'.self = { s.self with ctrl.DmaFsBuffer := buf })
      (fun _ s' => s.sys.only_acquired s'.sys ∧
        ∃ buf, s'.self = { s.self with ctrl.DmaFsBuffer := buf } ∧
          all_mapped s.self.ctrl.NumDmaFsBuffers buf ∧
          (s.self.ctrl.NumDmaFsBuffers ≤ 2 ^ 16 →
            s.sys.dev.mmap_index = SM500_MMAP_FS_BUFFER + 0 →
            s'.sys.maps = s.sys.maps ++
              stream_maps true s.self.ctrl.DmaFsBufferSize 0 buf)) := by
  have hA := SetupMemoryMap_loop_acquires o s.self.ctrl.fd s.self.ctrl.DmaFsBufferSize
    s.self.ctrl.DmaFsBuffer [] s.sys
  have hB := SetupMemoryMap_loop_index o s.self.ctrl.fd s.self.ctrl.DmaFsBufferSize true
    s.self.ctrl.DmaFsBuffer [] s.sys
  simp only [List.length_nil, List.nil_append, hlen, Nat.zero_add, if_true] at hA hB
  obtain ⟨hq, herr, _, hok⟩ := hA
  unfold SetupMemoryMap_map_fs
  simp only
  split
  · next err he =>
    exact ⟨herr err he, hq, _, rfl⟩
  · next hn =>
    obtain ⟨addrs, ha, hl, hne⟩ := hok hn
    refine ⟨hq, _, rfl, ⟨by rw [ha, hl], by rw [ha]; exact hne⟩, ?_⟩
    intro hle hidx
    obtain ⟨addrs', ha', hm⟩ := hB hle hidx hn
    rw [hm, ha']


theorem only_acquired_three (sys sys' : os_state) (fd : Int) (c1 c2 c3 : ioctl_cmd)
    (hf : sys'.fds = sys.fds) (hm : sys'.maps = sys.maps)
    (hl : sys'.log = sys.log ++ [os_call.ioctl fd c1] ++ [os_call.ioctl fd c2] ++
      [os_call.ioctl fd c3]) : sys.only_acquired sys' := by
  refine only_acquired_of_log sys sys'
    [os_call.ioctl fd c1, os_call.ioctl fd c2, os_call.ioctl fd c3] hf (by rw [hl]; simp) hm ?_
  intro x hx
  simp only [List.mem_cons, List.mem_singleton, List.not_mem_nil, or_false] at hx
  rcases hx with h | h | h <;> (rw [h]; rfl)

/-- Peaks half of `SetupMemoryMap`: a throw is `errno` and leaves descriptor and
flags alone; a return means the descriptor is open, the count and size are
those of the registers, every element of the array is mapped, the
full-spectrum members are as before and, for a count up to 65536, the
mappings added are those of the peaks buffers `0, 1, ...` in array order. -/
theorem SetupMemoryMap_peaks_sat (o : os_oracle) (s : lib_state) :
    (SetupMemoryMap_peaks o s).sat
      (fun e s' => e = s'.sys.errno ∧ proceeds s s')
      (fun _ s' => s.self.ctrl.fd ∈ s.sys.fds ∧ proceeds s s' ∧
        s'.self.ctrl.NumDmaPeaksBuffers = sm500_ioread32 s.sys.dev SM500_REG_NPKBUF ∧
        s'.self.ctrl.DmaPeaksBufferSize = sm500_ioread32 s.sys.dev SM500_REG_PKBUFSZ ∧
        all_mapped s'.self.ctrl.NumDmaPeaksBuffers s'.self.ctrl.DmaPeaksBuffer ∧
        s'.self.ctrl.NumDmaFsBuffers = s.self.ctrl.NumDmaFsBuffers ∧
        s'.self.ctrl.DmaFsBufferSize = s.self.ctrl.DmaFsBufferSize ∧
        s'.self.ctrl.DmaFsBuffer = s.self.ctrl.DmaFsBuffer ∧
        (s'.self.ctrl.NumDmaPeaksBuffers ≤ 2 ^ 16 →
          s'.sys.maps = s.sys.maps ++
            stream_maps false s'.self.ctrl.DmaPeaksBufferSize 0 s'.self.ctrl.DmaPeaksBuffer)) := by
  unfold SetupMemoryMap_peaks
  by_cases hfd : s.self.ctrl.fd ∈ s.sys.fds
  · simp only [ReadReg32_eq, set_index_eq, hfd, if_true, outcome.bind]
    split
    · trivial
    · refine outcome.sat_mono _ _ _ _ _
        (SetupMemoryMap_map_peaks_sat o _ (by simp)) ?_ ?_
      · rintro e s' ⟨he, hq, buf, hself⟩
        refine ⟨he, by rw [hself], by rw [hself], by rw [hself], ?_⟩
        refine only_acquired_trans _ _ _ ?_ hq
        exact only_acquired_three _ _ _ _ _ _ rfl rfl rfl
      · rintro _ s' ⟨hq, buf, hself, hall, hmaps⟩
        refine ⟨trivial, ⟨by rw [hself], by rw [hself], by rw [hself], ?_⟩, by rw [hself],
          by rw [hself], by rw [hself]; exact hall, by rw [hself], by rw [hself], by rw [hself], ?_⟩
        · refine only_acquired_trans _ _ _ ?_ hq
          exact only_acquired_three _ _ _ _ _ _ rfl rfl rfl
        · rw [hself]
          intro hle
          exact hmaps hle rfl
  · simp only [ReadReg32_eq, hfd, if_false, outcome.bind, outcome.sat]
    refine ⟨trivial, rfl, rfl, rfl, only_acquired_of_log _ _ _ rfl rfl rfl ?_⟩
    intro c hc
    rw [List.mem_singleton] at hc
    subst hc; rfl

/-- The same for the full-spectrum half. -/
theorem SetupMemoryMap_fs_sat (o : os_oracle) (s : lib_state) :
    (SetupMemoryMap_fs o s).sat
      (fun e s' => e = s'.sys.errno ∧ proceeds s s')
      (fun _ s' => s.self.ctrl.fd ∈ s.sys.fds ∧ proceeds s s' ∧
        s'.self.ctrl.NumDmaFsBuffers = sm500_ioread32 s.sys.dev SM500_REG_NFSBUF ∧
        s'.self.ctrl.DmaFsBufferSize = sm500_ioread32 s.sys.dev SM500_REG_FSBUFSZ ∧
        all_mapped s'.self.ctrl.NumDmaFsBuffers s'.self.ctrl.DmaFsBuffer ∧
        s'.self.ctrl.NumDmaPeaksBuffers = s.self.ctrl.NumDmaPeaksBuffers ∧
        s'.self.ctrl.DmaPeaksBufferSize = s.self.ctrl.DmaPeaksBufferSize ∧
        s'.self.ctrl.DmaPeaksBuffer = s.self.ctrl.DmaPeaksBuffer ∧
        (s'.self.ctrl.NumDmaFsBuffers ≤ 2 ^ 16 →
          s'.sys.maps = s.sys.maps ++
            stream_maps true s'.self.ctrl.DmaFsBufferSize 0 s'.self.ctrl.DmaFsBuffer)) := by
  unfold SetupMemoryMap_fs
  by_cases hfd : s.self.ctrl.fd ∈ s.sys.fds
  · simp only [ReadReg32_eq, set_index_eq, hfd, if_true, outcome.bind]
    split
    · trivial
    · next hn =>
      refine outcome.sat_mono _ _ _ _ _
        (SetupMemoryMap_map_fs_sat o _ (by simp)) ?_ ?_
      · rintro e s' ⟨he, hq, buf, hself⟩
        refine ⟨he, by rw [hself], by rw [hself], by rw [hself], ?_⟩
        refine only_acquired_trans _ _ _ ?_ hq
        exact only_acquired_three _ _ _ _ _ _ rfl rfl rfl
      · rintro _ s' ⟨hq, buf, hself, hall, hmaps⟩
        refine ⟨trivial, ⟨by rw [hself], by rw [hself], by rw [hself], ?_⟩, by rw [hself],
          by rw [hself], by rw [hself]; exact hall, by rw [hself], by rw [hself], by rw [hself], ?_⟩
        · refine only_acquired_trans _ _ _ ?_ hq
          exact only_acquired_three _ _ _ _ _ _ rfl rfl rfl
        · rw [hself]
          intro hle
          exact hmaps hle (by simp [u32, SM500_MMAP_FS_BUFFER])
  · simp only [ReadReg32_eq, hfd, if_false, outcome.bind, outcome.sat]
    refine ⟨trivial, rfl, rfl, rfl, only_acquired_of_log _ _ _ rfl rfl rfl ?_⟩
    intro c hc
    rw [List.mem_singleton] at hc
    subst hc; rfl


/-- The member `SetupMemoryMap`: a throw is `errno`; a return means the
descriptor is open and both arrays are fully mapped, and for counts up to
65536 the mappings added are those of the peaks buffers `0, 1, ...` followed
by those of the full-spectrum buffers `0, 1, ...`, each at the address stored
in the array element of the same index. -/
theorem SetupMemoryMap_sat (o : os_oracle) (s : lib_state) :
    (Csm500DriverInterface.SetupMemoryMap o s).sat
      (fun e s' => e = s'.sys.errno ∧ proceeds s s')
      (fun _ s' => s.self.ctrl.fd ∈ s.sys.fds ∧ proceeds s s' ∧ buffers_mapped s' ∧
        (s'.self.ctrl.NumDmaPeaksBuffers ≤ 2 ^ 16 → s'.self.ctrl.NumDmaFsBuffers ≤ 2 ^ 16 →
          s'.sys.maps = s.sys.maps ++
            stream_maps false s'.self.ctrl.DmaPeaksBufferSize 0 s'.self.ctrl.DmaPeaksBuffer ++
            stream_maps true s'.self.ctrl.DmaFsBufferSize 0 s'.self.ctrl.DmaFsBuffer)) := by
  unfold Csm500DriverInterface.SetupMemoryMap
  refine outcome.sat_bind _ _ _ _ _ (outcome.sat_mono _ _ _ _ _ (SetupMemoryMap_peaks_sat o s)
    (fun _ _ h => h) (fun _ _ h => h)) ?_
  rintro _ s1 ⟨hfd, hp1, hn1, hz1, hall1, _, _, _, hmaps1⟩
  refine outcome.sat_mono _ _ _ _ _ (SetupMemoryMap_fs_sat o s1) ?_ ?_
  · rintro e s' ⟨he, hp2⟩
    exact ⟨he, proceeds_trans _ _ _ hp1 hp2⟩
  · rintro _ s' ⟨_, hp2, _, _, hall2, hn, hz, hb, hmaps2⟩
    refine ⟨hfd, proceeds_trans _ _ _ hp1 hp2, ⟨by rw [hn, hb]; exact hall1, hall2⟩, ?_⟩
    intro hpk hfs
    rw [hmaps2 hfs, hz, hb, hmaps1 (by rw [← hn]; exact hpk)]

theorem holds_handle_proceeds (o : os_oracle) (s s1 s2 : lib_state)
    (h1 : holds_handle o s s1) (h2 : proceeds s1 s2) : holds_handle o s s2 := by
  obtain ⟨hfd, hfds, ⟨ext, hlog, hq⟩, ⟨m, hm⟩⟩ := h1
  obtain ⟨hfd2, _, _, hfds2, ⟨ext2, hlog2, hq2⟩, ⟨m2, hm2⟩⟩ := h2
  refine ⟨hfd2.trans hfd, by rw [hfds2, hfds, hfd2], ⟨ext ++ ext2, by rw [hlog2, hlog]; simp, ?_⟩,
    ⟨m ++ m2, by rw [hm2, hm]; simp⟩⟩
  intro c hc
  rcases List.mem_append.mp hc with h | h
  · exact hq c h
  · exact hq2 c h

theorem holds_handle_mem (o : os_oracle) (s s' : lib_state) (h : holds_handle o s s') :
    s'.self.ctrl.fd ∈ s'.sys.fds ∧ s'.self.ctrl.fd ≠ -1 := by
  obtain ⟨hfd, hfds, _, _⟩ := h
  refine ⟨by rw [hfds]; exact List.mem_cons_self _ _, ?_⟩
  rw [hfd]
  omega

/-- The member `Csm500DriverInterface::Init(const char*)`: when it throws, what
it throws is `errno`, the flags are untouched, and either `open` was refused
or the descriptor is held and nothing was released; when it returns the
descriptor is held and both arrays are fully mapped. -/
theorem DriverInterface_Init_node_sat (o : os_oracle) (s : lib_state) :
    (Csm500DriverInterface.Init_node o s).sat
      (fun e s' => e = s'.sys.errno ∧ s'.self.ctrl.bOpen = s.self.ctrl.bOpen ∧
        s'.self.bOpen = s.self.bOpen ∧ (open_refused s s' ∨ holds_handle o s s'))
      (fun _ s' => s'.self.ctrl.bOpen = s.self.ctrl.bOpen ∧ s'.self.bOpen = s.self.bOpen ∧
        holds_handle o s s' ∧ buffers_mapped s') := by
  unfold Csm500DriverInterface.Init_node
  simp only
  have hopen : (os_open o s.sys).1 ≠ -1 →
      holds_handle o s { s with self.ctrl.fd := (os_open o s.sys).1, sys := (os_open o s.sys).2 } := by
    unfold os_open
    simp only
    split
    · intro h; exact absurd rfl h
    · split
      · intro h; exact absurd rfl h
      · intro _
        exact ⟨rfl, rfl, ⟨[], rfl, by simp⟩, ⟨[], by simp⟩⟩
  have hrefused : (os_open o s.sys).1 = -1 →
      open_refused s { s with self.ctrl.fd := 0, sys := (os_open o s.sys).2 } := by
    unfold os_open
    simp only
    split
    · intro _; exact ⟨rfl, rfl, rfl, rfl⟩
    · split
      · intro _; exact ⟨rfl, rfl, rfl, rfl⟩
      · intro h
        exfalso
        simp only at h
        omega
  by_cases h : (os_open o s.sys).1 = -1
  · rw [if_pos h]
    exact ⟨rfl, rfl, rfl, Or.inl (hrefused h)⟩
  · rw [if_neg h]
    refine outcome.sat_mono _ _ _ _ _ (SetupMemoryMap_sat o _) ?_ ?_
    · rintro e s' ⟨he, hp⟩
      exact ⟨he, hp.2.1, hp.2.2.1, Or.inr (holds_handle_proceeds o s _ s' (hopen h) hp)⟩
    · rintro _ s' ⟨_, hp, hall, _⟩
      exact ⟨hp.2.1, hp.2.2.1, holds_handle_proceeds o s _ s' (hopen h) hp, hall⟩


/-- The calls `EnableInterrupts(a); EnableDma(b);` on an object whose
descriptor is open. -/
theorem enable_pair_eq (a b : Nat) (s : lib_state) (hfd : s.self.ctrl.fd ∈ s.sys.fds) :
    ((Csm500DevCtrl.EnableInterrupts a s).bind fun _ s => Csm500DevCtrl.EnableDma b s) =
      .returns ()
        { s with sys := { s.sys with
            log := s.sys.log ++
              [os_call.ioctl s.self.ctrl.fd (.WRITE_REG32 SM500_REG_INTE a),
               os_call.ioctl s.self.ctrl.fd (.WRITE_REG32 SM500_REG_DMACR b)]
            dev := sm500_iowrite32 (sm500_iowrite32 s.sys.dev SM500_REG_INTE (u32 a))
              SM500_REG_DMACR (u32 b) } } := by
  unfold Csm500DevCtrl.EnableInterrupts Csm500DevCtrl.EnableDma
  simp [WriteReg32_eq, hfd, outcome.bind]

theorem enable_pair_proceeds (a b : Nat) (s : lib_state) :
    proceeds s
      { s with sys := { s.sys with
          log := s.sys.log ++
            [os_call.ioctl s.self.ctrl.fd (.WRITE_REG32 SM500_REG_INTE a),
             os_call.ioctl s.self.ctrl.fd (.WRITE_REG32 SM500_REG_DMACR b)]
          dev := sm500_iowrite32 (sm500_iowrite32 s.sys.dev SM500_REG_INTE (u32 a))
            SM500_REG_DMACR (u32 b) } } := by
  refine ⟨rfl, rfl, rfl, only_acquired_of_log _ _ _ rfl rfl rfl ?_⟩
  intro c hc
  simp only [List.mem_cons, List.mem_singleton, List.not_mem_nil, or_false] at hc
  rcases hc with h | h <;> (rw [h]; rfl)

/-- The member `Csm500DevCtrl::Init(const char*)`. -/
theorem DevCtrl_Init_node_sat (o : os_oracle) (s : lib_state) :
    (Csm500DevCtrl.Init_node o s).sat
      (fun e s' => e = s'.sys.errno ∧ s'.self.ctrl.bOpen = false ∧
        s'.self.bOpen = s.self.bOpen ∧ (open_refused s s' ∨ holds_handle o s s'))
      (fun _ s' => s'.self.ctrl.bOpen = s.self.ctrl.bOpen ∧ s'.self.bOpen = s.self.bOpen ∧
        holds_handle o s s' ∧ buffers_mapped s') := by
  unfold Csm500DevCtrl.Init_node
  refine outcome.sat_bind _ _ _
    (fun _ s' => s'.self.ctrl.bOpen = s.self.ctrl.bOpen ∧ s'.self.bOpen = s.self.bOpen ∧
        holds_handle o s s' ∧ buffers_mapped s') _
    (outcome.sat_catch _ _ _ _ _ (DriverInterface_Init_node_sat o s) ?_) ?_
  · rintro e s' ⟨he, _, hb, hor⟩
    refine ⟨he, rfl, hb, ?_⟩
    rcases hor with h | h
    · exact Or.inl ⟨h.1, h.2.1, h.2.2.1, h.2.2.2⟩
    · exact Or.inr ⟨h.1, h.2.1, h.2.2.1, h.2.2.2⟩
  · rintro _ s1 ⟨hc, hb, hh, hall⟩
    rw [enable_pair_eq _ _ s1 (holds_handle_mem o s s1 hh).1]
    exact ⟨hc, hb, holds_handle_proceeds o s s1 _ hh (enable_pair_proceeds _ _ s1), hall⟩

/-- The member `Csm500Dev::Init(const char*)`. -/
theorem Dev_Init_node_sat (o : os_oracle) (s : lib_state) :
    (Csm500Dev.Init_node o s).sat
      (fun e s' => e = s'.sys.errno ∧ s'.self.ctrl.bOpen = false ∧
        s'.self.bOpen = false ∧ (open_refused s s' ∨ holds_handle o s s'))
      (fun _ s' => s'.self.ctrl.bOpen = s.self.ctrl.bOpen ∧ s'.self.bOpen = true ∧
        holds_handle o s s' ∧ buffers_mapped s') := by
  unfold Csm500Dev.Init_node
  refine outcome.sat_bind _ _ _
    (fun _ s' => s'.self.ctrl.bOpen = s.self.ctrl.bOpen ∧ s'.self.bOpen = s.self.bOpen ∧
        holds_handle o s s' ∧ buffers_mapped s') _
    (outcome.sat_catch _ _ _ _ _ (DevCtrl_Init_node_sat o s) ?_) ?_
  · rintro e s' ⟨he, hc, _, hor⟩
    refine ⟨he, hc, rfl, ?_⟩
    rcases hor with h | h
    · exact Or.inl ⟨h.1, h.2.1, h.2.2.1, h.2.2.2⟩
    · exact Or.inr ⟨h.1, h.2.1, h.2.2.1, h.2.2.2⟩
  · rintro _ s1 ⟨hc, _, hh, hall⟩
    exact ⟨hc, rfl, ⟨hh.1, hh.2.1, hh.2.2.1, hh.2.2.2⟩, hall⟩

/-- The member `Csm500DevCtrl::Init()` on an object of class `Csm500Dev`. -/
theorem DevCtrl_Init_sat (o : os_oracle) (s : lib_state) :
    (Csm500DevCtrl.Init o s).sat
      (fun e s' => e = s'.sys.errno ∧ s'.self.ctrl.bOpen = false ∧
        s'.self.bOpen = false ∧ (open_refused s s' ∨ holds_handle o s s'))
      (fun _ s' => s'.self.ctrl.bOpen = true ∧ s'.self.bOpen = true ∧
        holds_handle o s s' ∧ buffers_mapped s') := by
  unfold Csm500DevCtrl.Init Csm500DriverInterface.Init
  refine outcome.sat_bind _ _ _
    (fun _ s' => s'.self.ctrl.bOpen = s.self.ctrl.bOpen ∧ s'.self.bOpen = true ∧
        holds_handle o s s' ∧ buffers_mapped s') _
    (outcome.sat_catch _ _ _ _ _ (Dev_Init_node_sat o s) ?_) ?_
  · rintro e s' ⟨he, _, hb, hor⟩
    refine ⟨he, rfl, hb, ?_⟩
    rcases hor with h | h
    · exact Or.inl ⟨h.1, h.2.1, h.2.2.1, h.2.2.2⟩
    · exact Or.inr ⟨h.1, h.2.1, h.2.2.1, h.2.2.2⟩
  · rintro _ s1 ⟨_, hb, hh, hall⟩
    have hh1 : holds_handle o s { s1 with self.ctrl.bOpen := true } :=
      ⟨hh.1, hh.2.1, hh.2.2.1, hh.2.2.2⟩
    rw [enable_pair_eq _ _ _ (holds_handle_mem o s _ hh1).1]
    exact ⟨rfl, hb, holds_handle_proceeds o s _ _ hh1 (enable_pair_proceeds _ _ _), hall⟩

/-- The member `Csm500Dev::Init()`: when it throws, what it throws is `errno`,
both flags are false, and either `open` was refused or the descriptor is held
and nothing was released; when it returns both flags are true, the descriptor
is held and both arrays are fully mapped. -/
theorem Dev_Init_sat (o : os_oracle) (s : lib_state) :
    (Csm500Dev.Init o s).sat
      (fun e s' => e = s'.sys.errno ∧ s'.self.ctrl.bOpen = false ∧
        s'.self.bOpen = false ∧ (open_refused s s' ∨ holds_handle o s s'))
      (fun _ s' => s'.self.ctrl.bOpen = true ∧ s'.self.bOpen = true ∧
        holds_handle o s s' ∧ buffers_mapped s') := by
  unfold Csm500Dev.Init
  refine outcome.sat_bind _ _ _
    (fun _ s' => s'.self.ctrl.bOpen = true ∧ s'.self.bOpen = true ∧
        holds_handle o s s' ∧ buffers_mapped s') _
    (outcome.sat_catch _ _ _ _ _ (DevCtrl_Init_sat o s) ?_) ?_
  · rintro e s' ⟨he, hc, _, hor⟩
    refine ⟨he, hc, rfl, ?_⟩
    rcases hor with h | h
    · exact Or.inl ⟨h.1, h.2.1, h.2.2.1, h.2.2.2⟩
    · exact Or.inr ⟨h.1, h.2.1, h.2.2.1, h.2.2.2⟩
  · rintro _ s1 ⟨hc, _, hh, hall⟩
    exact ⟨hc, rfl, ⟨hh.1, hh.2.1, hh.2.2.1, hh.2.2.2⟩, hall⟩


/-! ## Closing -/

theorem ReleaseMemoryMap_loop_succ (size i n : Nat) (buf : List Nat) (sys : os_state) :
    ReleaseMemoryMap_loop size i (n + 1) buf sys =
      match array_at buf i with
      | none => none
      | some p =>
        ReleaseMemoryMap_loop size (i + 1) n (buf.set i MAP_FAILED)
          (if p ≠ MAP_FAILED then os_munmap p size sys else sys) := rfl

/-- One loop of `ReleaseMemoryMap` from element `pre.length` on, over an array
whose remaining elements are `rest`: it reads no element outside the array,
voids every remaining element, calls `munmap` once for each of them that was
not `MAP_FAILED`, in order, and touches neither the descriptors nor the
device context. -/
theorem ReleaseMemoryMap_loop_spec (size : Nat) :
    ∀ (rest pre : List Nat) (sys : os_state),
      ∃ sys', ReleaseMemoryMap_loop size pre.length rest.length (pre ++ rest) sys =
          some (pre ++ List.replicate rest.length MAP_FAILED, sys') ∧
        sys'.log = sys.log ++ release_calls size rest ∧
        sys'.fds = sys.fds ∧ sys'.dev = sys.dev ∧ sys'.errno = sys.errno ∧
        sys'.maps = sys.maps.filter (fun m => m.addr ∉ rest.filter (fun p => p ≠ MAP_FAILED)) := by
  intro rest
  induction rest with
  | nil =>
    intro pre sys
    exact ⟨sys, by simp [ReleaseMemoryMap_loop], by simp [release_calls], rfl, rfl, rfl,
      by simp⟩
  | cons p ps ih =>
    intro pre sys
    rw [List.length_cons, ReleaseMemoryMap_loop_succ, get_at_length]
    simp only
    rw [set_at_length]
    have hlen : (pre ++ [MAP_FAILED]).length = pre.length + 1 := by simp
    have := ih (pre ++ [MAP_FAILED])
      (if p ≠ MAP_FAILED then os_munmap p size sys else sys)
    rw [hlen] at this
    obtain ⟨sys', hrun, hlog, hfds, hdev, herr, hmaps⟩ := this
    refine ⟨sys', by rw [hrun]; simp [List.replicate_succ], ?_, ?_, ?_, ?_, ?_⟩
    · rw [hlog]
      by_cases hp : p = MAP_FAILED
      · simp [hp, release_calls]
      · simp [hp, release_calls, os_munmap]
    · rw [hfds]; split <;> rfl
    · rw [hdev]; split <;> rfl
    · rw [herr]; split <;> rfl
    · rw [hmaps]
      by_cases hp : p = MAP_FAILED
      · simp [hp]
      · have hp' : p ≠ MAP_FAILED := hp
        rw [if_pos hp']
        simp only [os_munmap, List.filter_filter]
        apply List.filter_congr
        intro m _
        by_cases h1 : m.addr = p
        · simp [List.filter_cons, hp, h1]
        · simp [List.filter_cons, hp, h1]


/-- The member `ReleaseMemoryMap` on an object whose arrays have as many
elements as the counts say. -/
theorem ReleaseMemoryMap_spec (s : lib_state)
    (hpk : s.self.ctrl.DmaPeaksBuffer.length = s.self.ctrl.NumDmaPeaksBuffers)
    (hfs : s.self.ctrl.DmaFsBuffer.length = s.self.ctrl.NumDmaFsBuffers) :
    ∃ sys', Csm500DriverInterface.ReleaseMemoryMap s =
        .returns ()
          { s with
            self.ctrl.DmaPeaksBuffer := List.replicate s.self.ctrl.NumDmaPeaksBuffers MAP_FAILED
            self.ctrl.DmaFsBuffer := List.replicate s.self.ctrl.NumDmaFsBuffers MAP_FAILED
            sys := sys' } ∧
      sys'.log = s.sys.log ++ release_calls s.self.ctrl.DmaPeaksBufferSize s.self.ctrl.DmaPeaksBuffer
        ++ release_calls s.self.ctrl.DmaFsBufferSize s.self.ctrl.DmaFsBuffer ∧
      sys'.fds = s.sys.fds ∧ sys'.dev = s.sys.dev ∧
      ∀ m ∈ sys'.maps, m ∈ s.sys.maps ∧
        (m.addr ∈ s.self.ctrl.DmaPeaksBuffer ∨ m.addr ∈ s.self.ctrl.DmaFsBuffer →
          m.addr = MAP_FAILED) := by
  obtain ⟨sys1, hrun1, hlog1, hfds1, hdev1, _, hmaps1⟩ :=
    ReleaseMemoryMap_loop_spec s.self.ctrl.DmaPeaksBufferSize s.self.ctrl.DmaPeaksBuffer [] s.sys
  obtain ⟨sys2, hrun2, hlog2, hfds2, hdev2, _, hmaps2⟩ :=
    ReleaseMemoryMap_loop_spec s.self.ctrl.DmaFsBufferSize s.self.ctrl.DmaFsBuffer [] sys1
  simp only [List.length_nil, List.nil_append, hpk, hfs] at hrun1 hrun2
  refine ⟨sys2, ?_, by rw [hlog2, hlog1], by rw [hfds2, hfds1], by rw [hdev2, hdev1], ?_⟩
  · unfold Csm500DriverInterface.ReleaseMemoryMap
    rw [hrun1]
    simp only
    rw [hrun2]
  · intro m hm
    rw [hmaps2, List.mem_filter, hmaps1, List.mem_filter] at hm
    obtain ⟨⟨hmem, h1⟩, h2⟩ := hm
    simp only [decide_eq_true_eq, List.mem_filter, not_and, not_not, ne_eq] at h1 h2
    refine ⟨hmem, ?_⟩
    rintro (h | h)
    · exact h1 h
    · exact h2 h

/-- The member `Csm500DriverInterface::Close` on an object whose arrays have as
many elements as the counts say: it returns; with a descriptor other than 0
and -1 it runs the two release loops, closes the descriptor and stores 0. -/
theorem DriverInterface_Close_spec (s : lib_state)
    (hpk : s.self.ctrl.DmaPeaksBuffer.length = s.self.ctrl.NumDmaPeaksBuffers)
    (hfs : s.self.ctrl.DmaFsBuffer.length = s.self.ctrl.NumDmaFsBuffers) :
    ∃ s', Csm500DriverInterface.Close s = .returns () s' ∧
      s'.self.bOpen = s.self.bOpen ∧ s'.self.ctrl.bOpen = s.self.ctrl.bOpen ∧
      s'.self.ctrl.DmaPeaksBuffer.length = s'.self.ctrl.NumDmaPeaksBuffers ∧
      s'.self.ctrl.DmaFsBuffer.length = s'.self.ctrl.NumDmaFsBuffers ∧
      (s.self.ctrl.fd = 0 ∨ s.self.ctrl.fd = -1 → s' = s) ∧
      (s.self.ctrl.fd ≠ 0 → s.self.ctrl.fd ≠ -1 →
        s'.self.ctrl.fd = 0 ∧
        s'.self.ctrl.DmaPeaksBuffer = List.replicate s.self.ctrl.NumDmaPeaksBuffers MAP_FAILED ∧
        s'.self.ctrl.DmaFsBuffer = List.replicate s.self.ctrl.NumDmaFsBuffers MAP_FAILED ∧
        s'.sys.log = s.sys.log ++
          release_calls s.self.ctrl.DmaPeaksBufferSize s.self.ctrl.DmaPeaksBuffer ++
          release_calls s.self.ctrl.DmaFsBufferSize s.self.ctrl.DmaFsBuffer ++
          [os_call.close s.self.ctrl.fd] ∧
        (s.self.ctrl.fd ∈ s.sys.fds →
          s'.sys.fds = s.sys.fds.erase s.self.ctrl.fd ∧
          s'.sys.dev = (sm500_close s.sys.dev).2) ∧
        ∀ m ∈ s'.sys.maps, m ∈ s.sys.maps ∧
          (m.addr ∈ s.self.ctrl.DmaPeaksBuffer ∨ m.addr ∈ s.self.ctrl.DmaFsBuffer →
            m.addr = MAP_FAILED)) := by
  unfold Csm500DriverInterface.Close
  by_cases h : s.self.ctrl.fd = 0 ∨ s.self.ctrl.fd = -1
  · rw [if_pos h]
    refine ⟨s, rfl, rfl, rfl, hpk, hfs, fun _ => rfl, ?_⟩
    intro h0 h1
    rcases h with h | h
    · exact absurd h h0
    · exact absurd h h1
  · rw [if_neg h]
    obtain ⟨sys', hrun, hlog, hfds, hdev, hmaps⟩ := ReleaseMemoryMap_spec s hpk hfs
    rw [hrun]
    refine ⟨_, rfl, rfl, rfl, by simp, by simp, fun h' => absurd h' h, ?_⟩
    intro _ _
    refine ⟨rfl, rfl, rfl, ?_, ?_, ?_⟩
    · simp [os_close, hlog]
      split <;> rfl
    · intro hmem
      simp only [os_close, hfds, hdev, if_pos hmem]
      exact ⟨trivial, trivial⟩
    · intro m hm
      apply hmaps
      simp only [os_close] at hm
      split at hm <;> exact hm


theorem release_calls_all_mapped (size count : Nat) (buf : List Nat) (h : all_mapped count buf) :
    release_calls size buf = buf.map (fun p => os_call.munmap p size) := by
  unfold release_calls
  congr 1
  rw [List.filter_eq_self]
  intro a ha
  simpa using h.2 a ha

/-- The member `Csm500Dev::Close` on an object in a state its member functions
leave it in: it returns, with `Csm500Dev::bOpen` false and the object again in
such a state. -/
theorem Dev_Close_returns (s : lib_state) (h : well_formed s) :
    ∃ s1, Csm500Dev.Close s = .returns () s1 ∧ s1.self.bOpen = false ∧ well_formed s1 := by
  obtain ⟨hpk, hfs, hopen⟩ := h
  unfold Csm500Dev.Close
  by_cases hb : s.self.bOpen = false
  · rw [if_pos hb]
    exact ⟨s, rfl, hb, hpk, hfs, hopen⟩
  · rw [if_neg hb]
    unfold Csm500DevCtrl.Close
    by_cases hc : s.self.ctrl.bOpen = false
    · rw [if_pos hc]
      exact ⟨_, rfl, rfl, hpk, hfs, hopen⟩
    · rw [if_neg hc]
      have hfd : s.self.ctrl.fd ∈ s.sys.fds := hopen (by simpa using hc)
      have hpair := enable_pair_eq SM500_INT_CLEAR SM500_DMA_CLEAR s hfd
      simp only [outcome.bind] at hpair ⊢
      generalize hw : Csm500DevCtrl.EnableInterrupts SM500_INT_CLEAR s = w at hpair ⊢
      cases w with
      | throws e s' => simp at hpair
      | sleeping => simp at hpair
      | undefined => simp at hpair
      | returns v sa =>
        simp only at hpair ⊢
        rw [hpair]
        simp only
        obtain ⟨s', hrun, hb', hc', hpk', hfs', _, _⟩ :=
          DriverInterface_Close_spec
            { s with sys := { s.sys with
                log := s.sys.log ++
                  [os_call.ioctl s.self.ctrl.fd (.WRITE_REG32 SM500_REG_INTE SM500_INT_CLEAR),
                   os_call.ioctl s.self.ctrl.fd (.WRITE_REG32 SM500_REG_DMACR SM500_DMA_CLEAR)]
                dev := sm500_iowrite32 (sm500_iowrite32 s.sys.dev SM500_REG_INTE
                  (u32 SM500_INT_CLEAR)) SM500_REG_DMACR (u32 SM500_DMA_CLEAR) } } hpk hfs
        rw [hrun]
        refine ⟨_, rfl, rfl, hpk', hfs', ?_⟩
        intro hx
        simp at hx

/-- C12 (idempotent close): on every object state that the member functions
leave behind (each array as long as its count says, and the descriptor open
whenever `Csm500DevCtrl::bOpen` is set), over every state of the driver and
of the process, `Close` returns without throwing, and a second `Close` right
after it returns as well and changes nothing: the state after it, the record
of system calls included, is the state before it, so it writes no register
and makes no `munmap` and no `close` call. -/
theorem C12_close_twice (s : lib_state) (h : well_formed s) :
    ∃ s1, Csm500Dev.Close s = .returns () s1 ∧ Csm500Dev.Close s1 = .returns () s1 ∧
      s1.sys.log = (outcome.state s1 (Csm500Dev.Close s1)).sys.log := by
  obtain ⟨s1, hrun, hb, _⟩ := Dev_Close_returns s h
  have h2 : Csm500Dev.Close s1 = .returns () s1 := by
    unfold Csm500Dev.Close
    rw [if_pos hb]
  exact ⟨s1, hrun, h2, by rw [h2]; rfl⟩


/-- Instance of C12: the object opened by `Init()` over a device with two peaks
buffers. -/
theorem C12_close_twice_witness :
    well_formed (opened_lib 2) ∧
    ∃ s1, Csm500Dev.Close (opened_lib 2) = .returns () s1 ∧
      Csm500Dev.Close s1 = .returns () s1 ∧
      s1.sys.log = (outcome.state s1 (Csm500Dev.Close s1)).sys.log :=
  ⟨⟨rfl, rfl, fun _ => by decide⟩, C12_close_twice (opened_lib 2) ⟨rfl, rfl, fun _ => by decide⟩⟩

/-- The member `Csm500Dev::Close` on an open object: both flags set, the
descriptor open and neither 0 nor -1, both arrays fully mapped. -/
theorem Dev_Close_opened (s : lib_state) (hb : s.self.bOpen = true)
    (hc : s.self.ctrl.bOpen = true) (hfd : s.self.ctrl.fd ∈ s.sys.fds)
    (h0 : s.self.ctrl.fd ≠ 0) (h1 : s.self.ctrl.fd ≠ -1) (hall : buffers_mapped s) :
    ∃ s2, Csm500Dev.Close s = .returns () s2 ∧
      s2.sys.log = s.sys.log ++
        [os_call.ioctl s.self.ctrl.fd (.WRITE_REG32 SM500_REG_INTE SM500_INT_CLEAR),
         os_call.ioctl s.self.ctrl.fd (.WRITE_REG32 SM500_REG_DMACR SM500_DMA_CLEAR)] ++
        s.self.ctrl.DmaPeaksBuffer.map
          (fun p => os_call.munmap p s.self.ctrl.DmaPeaksBufferSize) ++
        s.self.ctrl.DmaFsBuffer.map (fun p => os_call.munmap p s.self.ctrl.DmaFsBufferSize) ++
        [os_call.close s.self.ctrl.fd] ∧
      sm500_ioread32 s2.sys.dev SM500_REG_INTE = 0 ∧
      sm500_ioread32 s2.sys.dev SM500_REG_DMACR = 0 ∧
      s2.self.ctrl.fd = 0 ∧
      s2.self.ctrl.DmaPeaksBuffer = List.replicate s.self.ctrl.NumDmaPeaksBuffers MAP_FAILED ∧
      s2.self.ctrl.DmaFsBuffer = List.replicate s.self.ctrl.NumDmaFsBuffers MAP_FAILED ∧
      s2.sys.fds = s.sys.fds.erase s.self.ctrl.fd ∧
      (∀ m ∈ s2.sys.maps, m ∈ s.sys.maps ∧ m.addr ∉ s.self.ctrl.DmaPeaksBuffer ∧
        m.addr ∉ s.self.ctrl.DmaFsBuffer) ∧
      s2.self.bOpen = false ∧ s2.self.ctrl.bOpen = false := by
  obtain ⟨hpk, hfs⟩ := hall
  unfold Csm500Dev.Close
  rw [if_neg (by simp [hb])]
  unfold Csm500DevCtrl.Close
  rw [if_neg (by simp [hc])]
  have hpair := enable_pair_eq SM500_INT_CLEAR SM500_DMA_CLEAR s hfd
  simp only [outcome.bind] at hpair ⊢
  generalize hw : Csm500DevCtrl.EnableInterrupts SM500_INT_CLEAR s = w at hpair ⊢
  cases w with
  | throws e s' => simp at hpair
  | sleeping => simp at hpair
  | undefined => simp at hpair
  | returns v sa =>
    simp only at hpair ⊢
    rw [hpair]
    simp only
    obtain ⟨s', hrun, _, _, _, _, _, hmain⟩ :=
      DriverInterface_Close_spec
        { s with sys := { s.sys with
            log := s.sys.log ++
              [os_call.ioctl s.self.ctrl.fd (.WRITE_REG32 SM500_REG_INTE SM500_INT_CLEAR),
               os_call.ioctl s.self.ctrl.fd (.WRITE_REG32 SM500_REG_DMACR SM500_DMA_CLEAR)]
            dev := sm500_iowrite32 (sm500_iowrite32 s.sys.dev SM500_REG_INTE
              (u32 SM500_INT_CLEAR)) SM500_REG_DMACR (u32 SM500_DMA_CLEAR) } } hpk.1 hfs.1
    obtain ⟨hfd0, hbpk, hbfs, hlog, hclose, hmaps⟩ := hmain h0 h1
    obtain ⟨hfds, hdev⟩ := hclose hfd
    rw [hrun]
    simp only at hlog hfds hdev hmaps hbpk hbfs hfd0
    refine ⟨_, rfl, ?_, ?_, ?_, hfd0, hbpk, hbfs, hfds, ?_, rfl, rfl⟩
    · simp only
      rw [hlog, release_calls_all_mapped _ _ _ hpk, release_calls_all_mapped _ _ _ hfs]
    · simp only
      rw [hdev]
      simp [sm500_close, sm500_ioread32, sm500_iowrite32, SM500_REG_INTE, SM500_REG_DMACR,
        SM500_INT_CLEAR, u32]
    · simp only
      rw [hdev]
      simp [sm500_close, sm500_ioread32, sm500_iowrite32, SM500_REG_INTE, SM500_REG_DMACR,
        SM500_DMA_CLEAR, u32]
    · intro m hm
      obtain ⟨hmem, himp⟩ := hmaps m hm
      refine ⟨hmem, ?_, ?_⟩
      · intro hin
        exact hpk.2 _ hin (himp (Or.inl hin))
      · intro hin
        exact hfs.2 _ hin (himp (Or.inr hin))


/-- C14 (order of the effects of Close): whenever the default `Init()` of a
`Csm500Dev` object returns, under any kernel and from any state, with a
descriptor other than 0, the `Close` that follows returns and makes exactly
these system calls, in this order: the write of `SM500_INT_CLEAR` to the
interrupt-enable register, the write of `SM500_DMA_CLEAR` to the DMA control
register, one `munmap` for every element of the peaks array and then of the
full-spectrum array (each array holds as many mapped addresses as its count
says), and `close` of the descriptor. Afterwards both registers read 0, the
descriptor member is 0 and no longer open, every element of both arrays is
`MAP_FAILED`, no mapping at an address of the arrays is left, and both
`bOpen` members are false. -/
theorem C14_close_order_after_default_open (o : os_oracle) (s s1 : lib_state)
    (hinit : Csm500Dev.Init o s = .returns () s1) (h0 : s1.self.ctrl.fd ≠ 0) :
    ∃ s2, Csm500Dev.Close s1 = .returns () s2 ∧
      s2.sys.log = s1.sys.log ++
        [os_call.ioctl s1.self.ctrl.fd (.WRITE_REG32 SM500_REG_INTE SM500_INT_CLEAR),
         os_call.ioctl s1.self.ctrl.fd (.WRITE_REG32 SM500_REG_DMACR SM500_DMA_CLEAR)] ++
        s1.self.ctrl.DmaPeaksBuffer.map
          (fun p => os_call.munmap p s1.self.ctrl.DmaPeaksBufferSize) ++
        s1.self.ctrl.DmaFsBuffer.map
          (fun p => os_call.munmap p s1.self.ctrl.DmaFsBufferSize) ++
        [os_call.close s1.self.ctrl.fd] ∧
      all_mapped s1.self.ctrl.NumDmaPeaksBuffers s1.self.ctrl.DmaPeaksBuffer ∧
      all_mapped s1.self.ctrl.NumDmaFsBuffers s1.self.ctrl.DmaFsBuffer ∧
      sm500_ioread32 s2.sys.dev SM500_REG_INTE = 0 ∧
      sm500_ioread32 s2.sys.dev SM500_REG_DMACR = 0 ∧
      s2.self.ctrl.fd = 0 ∧
      s2.self.ctrl.DmaPeaksBuffer = List.replicate s1.self.ctrl.NumDmaPeaksBuffers MAP_FAILED ∧
      s2.self.ctrl.DmaFsBuffer = List.replicate s1.self.ctrl.NumDmaFsBuffers MAP_FAILED ∧
      s2.sys.fds = s1.sys.fds.erase s1.self.ctrl.fd ∧
      (∀ m ∈ s2.sys.maps, m ∈ s1.sys.maps ∧ m.addr ∉ s1.self.ctrl.DmaPeaksBuffer ∧
        m.addr ∉ s1.self.ctrl.DmaFsBuffer) ∧
      s2.self.bOpen = false ∧ s2.self.ctrl.bOpen = false := by
  obtain ⟨hc, hb, hh, hall⟩ := outcome.sat_returns _ _ _ (Dev_Init_sat o s) () s1 hinit
  obtain ⟨hfd, h1⟩ := holds_handle_mem o s s1 hh
  obtain ⟨s2, hrun, hlog, hr1, hr2, hfd0, hpk, hfs, hfds, hmaps, hb2, hc2⟩ :=
    Dev_Close_opened s1 hb hc hfd h0 h1 hall
  exact ⟨s2, hrun, hlog, hall.1, hall.2, hr1, hr2, hfd0, hpk, hfs, hfds, hmaps, hb2, hc2⟩

/-- Instance of C14: a new object over a device with two peaks buffers and one
full-spectrum buffer, opened under `plain_kernel` (descriptor 3). -/
theorem C14_close_order_after_default_open_witness :
    Csm500Dev.Init plain_kernel (fresh_lib 2) = .returns () (opened_lib 2) ∧
    (opened_lib 2).self.ctrl.fd ≠ 0 ∧
    ∃ s2, Csm500Dev.Close (opened_lib 2) = .returns () s2 ∧
      s2.sys.log = (opened_lib 2).sys.log ++
        [os_call.ioctl (opened_lib 2).self.ctrl.fd (.WRITE_REG32 SM500_REG_INTE SM500_INT_CLEAR),
         os_call.ioctl (opened_lib 2).self.ctrl.fd
           (.WRITE_REG32 SM500_REG_DMACR SM500_DMA_CLEAR)] ++
        (opened_lib 2).self.ctrl.DmaPeaksBuffer.map
          (fun p => os_call.munmap p (opened_lib 2).self.ctrl.DmaPeaksBufferSize) ++
        (opened_lib 2).self.ctrl.DmaFsBuffer.map
          (fun p => os_call.munmap p (opened_lib 2).self.ctrl.DmaFsBufferSize) ++
        [os_call.close (opened_lib 2).self.ctrl.fd] ∧
      all_mapped (opened_lib 2).self.ctrl.NumDmaPeaksBuffers
        (opened_lib 2).self.ctrl.DmaPeaksBuffer ∧
      all_mapped (opened_lib 2).self.ctrl.NumDmaFsBuffers (opened_lib 2).self.ctrl.DmaFsBuffer ∧
      sm500_ioread32 s2.sys.dev SM500_REG_INTE = 0 ∧
      sm500_ioread32 s2.sys.dev SM500_REG_DMACR = 0 ∧
      s2.self.ctrl.fd = 0 ∧
      s2.self.ctrl.DmaPeaksBuffer =
        List.replicate (opened_lib 2).self.ctrl.NumDmaPeaksBuffers MAP_FAILED ∧
      s2.self.ctrl.DmaFsBuffer =
        List.replicate (opened_lib 2).self.ctrl.NumDmaFsBuffers MAP_FAILED ∧
      s2.sys.fds = (opened_lib 2).sys.fds.erase (opened_lib 2).self.ctrl.fd ∧
      (∀ m ∈ s2.sys.maps, m ∈ (opened_lib 2).sys.maps ∧
        m.addr ∉ (opened_lib 2).self.ctrl.DmaPeaksBuffer ∧
        m.addr ∉ (opened_lib 2).self.ctrl.DmaFsBuffer) ∧
      s2.self.bOpen = false ∧ s2.self.ctrl.bOpen = false :=
  ⟨rfl, by decide,
    C14_close_order_after_default_open plain_kernel (fresh_lib 2) (opened_lib 2) rfl (by decide)⟩

/-- C13, evaluated on a new object over a device with two peaks buffers and one
full-spectrum buffer under `plain_kernel`: after `Init(DevNode)` has
returned, `Close` returns without a single system call. The descriptor 3
stays open and stored in the object, the three mappings stay, and the
interrupt-enable and DMA control registers keep the value 6 that `Init`
wrote. On the same object opened by `Init()` instead, `Close` writes 0 to
both registers, unmaps the three buffers and closes the descriptor. -/
theorem C13_close_after_named_open_does_nothing :
    Csm500Dev.Init_node plain_kernel (fresh_lib 2) = .returns () (node_opened_lib 2) ∧
    (node_opened_lib 2).self.bOpen = true ∧ (node_opened_lib 2).self.ctrl.bOpen = false ∧
    Csm500Dev.Close (node_opened_lib 2) =
      .returns () { node_opened_lib 2 with self.bOpen := false } ∧
    (node_opened_lib 2).self.ctrl.fd = 3 ∧ (node_opened_lib 2).sys.fds = [3] ∧
    (node_opened_lib 2).sys.maps.length = 3 ∧
    sm500_ioread32 (node_opened_lib 2).sys.dev SM500_REG_INTE = 6 ∧
    sm500_ioread32 (node_opened_lib 2).sys.dev SM500_REG_DMACR = 6 ∧
    Csm500Dev.Init plain_kernel (fresh_lib 2) = .returns () (opened_lib 2) ∧
    (opened_lib 2).sys.maps.length = 3 ∧
    (outcome.state (opened_lib 2) (Csm500Dev.Close (opened_lib 2))).sys.log =
      (opened_lib 2).sys.log ++
        [.ioctl 3 (.WRITE_REG32 SM500_REG_INTE 0), .ioctl 3 (.WRITE_REG32 SM500_REG_DMACR 0),
         .munmap (4096 * (0x10000 + 4)) 4096, .munmap (4096 * (0x10000 + 5)) 4096,
         .munmap (4096 * (0x10000 + 9)) 4096, .close 3] ∧
    (outcome.state (opened_lib 2) (Csm500Dev.Close (opened_lib 2))).sys.fds = [] ∧
    (outcome.state (opened_lib 2) (Csm500Dev.Close (opened_lib 2))).sys.maps = [] :=
  ⟨rfl, rfl, rfl, rfl, rfl, rfl, rfl, rfl, rfl, rfl, rfl, by decide, by decide, by decide⟩


/-- Counterexample to C15 as stated: a new object over a device with two peaks
buffers, under a kernel whose `remap_pfn_range` fails with `-ENOMEM` for the
second peaks buffer. `Init()` throws 12, and at that moment the descriptor 3
is still open and stored in the object, the mapping of peaks buffer 0 is
still there, and the system calls made are `open`, three `ioctl`s and two
`mmap`s: no `munmap` and no `close`. -/
theorem C15_failed_open_keeps_handle_and_mapping :
    Csm500Dev.Init (failing_kernel 5) (fresh_lib 2) =
      .throws 12 (outcome.state (fresh_lib 2) (Csm500Dev.Init (failing_kernel 5) (fresh_lib 2))) ∧
    (outcome.state (fresh_lib 2)
      (Csm500Dev.Init (failing_kernel 5) (fresh_lib 2))).self.ctrl.fd = 3 ∧
    (outcome.state (fresh_lib 2) (Csm500Dev.Init (failing_kernel 5) (fresh_lib 2))).sys.fds = [3] ∧
    (outcome.state (fresh_lib 2) (Csm500Dev.Init (failing_kernel 5) (fresh_lib 2))).sys.maps =
      [{ addr := 4096 * (0x10000 + 4), length := 4096, fs := false, index := 0 }] ∧
    (outcome.state (fresh_lib 2) (Csm500Dev.Init (failing_kernel 5) (fresh_lib 2))).sys.log =
      [.open_node, .ioctl 3 (.READ_REG32 SM500_REG_NPKBUF),
       .ioctl 3 (.READ_REG32 SM500_REG_PKBUFSZ), .ioctl 3 (.SET_MMAP_INDEX 0),
       .mmap 3 4096, .mmap 3 4096] :=
  ⟨rfl, by decide, by decide, by decide, by decide⟩

/-- C15 (amended): `Init()` and `Init(DevNode)` of a `Csm500Dev` object undo
nothing when they fail. Whenever either throws, under any kernel and from any
state, what it throws is the `errno` of the failing call and both `bOpen`
members are false; and either the `open` call was refused, in which case the
descriptor member is 0, nothing was mapped and `open` was the only system
call, or `open` succeeded, in which case the object still holds the new
descriptor, the descriptor is still open, every mapping made before the
failure is still there, and after `open` only `ioctl` and `mmap` calls were
made, no `munmap` and no `close`. -/
theorem C15_failed_open_undoes_nothing (o : os_oracle) (s s' : lib_state) (e : Int)
    (h : Csm500Dev.Init o s = .throws e s' ∨ Csm500Dev.Init_node o s = .throws e s') :
    e = s'.sys.errno ∧ s'.self.bOpen = false ∧ s'.self.ctrl.bOpen = false ∧
    ((s'.self.ctrl.fd = 0 ∧ s'.sys.fds = s.sys.fds ∧ s'.sys.maps = s.sys.maps ∧
        s'.sys.log = s.sys.log ++ [os_call.open_node]) ∨
     (s'.self.ctrl.fd = (o.new_fd s.sys.log.length : Int) ∧
        s'.sys.fds = s'.self.ctrl.fd :: s.sys.fds ∧
        (∃ ext, s'.sys.log = s.sys.log ++ os_call.open_node :: ext ∧
          ∀ c ∈ ext, c.acquires = true) ∧
        ∃ m, s'.sys.maps = s.sys.maps ++ m)) := by
  rcases h with h | h
  · obtain ⟨he, hc, hb, hor⟩ := outcome.sat_throws _ _ _ (Dev_Init_sat o s) e s' h
    exact ⟨he, hb, hc, hor⟩
  · obtain ⟨he, hc, hb, hor⟩ := outcome.sat_throws _ _ _ (Dev_Init_node_sat o s) e s' h
    exact ⟨he, hb, hc, hor⟩

/-- Instance of C15 (amended): the failing run of the counterexample. -/
theorem C15_failed_open_undoes_nothing_witness :
    (Csm500Dev.Init (failing_kernel 5) (fresh_lib 2) =
        .throws 12
          (outcome.state (fresh_lib 2) (Csm500Dev.Init (failing_kernel 5) (fresh_lib 2))) ∨
      Csm500Dev.Init_node (failing_kernel 5) (fresh_lib 2) =
        .throws 12
          (outcome.state (fresh_lib 2) (Csm500Dev.Init (failing_kernel 5) (fresh_lib 2)))) ∧
    (12 : Int) =
      (outcome.state (fresh_lib 2) (Csm500Dev.Init (failing_kernel 5) (fresh_lib 2))).sys.errno :=
  ⟨Or.inl rfl,
    (C15_failed_open_undoes_nothing (failing_kernel 5) (fresh_lib 2) _ 12 (Or.inl rfl)).1⟩

theorem mem_stream_maps (fs : Bool) (size : Nat) (buf : List Nat) (i a : Nat)
    (h : array_at buf i = some a) :
    ({ addr := a, length := size, fs := fs, index := i } : user_mapping) ∈
      stream_maps fs size 0 buf := by
  unfold stream_maps
  rw [List.mem_map]
  refine ⟨(i, a), ?_, rfl⟩
  have := (List.mk_add_mem_enumFrom_iff_getElem? (n := 0) (i := i) (x := a) (l := buf)).mpr
    (by rw [← List.get?_eq_getElem?]; exact h)
  simpa using this

/-- C17 (slot index agreement): whenever `SetupMemoryMap` returns, under any
kernel and from any state, with both counts at most 65536, each pointer array
holds as many addresses as its count says, none of them `MAP_FAILED`, and the
mappings the call added are exactly, in order, one mapping of the driver's
peaks buffer `i` at the address `DmaPeaksBuffer[i]` for `i = 0, 1, ...`, then
one mapping of the driver's full-spectrum buffer `i` at the address
`DmaFsBuffer[i]` for `i = 0, 1, ...`. So element `i` of either array is a view
of the driver's buffer `i` of that stream, the buffer the interrupt handler
stamps as slot `i` and whose index the retrieval commands hand out. -/
theorem C17_slot_index_agreement (o : os_oracle) (s s1 : lib_state)
    (hrun : Csm500DriverInterface.SetupMemoryMap o s = .returns () s1)
    (hpk : s1.self.ctrl.NumDmaPeaksBuffers ≤ 2 ^ 16)
    (hfs : s1.self.ctrl.NumDmaFsBuffers ≤ 2 ^ 16) :
    all_mapped s1.self.ctrl.NumDmaPeaksBuffers s1.self.ctrl.DmaPeaksBuffer ∧
    all_mapped s1.self.ctrl.NumDmaFsBuffers s1.self.ctrl.DmaFsBuffer ∧
    s1.sys.maps = s.sys.maps ++
      stream_maps false s1.self.ctrl.DmaPeaksBufferSize 0 s1.self.ctrl.DmaPeaksBuffer ++
      stream_maps true s1.self.ctrl.DmaFsBufferSize 0 s1.self.ctrl.DmaFsBuffer ∧
    (∀ i, i < s1.self.ctrl.NumDmaPeaksBuffers →
      ∃ a, array_at s1.self.ctrl.DmaPeaksBuffer i = some a ∧
        ({ addr := a, length := s1.self.ctrl.DmaPeaksBufferSize, fs := false, index := i } :
          user_mapping) ∈ s1.sys.maps) ∧
    (∀ i, i < s1.self.ctrl.NumDmaFsBuffers →
      ∃ a, array_at s1.self.ctrl.DmaFsBuffer i = some a ∧
        ({ addr := a, length := s1.self.ctrl.DmaFsBufferSize, fs := true, index := i } :
          user_mapping) ∈ s1.sys.maps) := by
  obtain ⟨_, _, hall, hmaps⟩ := outcome.sat_returns _ _ _ (SetupMemoryMap_sat o s) () s1 hrun
  have hm := hmaps hpk hfs
  refine ⟨hall.1, hall.2, hm, ?_, ?_⟩
  · intro i hi
    have hlt : i < s1.self.ctrl.DmaPeaksBuffer.length := by rw [hall.1.1]; exact hi
    refine ⟨s1.self.ctrl.DmaPeaksBuffer.get ⟨i, hlt⟩, List.get?_eq_get hlt, ?_⟩
    rw [hm]
    exact List.mem_append_left _ (List.mem_append_right _
      (mem_stream_maps _ _ _ _ _ (List.get?_eq_get hlt)))
  · intro i hi
    have hlt : i < s1.self.ctrl.DmaFsBuffer.length := by rw [hall.2.1]; exact hi
    refine ⟨s1.self.ctrl.DmaFsBuffer.get ⟨i, hlt⟩, List.get?_eq_get hlt, ?_⟩
    rw [hm]
    exact List.mem_append_right _ (mem_stream_maps _ _ _ _ _ (List.get?_eq_get hlt))

/-- Instance of C17: `SetupMemoryMap` on a new object that holds descriptor 3,
over a device with two peaks buffers and one full-spectrum buffer. -/
theorem C17_slot_index_agreement_witness :
    Csm500DriverInterface.SetupMemoryMap plain_kernel (handle_lib 2) =
      .returns ()
        (outcome.state (handle_lib 2)
          (Csm500DriverInterface.SetupMemoryMap plain_kernel (handle_lib 2))) ∧
    (outcome.state (handle_lib 2)
      (Csm500DriverInterface.SetupMemoryMap plain_kernel (handle_lib 2))).sys.maps =
      [{ addr := 4096 * (0x10000 + 4), length := 4096, fs := false, index := 0 },
       { addr := 4096 * (0x10000 + 5), length := 4096, fs := false, index := 1 },
       { addr := 4096 * (0x10000 + 9), length := 4096, fs := true, index := 0 }] ∧
    (outcome.state (handle_lib 2)
      (Csm500DriverInterface.SetupMemoryMap plain_kernel (handle_lib 2))).sys.maps =
      (handle_lib 2).sys.maps ++
        stream_maps false 4096 0 [4096 * (0x10000 + 4), 4096 * (0x10000 + 5)] ++
        stream_maps true 4096 0 [4096 * (0x10000 + 9)] :=
  ⟨rfl, by decide,
    (C17_slot_index_agreement plain_kernel (handle_lib 2) _ rfl (by decide) (by decide)).2.2.1⟩


/-! ## The states the member functions leave behind -/

theorem outcome.sat_and {α : Type} (r : outcome α) (T1 T2 : Int → lib_state → Prop)
    (R1 R2 : α → lib_state → Prop) (h1 : r.sat T1 R1) (h2 : r.sat T2 R2) :
    r.sat (fun e s => T1 e s ∧ T2 e s) (fun v s => R1 v s ∧ R2 v s) := by
  cases r with
  | throws e s => exact ⟨h1, h2⟩
  | sleeping => trivial
  | undefined => trivial
  | returns v s => exact ⟨h1, h2⟩

theorem map_peaks_sized (o : os_oracle) (s : lib_state) (h : arrays_sized s) :
    (SetupMemoryMap_map_peaks o s).sat (fun _ s' => arrays_sized s')
      (fun _ s' => arrays_sized s') := by
  have hA := (SetupMemoryMap_loop_acquires o s.self.ctrl.fd s.self.ctrl.DmaPeaksBufferSize
    s.self.ctrl.DmaPeaksBuffer [] s.sys).2.2.1
  simp only [List.length_nil, List.nil_append, h.1, Nat.zero_add] at hA
  unfold SetupMemoryMap_map_peaks
  simp only
  split
  · exact ⟨hA, h.2⟩
  · exact ⟨hA, h.2⟩

theorem map_fs_sized (o : os_oracle) (s : lib_state) (h : arrays_sized s) :
    (SetupMemoryMap_map_fs o s).sat (fun _ s' => arrays_sized s')
      (fun _ s' => arrays_sized s') := by
  have hA := (SetupMemoryMap_loop_acquires o s.self.ctrl.fd s.self.ctrl.DmaFsBufferSize
    s.self.ctrl.DmaFsBuffer [] s.sys).2.2.1
  simp only [List.length_nil, List.nil_append, h.2, Nat.zero_add] at hA
  unfold SetupMemoryMap_map_fs
  simp only
  split
  · exact ⟨h.1, hA⟩
  · exact ⟨h.1, hA⟩

theorem SetupMemoryMap_peaks_sized (o : os_oracle) (s : lib_state) (h : arrays_sized s) :
    (SetupMemoryMap_peaks o s).sat (fun _ s' => arrays_sized s')
      (fun _ s' => arrays_sized s') := by
  unfold SetupMemoryMap_peaks
  by_cases hfd : s.self.ctrl.fd ∈ s.sys.fds
  · simp only [ReadReg32_eq, set_index_eq, hfd, if_true, outcome.bind]
    split
    · trivial
    · exact map_peaks_sized o _ ⟨by simp, h.2⟩
  · simp only [ReadReg32_eq, hfd, if_false, outcome.bind, outcome.sat]
    exact h

theorem SetupMemoryMap_fs_sized (o : os_oracle) (s : lib_state) (h : arrays_sized s) :
    (SetupMemoryMap_fs o s).sat (fun _ s' => arrays_sized s')
      (fun _ s' => arrays_sized s') := by
  unfold SetupMemoryMap_fs
  by_cases hfd : s.self.ctrl.fd ∈ s.sys.fds
  · simp only [ReadReg32_eq, set_index_eq, hfd, if_true, outcome.bind]
    split
    · trivial
    · exact map_fs_sized o _ ⟨h.1, by simp⟩
  · simp only [ReadReg32_eq, hfd, if_false, outcome.bind, outcome.sat]
    exact h

theorem enable_pair_sized (a b : Nat) (s : lib_state) (h : arrays_sized s) :
    ((Csm500DevCtrl.EnableInterrupts a s).bind fun _ s => Csm500DevCtrl.EnableDma b s).sat
      (fun _ s' => arrays_sized s') (fun _ s' => arrays_sized s') := by
  unfold Csm500DevCtrl.EnableInterrupts Csm500DevCtrl.EnableDma
  by_cases hfd : s.self.ctrl.fd ∈ s.sys.fds
  · simp only [WriteReg32_eq, hfd, if_true, outcome.bind, outcome.sat]
    exact h
  · simp only [WriteReg32_eq, hfd, if_false, outcome.bind, outcome.sat]
    exact h

theorem DriverInterface_Init_node_sized (o : os_oracle) (s : lib_state) (h : arrays_sized s) :
    (Csm500DriverInterface.Init_node o s).sat (fun _ s' => arrays_sized s')
      (fun _ s' => arrays_sized s') := by
  unfold Csm500DriverInterface.Init_node
  simp only
  split
  · exact h
  · unfold Csm500DriverInterface.SetupMemoryMap
    exact outcome.sat_bind _ _ _ _ _ (SetupMemoryMap_peaks_sized o _ h)
      (fun _ s1 h1 => SetupMemoryMap_fs_sized o s1 h1)

theorem Dev_Init_node_sized (o : os_oracle) (s : lib_state) (h : arrays_sized s) :
    (Csm500Dev.Init_node o s).sat (fun _ s' => arrays_sized s')
      (fun _ s' => arrays_sized s') := by
  unfold Csm500Dev.Init_node Csm500DevCtrl.Init_node
  refine outcome.sat_bind _ _ _ _ _ (outcome.sat_catch _ _ _ _ _
    (outcome.sat_bind _ _ _ _ _ (outcome.sat_catch _ _ _ _ _
      (DriverInterface_Init_node_sized o s h) (fun _ _ h' => ⟨h'.1, h'.2⟩))
      (fun _ s1 h1 => enable_pair_sized _ _ s1 h1)) (fun _ _ h' => ⟨h'.1, h'.2⟩)) (fun _ _ h' => ⟨h'.1, h'.2⟩)

theorem Dev_Init_sized (o : os_oracle) (s : lib_state) (h : arrays_sized s) :
    (Csm500Dev.Init o s).sat (fun _ s' => arrays_sized s')
      (fun _ s' => arrays_sized s') := by
  unfold Csm500Dev.Init Csm500DevCtrl.Init Csm500DriverInterface.Init
  refine outcome.sat_bind _ _ _ _ _ (outcome.sat_catch _ _ _ _ _
    (outcome.sat_bind _ _ _ _ _ (outcome.sat_catch _ _ _ _ _
      (Dev_Init_node_sized o s h) (fun _ _ h' => ⟨h'.1, h'.2⟩))
      (fun _ s1 h1 => enable_pair_sized _ _ _ ⟨h1.1, h1.2⟩)) (fun _ _ h' => ⟨h'.1, h'.2⟩)) (fun _ _ h' => ⟨h'.1, h'.2⟩)

/-- A newly constructed object is in a state `well_formed` describes, whatever
the state of the driver and of the process. -/
theorem constructor_well_formed (sys : os_state) :
    well_formed { self := Csm500Dev_constructor, sys := sys } :=
  ⟨rfl, rfl, fun h => Bool.noConfusion h⟩

/-- The member `Init()` leaves the object in such a state, whether it returns or
throws. -/
theorem Dev_Init_well_formed (o : os_oracle) (s : lib_state) (h : well_formed s) :
    (Csm500Dev.Init o s).sat (fun _ s' => well_formed s') (fun _ s' => well_formed s') := by
  refine outcome.sat_mono _ _ _ _ _
    (outcome.sat_and _ _ _ _ _ (Dev_Init_sat o s) (Dev_Init_sized o s ⟨h.1, h.2.1⟩)) ?_ ?_
  · rintro e s' ⟨⟨_, hc, _, _⟩, hs⟩
    exact ⟨hs.1, hs.2, fun hx => by rw [hc] at hx; exact Bool.noConfusion hx⟩
  · rintro _ s' ⟨⟨_, _, hh, _⟩, hs⟩
    exact ⟨hs.1, hs.2, fun _ => (holds_handle_mem o s s' hh).1⟩

/-- The member `Init(DevNode)` leaves the object in such a state, whether it
returns or throws. -/
theorem Dev_Init_node_well_formed (o : os_oracle) (s : lib_state) (h : well_formed s) :
    (Csm500Dev.Init_node o s).sat (fun _ s' => well_formed s')
      (fun _ s' => well_formed s') := by
  refine outcome.sat_mono _ _ _ _ _
    (outcome.sat_and _ _ _ _ _ (Dev_Init_node_sat o s) (Dev_Init_node_sized o s ⟨h.1, h.2.1⟩))
    ?_ ?_
  · rintro e s' ⟨⟨_, hc, _, _⟩, hs⟩
    exact ⟨hs.1, hs.2, fun hx => by rw [hc] at hx; exact Bool.noConfusion hx⟩
  · rintro _ s' ⟨⟨_, _, hh, _⟩, hs⟩
    exact ⟨hs.1, hs.2, fun _ => (holds_handle_mem o s s' hh).1⟩


/-! ## Signals, cancellation and the register bit helpers -/

/-- C25, as the code behaves: with a signal pending for the caller,
`GET_PEAKS_DATA` returns 0 in every state, hands out the read pointer and
advances it, also when the read pointer equals the write pointer; the result
of `wait_event_interruptible` is not looked at. On the count-4 device with
both cursors at 0 the call interrupted by a signal reports no error, delivers
slot 0 and leaves the read pointer at 1, past the write pointer. -/
theorem C25_signal_ends_wait_with_success :
    (∀ st : dev_sm500, sm500_ioctl true .GET_PEAKS_DATA st =
      .returned 0 (some (u16 st.peaks_buf_rd_ptr))
        { st with
          peaks_buf_rd_ptr :=
            u16 ((st.peaks_buf_rd_ptr + 1) &&& u32_pred st.NumDmaPeaksBuffers) }) ∧
    (fresh_dev 4).peaks_buf_rd_ptr = (fresh_dev 4).peaks_buf_wr_ptr ∧
    sm500_ioctl false .GET_PEAKS_DATA (fresh_dev 4) = .sleeping ∧
    sm500_ioctl true .GET_PEAKS_DATA (fresh_dev 4) =
      .returned 0 (some 0) { fresh_dev 4 with peaks_buf_rd_ptr := 1 } := by
  refine ⟨?_, rfl, rfl, rfl⟩
  intro st
  simp [sm500_ioctl, wait_event_interruptible]

/-- C29 (cancel desynchronises the read cursor): on a stream of `N = 2 ^ e`
buffers with `2 ≤ N ≤ 32768` and the write pointer below `N`, `CANCEL_READ`
followed by one `GET_PEAKS_DATA` makes that call return at once with the value
`N` and leaves the read pointer at 1 and the write pointer where it was; and
whenever the write pointer is not 1 the next `GET_PEAKS_DATA` returns slot 1
at once, with no interrupt in between. -/
theorem C29_cancel_then_retrieve (e : Nat) (st : dev_sm500) (sp1 sp2 sp3 : Bool)
    (he1 : 1 ≤ e) (he : e ≤ 15) (hN : st.NumDmaPeaksBuffers = 2 ^ e)
    (hw : st.peaks_buf_wr_ptr < 2 ^ e) :
    ∃ st1 st2, sm500_ioctl sp1 .CANCEL_READ st = .returned 0 none st1 ∧
      sm500_ioctl sp2 .GET_PEAKS_DATA st1 = .returned 0 (some (2 ^ e)) st2 ∧
      st2.peaks_buf_rd_ptr = 1 ∧ st2.peaks_buf_wr_ptr = st.peaks_buf_wr_ptr ∧
      (st.peaks_buf_wr_ptr ≠ 1 →
        ∃ st3, sm500_ioctl sp3 .GET_PEAKS_DATA st2 = .returned 0 (some 1) st3) := by
  have h15 : 2 ^ e ≤ 2 ^ 15 := two_pow_le_of_le e 15 he
  have h2 : 2 ^ 1 ≤ 2 ^ e := two_pow_le_of_le 1 e he1
  have hu : u16 (2 ^ e) = 2 ^ e := by
    unfold u16
    exact Nat.mod_eq_of_lt (by omega)
  have hadv : u16 ((2 ^ e + 1) &&& u32_pred (2 ^ e)) = 1 := by
    rw [cursor_advance e _ (by omega), Nat.add_mod, Nat.mod_self, Nat.zero_add, Nat.mod_mod]
    exact Nat.mod_eq_of_lt (by omega)
  have hu1 : u16 1 = 1 := rfl
  obtain ⟨st1, hst1⟩ : ∃ x, x =
      ({ st with fs_data_ready := 1, peaks_buf_rd_ptr := u16 st.NumDmaPeaksBuffers } :
        dev_sm500) := ⟨_, rfl⟩
  have h1rd : st1.peaks_buf_rd_ptr = 2 ^ e := by
    rw [hst1]
    simp only
    rw [hN, hu]
  have h1wr : st1.peaks_buf_wr_ptr = st.peaks_buf_wr_ptr := by rw [hst1]
  have h1N : st1.NumDmaPeaksBuffers = 2 ^ e := by rw [hst1]; exact hN
  have hget := get_peaks_data_ready sp2 st1 (by rw [h1rd, h1wr]; omega)
  obtain ⟨st2, hst2⟩ : ∃ x, x =
      ({ st1 with
          peaks_buf_rd_ptr :=
            u16 ((st1.peaks_buf_rd_ptr + 1) &&& u32_pred st1.NumDmaPeaksBuffers) } :
        dev_sm500) := ⟨_, rfl⟩
  rw [← hst2, h1rd, hu] at hget
  have h2rd : st2.peaks_buf_rd_ptr = 1 := by
    rw [hst2]
    simp only
    rw [h1rd, h1N, hadv]
  have h2wr : st2.peaks_buf_wr_ptr = st.peaks_buf_wr_ptr := by rw [hst2]; exact h1wr
  refine ⟨st1, st2, by rw [hst1]; rfl, hget, h2rd, h2wr, ?_⟩
  intro hne
  have hget2 := get_peaks_data_ready sp3 st2 (by rw [h2rd, h2wr]; exact Ne.symm hne)
  rw [h2rd, hu1] at hget2
  exact ⟨_, hget2⟩

/-- Instance of C29: the count-4 device. -/
theorem C29_cancel_then_retrieve_witness :
    ∃ st1 st2, sm500_ioctl false .CANCEL_READ (fresh_dev 4) = .returned 0 none st1 ∧
      sm500_ioctl false .GET_PEAKS_DATA st1 = .returned 0 (some (2 ^ 2)) st2 ∧
      st2.peaks_buf_rd_ptr = 1 ∧ st2.peaks_buf_wr_ptr = (fresh_dev 4).peaks_buf_wr_ptr ∧
      ((fresh_dev 4).peaks_buf_wr_ptr ≠ 1 →
        ∃ st3, sm500_ioctl false .GET_PEAKS_DATA st2 = .returned 0 (some 1) st3) :=
  C29_cancel_then_retrieve 2 (fresh_dev 4) false false false (by decide) (by decide) rfl
    (by decide)

/-- C30, as the code behaves: the two helpers pass the new value where
`sm500_iowrite32` expects the register and the register where it expects the
value. On the device `fresh_dev 4` (interrupt-enable register 0, peaks count
register 4, registers 0 and 6 zero), `sm500_set_register_bits32(SM500_REG_INTE, 6)`
leaves the interrupt-enable register at 0 and writes `0x100` to register 6;
`sm500_clear_register_bits32(SM500_REG_NPKBUF, 4)` leaves the count register at
4 and writes `0x33` to register 0; and with the serial number register at
`0xFFFFFFFF`, clearing bit 0 of it addresses a negative register index. -/
theorem C30_bit_helpers_swap_register_and_value :
    (sm500_set_register_bits32 (fresh_dev 4) SM500_REG_INTE 6).map
        (fun st => (st.BAR0 SM500_REG_INTE, st.BAR0 6)) = some (0, 0x100) ∧
    ((fresh_dev 4).BAR0 SM500_REG_INTE, (fresh_dev 4).BAR0 6) = (0, 0) ∧
    (sm500_clear_register_bits32 (fresh_dev 4) SM500_REG_NPKBUF 4).map
        (fun st => (st.BAR0 SM500_REG_NPKBUF, st.BAR0 0)) = some (4, 0x33) ∧
    ((fresh_dev 4).BAR0 SM500_REG_NPKBUF, (fresh_dev 4).BAR0 0) = (4, 0) ∧
    (sm500_clear_register_bits32 (fresh_dev 4) SM500_REG_DMASNLO 1).isNone = true := by
  refine ⟨by decide, by decide, by decide, by decide, by decide⟩


/-! ## Termination of the drain loop -/

/-- The loop ends with the write pointer on the target whenever advancing the
write pointer is counting modulo some `M` that exceeds both cursors, once it
is allowed as many iterations as slots lie between the two. -/
theorem peaks_drain_exits (int_flag tv_sec tv_nsec M : Nat) :
    ∀ (fuel : Nat) (st : dev_sm500),
      (∀ r, r < M → u16 ((r + 1) &&& u32_pred st.NumDmaPeaksBuffers) = (r + 1) % M) →
      st.peaks_buf_wr_ptr < M →
      st.target_pk_buf_index < M →
      (st.peaks_buf_wr_ptr ≤ st.target_pk_buf_index →
        st.target_pk_buf_index - st.peaks_buf_wr_ptr ≤ fuel) →
      (st.target_pk_buf_index < st.peaks_buf_wr_ptr →
        st.target_pk_buf_index + M - st.peaks_buf_wr_ptr ≤ fuel) →
      ∃ st', peaks_drain int_flag tv_sec tv_nsec fuel st = some st' ∧
        st'.peaks_buf_wr_ptr = st.target_pk_buf_index := by
  intro fuel
  induction fuel with
  | zero =>
    intro st _ hw ht h1 h2
    have heq : st.peaks_buf_wr_ptr = st.target_pk_buf_index := by omega
    refine ⟨st, ?_, heq⟩
    unfold peaks_drain
    simp [heq]
  | succ n ih =>
    intro st hadv hw ht h1 h2
    by_cases heq : st.peaks_buf_wr_ptr = st.target_pk_buf_index
    · refine ⟨st, ?_, heq⟩
      unfold peaks_drain
      simp [heq]
    · have hwr := peaks_drain_body_wr int_flag tv_sec tv_nsec st
      rw [hadv _ hw, succ_mod _ _ hw] at hwr
      have htg := peaks_drain_body_target int_flag tv_sec tv_nsec st
      have hct := peaks_drain_body_count int_flag tv_sec tv_nsec st
      obtain ⟨st', hrun, hfin⟩ := ih (peaks_drain_body int_flag tv_sec tv_nsec st)
        (by rw [hct]; exact hadv) (by rw [hwr]; split <;> omega) (by rw [htg]; exact ht)
        (by rw [hwr, htg]; split <;> omega) (by rw [hwr, htg]; split <;> omega)
      refine ⟨st', ?_, by rw [hfin, htg]⟩
      unfold peaks_drain
      simp [heq, hrun]

/-- Advancing the 16-bit write pointer on a stream of `2 ^ e` buffers, for every
power of two a `uint32_t` holds, is counting modulo `2 ^ e` or, from 65536
buffers on, modulo 65536. -/
theorem cursor_advance_wide (e r : Nat) (he : e ≤ 31) (hr : r < 2 ^ min e 16) :
    u16 ((r + 1) &&& u32_pred (2 ^ e)) = (r + 1) % 2 ^ min e 16 := by
  by_cases h16 : e ≤ 16
  · rw [Nat.min_eq_left h16]
    exact cursor_advance e r h16
  · have hm : min e 16 = 16 := Nat.min_eq_right (by omega)
    rw [hm] at hr ⊢
    rw [u32_pred_two_pow e he, Nat.and_pow_two_sub_one_eq_mod]
    have h17 : 2 ^ 17 ≤ 2 ^ e := two_pow_le_of_le 17 e (by omega)
    rw [Nat.mod_eq_of_lt (by omega)]
    rfl

/-- The target index is below the modulus of the write pointer. -/
theorem target_below (e sn : Nat) (he : e ≤ 31) :
    u8 (u32 (sn + 1) &&& u32_pred (2 ^ e)) < 2 ^ min e 16 := by
  by_cases h8 : e ≤ 8
  · rw [target_index e sn h8, Nat.min_eq_left (by omega)]
    exact Nat.mod_lt _ (Nat.two_pow_pos _)
  · have h1 : u8 (u32 (sn + 1) &&& u32_pred (2 ^ e)) < 2 ^ 8 := Nat.mod_lt _ (by decide)
    have h2 : 2 ^ 9 ≤ 2 ^ min e 16 := two_pow_le_of_le 9 _ (by omega)
    omega

/-- The peaks branch on a stream whose count is a power of two returns, with the
write pointer on the target, once it is allowed one iteration less than there
are buffers. -/
theorem peaks_branch_exits (fuel int_flag tv_sec tv_nsec e : Nat) (st : dev_sm500)
    (he : e ≤ 31) (hN : st.NumDmaPeaksBuffers = 2 ^ e) (hw : st.peaks_buf_wr_ptr < 2 ^ e)
    (hw16 : st.peaks_buf_wr_ptr < 2 ^ 16) (hfuel : 2 ^ e ≤ fuel + 1) :
    ∃ st', peaks_branch fuel int_flag tv_sec tv_nsec st = some st' ∧
      st'.peaks_buf_wr_ptr = st'.target_pk_buf_index := by
  have hmin : 2 ^ min e 16 ≤ 2 ^ e := two_pow_le_of_le _ _ (Nat.min_le_left _ _)
  have hwM : st.peaks_buf_wr_ptr < 2 ^ min e 16 := by
    by_cases h16 : e ≤ 16
    · rw [Nat.min_eq_left h16]; exact hw
    · rw [Nat.min_eq_right (by omega)]; exact hw16
  have ht := target_below e (sm500_ioread32 st SM500_REG_DMASNLO) he
  unfold peaks_branch
  obtain ⟨st', hrun, hfin⟩ := peaks_drain_exits int_flag tv_sec tv_nsec (2 ^ min e 16) fuel
    { st with
      target_pk_buf_index :=
        u8 (u32 (sm500_ioread32 st SM500_REG_DMASNLO + 1) &&& u32_pred st.NumDmaPeaksBuffers) }
    (by intro r hr; simp only; rw [hN]; exact cursor_advance_wide e r he hr)
    hwM (by simp only; rw [hN]; exact ht)
    (by simp only; rw [hN]; omega) (by simp only; rw [hN]; omega)
  refine ⟨st', hrun, ?_⟩
  rw [hfin]
  exact (peaks_drain_keeps (fun s => s.target_pk_buf_index) int_flag tv_sec tv_nsec
    (fun s => peaks_drain_body_target _ _ _ s) fuel _ st' hrun).symm

/-- C26 (the drain loop terminates): on a stream whose count `N = 2 ^ e` is any
power of two a `uint32_t` holds, with the write pointer below `N` (and within
the range of its type `uint16_t`), for every value of the serial number
register, of the flag and of the time, the loop of the peaks branch exits
within `N - 1` iterations with the write pointer on the target, and the
interrupt handler as a whole returns within that bound. -/
theorem C26_drain_loop_terminates (e int_flag tv_sec tv_nsec : Nat) (st : dev_sm500)
    (he : e ≤ 31) (hN : st.NumDmaPeaksBuffers = 2 ^ e) (hw : st.peaks_buf_wr_ptr < 2 ^ e)
    (hw16 : st.peaks_buf_wr_ptr < 2 ^ 16) :
    (∃ st', peaks_branch (2 ^ e - 1) int_flag tv_sec tv_nsec st = some st' ∧
      st'.peaks_buf_wr_ptr = st'.target_pk_buf_index) ∧
    ∃ st', sm500_ISR (2 ^ e - 1) tv_sec tv_nsec st = some st' := by
  have hpos : 0 < 2 ^ e := Nat.two_pow_pos _
  refine ⟨peaks_branch_exits _ int_flag tv_sec tv_nsec e st he hN hw hw16 (by omega), ?_⟩
  unfold sm500_ISR
  simp only
  split
  · exact ⟨_, rfl⟩
  · split
    · split
      · obtain ⟨st', h, _⟩ := peaks_branch_exits (2 ^ e - 1) (sm500_ioread32 st SM500_REG_INTF)
          tv_sec tv_nsec e (fs_branch (sm500_iowrite32 st SM500_REG_INTF SM500_INT_CLEAR))
          he hN hw hw16 (by omega)
        exact ⟨st', h⟩
      · obtain ⟨st', h, _⟩ := peaks_branch_exits (2 ^ e - 1) (sm500_ioread32 st SM500_REG_INTF)
          tv_sec tv_nsec e (sm500_iowrite32 st SM500_REG_INTF SM500_INT_CLEAR)
          he hN hw hw16 (by omega)
        exact ⟨st', h⟩
    · exact ⟨_, rfl⟩

/-- Instance of C26: the count-4 device with the peaks flag raised (serial
number register at `0xFFFFFFFF`, write pointer 0). -/
theorem C26_drain_loop_terminates_witness :
    (∃ st', peaks_branch (2 ^ 2 - 1) 2 7 9 (raise_flag SM500_INT_PK (fresh_dev 4)) = some st' ∧
      st'.peaks_buf_wr_ptr = st'.target_pk_buf_index) ∧
    ∃ st', sm500_ISR (2 ^ 2 - 1) 7 9 (raise_flag SM500_INT_PK (fresh_dev 4)) = some st' :=
  C26_drain_loop_terminates 2 2 7 9 (raise_flag SM500_INT_PK (fresh_dev 4)) (by decide) rfl
    (by decide) (by decide)

/-- With 3 buffers, the write pointer at 0 and the target at 2, the loop body
leaves the write pointer at 0: `(0 + 1) & (3 - 1) = 0`. -/
theorem count3_body (int_flag tv_sec tv_nsec : Nat) (st : dev_sm500)
    (hN : st.NumDmaPeaksBuffers = 3) (hw : st.peaks_buf_wr_ptr = 0)
    (ht : st.target_pk_buf_index = 2) :
    (peaks_drain_body int_flag tv_sec tv_nsec st).NumDmaPeaksBuffers = 3 ∧
    (peaks_drain_body int_flag tv_sec tv_nsec st).peaks_buf_wr_ptr = 0 ∧
    (peaks_drain_body int_flag tv_sec tv_nsec st).target_pk_buf_index = 2 := by
  refine ⟨by rw [peaks_drain_body_count, hN], ?_, by rw [peaks_drain_body_target, ht]⟩
  rw [peaks_drain_body_wr, hN, hw]
  decide

theorem count3_never_exits (int_flag tv_sec tv_nsec : Nat) :
    ∀ (fuel : Nat) (st : dev_sm500),
      st.NumDmaPeaksBuffers = 3 → st.peaks_buf_wr_ptr = 0 → st.target_pk_buf_index = 2 →
      peaks_drain int_flag tv_sec tv_nsec fuel st = none := by
  intro fuel
  induction fuel with
  | zero =>
    intro st _ hw ht
    unfold peaks_drain
    simp [hw, ht]
  | succ n ih =>
    intro st hN hw ht
    obtain ⟨h1, h2, h3⟩ := count3_body int_flag tv_sec tv_nsec st hN hw ht
    unfold peaks_drain
    simp [hw, ht, ih _ h1 h2 h3]

theorem count3_iterate (int_flag tv_sec tv_nsec : Nat) :
    ∀ (k : Nat) (st : dev_sm500),
      st.NumDmaPeaksBuffers = 3 → st.peaks_buf_wr_ptr = 0 → st.target_pk_buf_index = 2 →
      (Nat.iterate (peaks_drain_body int_flag tv_sec tv_nsec) k st).peaks_buf_wr_ptr = 0 ∧
      (Nat.iterate (peaks_drain_body int_flag tv_sec tv_nsec) k st).target_pk_buf_index = 2 := by
  intro k
  induction k with
  | zero =>
    intro st _ hw ht
    exact ⟨hw, ht⟩
  | succ n ih =>
    intro st hN hw ht
    obtain ⟨h1, h2, h3⟩ := count3_body int_flag tv_sec tv_nsec st hN hw ht
    rw [Function.iterate_succ_apply]
    exact ih _ h1 h2 h3

/-- C27 (the power-of-two requirement is necessary): with 3 buffers, the write
pointer at 0 and serial number 1 in the serial number register, the target of
a peaks interrupt is 2; after any number of iterations of the loop body the
write pointer is still 0 and differs from the target; so whatever number of
iterations the loop is allowed, the peaks branch and the interrupt handler
have not returned. -/
theorem C27_count_3_never_exits (fuel tv_sec tv_nsec : Nat) :
    count3_dev.NumDmaPeaksBuffers = 3 ∧ count3_dev.peaks_buf_wr_ptr = 0 ∧
    sm500_ioread32 count3_dev SM500_REG_DMASNLO = 1 ∧
    (∀ k, (Nat.iterate (peaks_drain_body (sm500_ioread32 count3_dev SM500_REG_INTF)
        tv_sec tv_nsec) k
          { count3_dev with
            target_pk_buf_index :=
              u8 (u32 (sm500_ioread32 count3_dev SM500_REG_DMASNLO + 1) &&&
                u32_pred count3_dev.NumDmaPeaksBuffers) }).peaks_buf_wr_ptr ≠ 2) ∧
    u8 (u32 (sm500_ioread32 count3_dev SM500_REG_DMASNLO + 1) &&&
      u32_pred count3_dev.NumDmaPeaksBuffers) = 2 ∧
    peaks_branch fuel (sm500_ioread32 count3_dev SM500_REG_INTF) tv_sec tv_nsec count3_dev =
      none ∧
    sm500_ISR fuel tv_sec tv_nsec count3_dev = none := by
  refine ⟨rfl, rfl, by decide, ?_, by decide, ?_, ?_⟩
  · intro k
    rw [(count3_iterate _ tv_sec tv_nsec k _ rfl rfl (by decide)).1]
    decide
  · unfold peaks_branch
    exact count3_never_exits _ tv_sec tv_nsec fuel _ rfl rfl (by decide)
  · unfold sm500_ISR
    simp only
    rw [if_neg (by decide), if_pos (by decide), if_neg (by decide)]
    unfold peaks_branch
    exact count3_never_exits _ tv_sec tv_nsec fuel _ rfl rfl (by decide)


/-! ## The full-spectrum timestamp -/

theorem fs_branch_buffer (st : dev_sm500) :
    (fs_branch st).dma_fs_buffer =
      Function.update st.dma_fs_buffer st.fs_buf_wr_ptr
        (stamp (st.dma_fs_buffer st.fs_buf_wr_ptr) st.DmaBufferSnOffset32
          st.fs_timestamp_sec st.fs_timestamp_nsec) := by
  unfold fs_branch
  simp [store32, stamp, Function.update_idem]

theorem peaks_drain_body_fs_buffer (int_flag tv_sec tv_nsec : Nat) (st : dev_sm500) :
    (peaks_drain_body int_flag tv_sec tv_nsec st).dma_fs_buffer = st.dma_fs_buffer := by
  unfold peaks_drain_body
  by_cases h : int_flag &&& SM500_INT_FS_SET ≠ 0 <;> simp [h]

/-- Counterexample to C21 as stated, on the count-4 device. A peaks interrupt
with the `SM500_INT_FS_SET` bit, serviced at time (5 s, 6 ns) after one
transfer, stores (5, 6) as the pending full-spectrum timestamp. The interrupt
with the full-spectrum-complete bit that follows, serviced at time
(7 s, 9 ns), writes 5 and 6 into the two trailer words of the full-spectrum
buffer, not 7 and 9. -/
theorem C21_fs_stamp_is_not_current_time :
    ∃ st1 st2,
      sm500_ISR 3 5 6
        { raise_flag (SM500_INT_PK + SM500_INT_FS_SET) (fresh_dev 4) with
          BAR0 := Function.update
            (raise_flag (SM500_INT_PK + SM500_INT_FS_SET) (fresh_dev 4)).BAR0
            SM500_REG_DMASNLO 0 } = some st1 ∧
      sm500_ISR 0 7 9 (raise_flag SM500_INT_FS st1) = some st2 ∧
      st2.fs_data_ready = 1 ∧
      st2.dma_fs_buffer st1.fs_buf_wr_ptr st1.DmaBufferSnOffset32 = 5 ∧
      st2.dma_fs_buffer st1.fs_buf_wr_ptr (st1.DmaBufferSnOffset32 + 1) = 6 :=
  ⟨_, _, rfl, rfl, rfl, rfl, rfl⟩

/-- C21 (amended): for every interrupt with the full-spectrum-complete bit set
(the drain loop being allowed to finish when the peaks-complete bit is set as
well: count a power of two, write pointer in range, `N - 1` iterations), the
handler returns, the readiness flag of the full-spectrum stream is 1
afterwards, and the two trailer words of the full-spectrum buffer under
`fs_buf_wr_ptr` hold the pending timestamp `fs_timestamp_sec`,
`fs_timestamp_nsec` that the device context held when the interrupt arrived,
whatever the time of this interrupt is; every other word of the
full-spectrum buffers is unchanged. -/
theorem C21_fs_stamp_is_pending_timestamp (fuel tv_sec tv_nsec : Nat) (st : dev_sm500)
    (hfs : sm500_ioread32 st SM500_REG_INTF &&& SM500_INT_FS ≠ 0)
    (hterm : sm500_ioread32 st SM500_REG_INTF &&& SM500_INT_PK ≠ 0 →
      ∃ e, e ≤ 31 ∧ st.NumDmaPeaksBuffers = 2 ^ e ∧ st.peaks_buf_wr_ptr < 2 ^ e ∧
        st.peaks_buf_wr_ptr < 2 ^ 16 ∧ 2 ^ e ≤ fuel + 1) :
    ∃ st', sm500_ISR fuel tv_sec tv_nsec st = some st' ∧
      st'.fs_data_ready = 1 ∧
      ∀ j k, st'.dma_fs_buffer j k =
        if j = st.fs_buf_wr_ptr then
          (if k = st.DmaBufferSnOffset32 + 1 then u32 st.fs_timestamp_nsec
           else if k = st.DmaBufferSnOffset32 then u32 st.fs_timestamp_sec
           else st.dma_fs_buffer j k)
        else st.dma_fs_buffer j k := by
  have h0 : sm500_ioread32 st SM500_REG_INTF ≠ 0 := land_ne_zero_ne_zero _ _ hfs
  have hbuf : ∀ st' : dev_sm500,
      st'.dma_fs_buffer =
        (fs_branch (sm500_iowrite32 st SM500_REG_INTF SM500_INT_CLEAR)).dma_fs_buffer →
      ∀ j k, st'.dma_fs_buffer j k =
        if j = st.fs_buf_wr_ptr then
          (if k = st.DmaBufferSnOffset32 + 1 then u32 st.fs_timestamp_nsec
           else if k = st.DmaBufferSnOffset32 then u32 st.fs_timestamp_sec
           else st.dma_fs_buffer j k)
        else st.dma_fs_buffer j k := by
    intro st' h j k
    rw [h, fs_branch_buffer]
    simp only [sm500_iowrite32]
    by_cases hj : j = st.fs_buf_wr_ptr
    · subst hj
      rw [Function.update_same, if_pos rfl, stamp_apply]
    · rw [Function.update_noteq hj, if_neg hj]
  have hex : ∃ st', sm500_ISR fuel tv_sec tv_nsec st = some st' := by
    unfold sm500_ISR
    simp only
    rw [if_neg h0, if_pos hfs]
    split
    · next hpk =>
      obtain ⟨e, he, hN, hw, hw16, hfuel⟩ := hterm hpk
      obtain ⟨st', h, _⟩ := peaks_branch_exits fuel (sm500_ioread32 st SM500_REG_INTF)
        tv_sec tv_nsec e (fs_branch (sm500_iowrite32 st SM500_REG_INTF SM500_INT_CLEAR))
        he hN hw hw16 hfuel
      exact ⟨st', h⟩
    · exact ⟨_, rfl⟩
  obtain ⟨st', hrun⟩ := hex
  refine ⟨st', hrun, sm500_ISR_sets_fs_ready fuel tv_sec tv_nsec st st' hfs hrun, ?_⟩
  apply hbuf
  unfold sm500_ISR at hrun
  simp only at hrun
  rw [if_neg h0, if_pos hfs] at hrun
  split at hrun
  · exact peaks_branch_keeps (fun s => s.dma_fs_buffer) fuel _ tv_sec tv_nsec
      (fun s => peaks_drain_body_fs_buffer _ _ _ s) (fun _ _ => rfl) _ st' hrun
  · simp only [Option.some.injEq] at hrun
    rw [← hrun]

/-- Instance of C21 (amended): the interrupt of the counterexample. -/
theorem C21_fs_stamp_is_pending_timestamp_witness :
    ∃ st', sm500_ISR 0 7 9 (raise_flag SM500_INT_FS (fresh_dev 4)) = some st' ∧
      st'.fs_data_ready = 1 ∧
      ∀ j k, st'.dma_fs_buffer j k =
        if j = 0 then
          (if k = 0 + 1 then u32 0 else if k = 0 then u32 0 else 0)
        else 0 :=
  C21_fs_stamp_is_pending_timestamp 0 7 9 (raise_flag SM500_INT_FS (fresh_dev 4)) (by decide)
    (fun h => absurd h (by decide))


/-! ## A full ring -/

/-- C23 (amended; equal cursors mean empty, never full): on a peaks stream whose
count `N = 2 ^ e` is a power of two up to 256, from a state with
`read_ptr = write_ptr` in which the write pointer is in step with the
instrument (`(serial number + 1) mod N = write_ptr`), when the instrument
completes exactly `N` transfers (over any sequence of peaks interrupts) with
no retrieval in between, every handler returns, the serial number has advanced
by `N` and the slot it names holds that data set, yet the write pointer is
where it was and equals the read pointer, so `GET_PEAKS_DATA` goes to sleep as
on an empty ring. -/
theorem C23_full_ring_looks_empty (e fuel : Nat) (es : List irq_event) (b : sm500_bench)
    (he : e ≤ 8) (hN : b.dev.NumDmaPeaksBuffers = 2 ^ e)
    (hrd : b.dev.peaks_buf_rd_ptr = b.dev.peaks_buf_wr_ptr)
    (hw : b.dev.peaks_buf_wr_ptr < 2 ^ e)
    (hsync : (b.dev.BAR0 SM500_REG_DMASNLO + 1) % 2 ^ e = b.dev.peaks_buf_wr_ptr)
    (hpk : ∀ ev ∈ es, u32 ev.int_flag &&& SM500_INT_PK ≠ 0)
    (hk : total_completions es = 2 ^ e) (hfuel : 2 ^ e ≤ fuel + 1) :
    ∃ b', interrupts fuel es b = some b' ∧
      b'.dev.BAR0 SM500_REG_DMASNLO = u32 (b.dev.BAR0 SM500_REG_DMASNLO + 2 ^ e) ∧
      b'.peaks_dataset (b'.dev.BAR0 SM500_REG_DMASNLO &&& u32_pred (2 ^ e)) =
        b'.dev.BAR0 SM500_REG_DMASNLO ∧
      b'.dev.peaks_buf_wr_ptr = b.dev.peaks_buf_wr_ptr ∧
      b'.dev.peaks_buf_rd_ptr = b'.dev.peaks_buf_wr_ptr ∧
      sm500_ioctl false .GET_PEAKS_DATA b'.dev = .sleeping := by
  obtain ⟨b', r, n', rd', _, sn', _, wq, ds⟩ :=
    interrupts_peaks fuel e he hfuel es b hN hw hpk
  have hpos : 0 < 2 ^ e := Nat.two_pow_pos _
  have hne : es ≠ [] := total_completions_pos_ne_nil es (by omega)
  obtain ⟨dlt, dset⟩ := ds (Or.inl (by omega))
  rw [hk] at sn'
  rw [Nat.mod_eq_of_lt dlt] at sn'
  have hwr : b'.dev.peaks_buf_wr_ptr = b.dev.peaks_buf_wr_ptr := by
    rw [wq hne, hk, ← hsync]
    rw [show b.dev.BAR0 SM500_REG_DMASNLO + 2 ^ e + 1 =
      b.dev.BAR0 SM500_REG_DMASNLO + 1 + 2 ^ e by omega, Nat.add_mod_right]
  have heq : b'.dev.peaks_buf_rd_ptr = b'.dev.peaks_buf_wr_ptr := by rw [rd', hrd, hwr]
  rw [n'] at dset
  exact ⟨b', r, sn', dset, hwr, heq, get_peaks_data_sleeps b'.dev heq⟩

/-- Instance of C23 (amended): count 4, four completions at times 1, 2, 3, 4, each with
its own interrupt. -/
theorem C23_full_ring_looks_empty_witness :
    ∃ b', interrupts 3 ([1, 2, 3, 4].map single_peak) (fresh_bench 4) = some b' ∧
      b'.dev.BAR0 SM500_REG_DMASNLO = u32 ((fresh_bench 4).dev.BAR0 SM500_REG_DMASNLO + 2 ^ 2) ∧
      b'.peaks_dataset (b'.dev.BAR0 SM500_REG_DMASNLO &&& u32_pred (2 ^ 2)) =
        b'.dev.BAR0 SM500_REG_DMASNLO ∧
      b'.dev.peaks_buf_wr_ptr = (fresh_bench 4).dev.peaks_buf_wr_ptr ∧
      b'.dev.peaks_buf_rd_ptr = b'.dev.peaks_buf_wr_ptr ∧
      sm500_ioctl false .GET_PEAKS_DATA b'.dev = .sleeping :=
  C23_full_ring_looks_empty 2 3 ([1, 2, 3, 4].map single_peak) (fresh_bench 4) (by decide) rfl
    rfl (by decide) rfl (fun ev h => (single_peaks_flag [1, 2, 3, 4] ev h).2) rfl (by decide)


/-! ## The cancel sentinel -/

/-- The tracked run passes through the states of the plain run. -/
theorem run_tracking_fst :
    ∀ (evs : List event) (s r : dev_sm500 × Bool),
      run_tracking evs s = some r → run evs s.1 = some r.1 := by
  intro evs
  induction evs with
  | nil =>
    intro s r h
    simp only [run_tracking, Option.some.injEq] at h
    rw [← h]; rfl
  | cons ev evs ih =>
    intro s r h
    simp only [run_tracking] at h
    simp only [run]
    cases hs : step ev s.1 with
    | none => rw [hs] at h; simp at h
    | some s1 =>
      rw [hs] at h
      simp only [Option.some_bind] at h ⊢
      exact ih _ r h

/-- The plain run determines a tracked run. -/
theorem run_tracking_of_run :
    ∀ (evs : List event) (s : dev_sm500 × Bool) (st' : dev_sm500),
      run evs s.1 = some st' → ∃ c, run_tracking evs s = some (st', c) := by
  intro evs
  induction evs with
  | nil =>
    intro s st' h
    simp only [run, Option.some.injEq] at h
    exact ⟨s.2, by simp only [run_tracking]; rw [← h]⟩
  | cons ev evs ih =>
    intro s st' h
    simp only [run] at h
    simp only [run_tracking]
    cases hs : step ev s.1 with
    | none => rw [hs] at h; simp at h
    | some s1 =>
      rw [hs] at h
      simp only [Option.some_bind] at h ⊢
      exact ih (s1, cancel_pending ev s.1 s.2) st' h

/-- One event keeps the read pointer on the out-of-range value exactly while a
cancel is pending. -/
theorem step_cancel_pending (e : Nat) (he : e ≤ 15) (ev : event) (st st' : dev_sm500) (c : Bool)
    (hst : cursors_in_range e st) (hc : st.peaks_buf_rd_ptr = 2 ^ e ↔ c = true)
    (h : step ev st = some st') :
    st'.peaks_buf_rd_ptr = 2 ^ e ↔ cancel_pending ev st c = true := by
  have hpos : 0 < 2 ^ e := Nat.two_pow_pos _
  have h15 : 2 ^ e ≤ 2 ^ 15 := two_pow_le_of_le e 15 he
  obtain ⟨hN, hw, hr⟩ := hst
  cases ev with
  | fpga regs pk fs =>
    simp only [step, Option.some.injEq] at h
    rw [← h]; exact hc
  | irq fuel tv_sec tv_nsec =>
    rw [sm500_ISR_rd fuel tv_sec tv_nsec st st' h]
    exact hc
  | sys_open =>
    simp only [step, sm500_open, Option.some.injEq] at h
    rw [← h]
    simp only [cancel_pending, sm500_open]
    by_cases ho : st.open_count = SM500_MAX_NUM_CLIENTS
    · simp only [ho, if_true]
      rw [if_neg (by decide)]
      exact hc
    · simp only [ho, if_false, if_true]
      constructor
      · intro hx; omega
      · intro hx; exact absurd hx (by decide)
  | sys_close =>
    simp only [step, sm500_close, Option.some.injEq] at h
    rw [← h]; exact hc
  | sys_mmap remap_err =>
    simp only [step, sm500_mmap, Option.some.injEq] at h
    rw [← h]
    split <;> split <;> exact hc
  | sys_ioctl signal_pending cmd =>
    cases cmd with
    | GET_PEAKS_DATA =>
      simp only [step, sm500_ioctl] at h
      simp only [cancel_pending, sm500_ioctl]
      by_cases hs : st.peaks_buf_rd_ptr = st.peaks_buf_wr_ptr ∧
          wait_event_interruptible (st.peaks_buf_rd_ptr != st.peaks_buf_wr_ptr) signal_pending
            = false
      · rw [if_pos hs] at h ⊢
        simp only [Option.some.injEq] at h
        rw [← h]; exact hc
      · rw [if_neg hs] at h ⊢
        simp only [Option.some.injEq] at h
        rw [← h]
        simp only
        rw [hN, cursor_advance e _ (by omega)]
        have hlt : (st.peaks_buf_rd_ptr + 1) % 2 ^ e < 2 ^ e := Nat.mod_lt _ hpos
        constructor
        · intro hx; omega
        · intro hx; exact absurd hx (by decide)
    | GET_SPECTRUM =>
      simp only [step, sm500_ioctl] at h
      by_cases hs : st.fs_data_ready = 0 ∧
          wait_event_interruptible (st.fs_data_ready != 0) signal_pending = false
      · rw [if_pos hs] at h
        simp only [Option.some.injEq] at h
        rw [← h]; exact hc
      · rw [if_neg hs] at h
        simp only [Option.some.injEq] at h
        rw [← h]; exact hc
    | CANCEL_READ =>
      simp only [step, sm500_ioctl, Option.some.injEq] at h
      rw [← h]
      simp only [cancel_pending, iff_true]
      rw [hN]
      unfold u16
      exact Nat.mod_eq_of_lt (by omega)
    | DRV_VERSION =>
      simp only [step, sm500_ioctl, Option.some.injEq] at h
      rw [← h]; exact hc
    | READ_REG32 reg =>
      simp only [step, sm500_ioctl, Option.some.injEq] at h
      rw [← h]; exact hc
    | WRITE_REG32 reg value =>
      simp only [step, sm500_ioctl, Option.some.injEq] at h
      rw [← h]; exact hc
    | SET_MMAP_INDEX data32 =>
      simp only [step, sm500_ioctl, Option.some.injEq] at h
      rw [← h]; exact hc
    | PEAKS_DATA_READY =>
      simp only [step, sm500_ioctl, Option.some.injEq] at h
      rw [← h]; exact hc
    | FS_DATA_READY =>
      simp only [step, sm500_ioctl, Option.some.injEq] at h
      rw [← h]; exact hc
    | other k =>
      simp only [step, sm500_ioctl, Option.some.injEq] at h
      rw [← h]; exact hc

/-- Every sequence of events keeps the cursors in range and the read pointer on
the out-of-range value exactly while a cancel is pending. -/
theorem run_tracking_inv (e : Nat) (he : e ≤ 15) :
    ∀ (evs : List event) (s r : dev_sm500 × Bool),
      cursors_in_range e s.1 → (s.1.peaks_buf_rd_ptr = 2 ^ e ↔ s.2 = true) →
      run_tracking evs s = some r →
      cursors_in_range e r.1 ∧ (r.1.peaks_buf_rd_ptr = 2 ^ e ↔ r.2 = true) := by
  intro evs
  induction evs with
  | nil =>
    intro s r hst hc h
    simp only [run_tracking, Option.some.injEq] at h
    rw [← h]; exact ⟨hst, hc⟩
  | cons ev evs ih =>
    intro s r hst hc h
    simp only [run_tracking] at h
    cases hs : step ev s.1 with
    | none => rw [hs] at h; simp at h
    | some s1 =>
      rw [hs] at h
      simp only [Option.some_bind] at h
      exact ih (s1, cancel_pending ev s.1 s.2) r
        (step_cursors_in_range e he ev s.1 s1 hst hs)
        (step_cancel_pending e he ev s.1 s1 s.2 hst hc hs) h

/-- C22 (cursor range invariant): on a stream of `N = 2 ^ e` buffers with
`1 ≤ N ≤ 32768`, in every state reached from driver initialisation by any
sequence of events (interrupts, `open`, `close`, every `ioctl` command, `mmap`
and changes made by the instrument), the write pointer is below `N` and the
read pointer is at most `N`; and the read pointer equals `N` exactly when a
cancel is pending, that is when a `CANCEL_READ` has been issued and no
`GET_PEAKS_DATA` has returned and no `open` has succeeded since. -/
theorem C22_cursor_range_invariant (e : Nat) (regs : Nat → Nat) (pk fs : Nat → Nat → Nat)
    (evs : List event) (st : dev_sm500) (he : e ≤ 15)
    (hN : u32 (regs SM500_REG_NPKBUF) = 2 ^ e)
    (hrun : run evs (sm500_init regs pk fs) = some st) :
    st.NumDmaPeaksBuffers = 2 ^ e ∧ st.peaks_buf_wr_ptr < 2 ^ e ∧ st.peaks_buf_rd_ptr ≤ 2 ^ e ∧
    ∃ pending, run_tracking evs (sm500_init regs pk fs, false) = some (st, pending) ∧
      (st.peaks_buf_rd_ptr = 2 ^ e ↔ pending = true) := by
  obtain ⟨c, hc⟩ := run_tracking_of_run evs (sm500_init regs pk fs, false) st hrun
  have hpos : 0 < 2 ^ e := Nat.two_pow_pos _
  obtain ⟨⟨h1, h2, h3⟩, h4⟩ := run_tracking_inv e he evs (sm500_init regs pk fs, false) (st, c)
    (sm500_init_cursors_in_range e regs pk fs hN)
    ⟨fun hx => by
        have h0 : (sm500_init regs pk fs).peaks_buf_rd_ptr = 0 := rfl
        simp only at hx
        rw [h0] at hx
        omega,
      fun hx => Bool.noConfusion hx⟩ hc
  exact ⟨h1, h2, h3, c, hc, h4⟩

/-- Instance of C22: the count-4 device after an interrupt that found no flag,
an `open` and a `CANCEL_READ`; the read pointer is 4 and a cancel is
pending. -/
theorem C22_cursor_range_invariant_witness :
    ∃ st, run [.irq 3 1 0, .sys_open, .sys_ioctl false .CANCEL_READ]
        (sm500_init (fresh_regs 4) (fun _ _ => 0) (fun _ _ => 0)) = some st ∧
      st.NumDmaPeaksBuffers = 2 ^ 2 ∧ st.peaks_buf_wr_ptr < 2 ^ 2 ∧
      st.peaks_buf_rd_ptr ≤ 2 ^ 2 ∧
      ∃ pending, run_tracking [.irq 3 1 0, .sys_open, .sys_ioctl false .CANCEL_READ]
          (sm500_init (fresh_regs 4) (fun _ _ => 0) (fun _ _ => 0), false) =
            some (st, pending) ∧
        (st.peaks_buf_rd_ptr = 2 ^ 2 ↔ pending = true) :=
  ⟨_, rfl,
    C22_cursor_range_invariant 2 (fresh_regs 4) (fun _ _ => 0) (fun _ _ => 0)
      [.irq 3 1 0, .sys_open, .sys_ioctl false .CANCEL_READ] _ (by decide) rfl rfl⟩


/-! ## Registering the peaks buffers -/

/-- The registration loop from buffer `i` on with `n` buffers to go, every
allocation succeeding: it runs to its end, writes the bus address of buffer
`i + k` to register `SM500_REG_DMATAR0 + (i + k)` for `k = 0, 1, ...` in this
order, leaves each of these registers holding that address, and changes no
register outside them. -/
theorem sm500_probe_peaks_spec (alloc : Nat → Option Nat) :
    ∀ (n i : Nat) (st : dev_sm500),
      (∀ k, k < n → (alloc (i + k)).isSome = true) →
      (sm500_probe_peaks alloc i n st).2.1 = true ∧
      (sm500_probe_peaks alloc i n st).1 =
        (List.range n).map
          (fun k => (SM500_REG_DMATAR0 + (i + k), u32 ((alloc (i + k)).getD 0))) ∧
      (∀ reg, reg < SM500_REG_DMATAR0 + i ∨ SM500_REG_DMATAR0 + i + n ≤ reg →
        (sm500_probe_peaks alloc i n st).2.2.BAR0 reg = st.BAR0 reg) ∧
      (∀ k, k < n →
        (sm500_probe_peaks alloc i n st).2.2.BAR0 (SM500_REG_DMATAR0 + (i + k)) =
          u32 ((alloc (i + k)).getD 0)) := by
  intro n
  induction n with
  | zero =>
    intro i st _
    refine ⟨rfl, rfl, fun _ _ => rfl, ?_⟩
    intro k hk
    omega
  | succ n ih =>
    intro i st hall
    have h0 := hall 0 (by omega)
    rw [Nat.add_zero] at h0
    obtain ⟨a, ha⟩ := Option.isSome_iff_exists.mp h0
    obtain ⟨h1, h2, h3, h4⟩ := ih (i + 1)
      (sm500_iowrite32 st (SM500_REG_DMATAR0 + i) a)
      (fun k hk => by
        have := hall (k + 1) (by omega)
        rwa [show i + (k + 1) = i + 1 + k by omega] at this)
    have hrun : sm500_probe_peaks alloc i (n + 1) st =
        ((SM500_REG_DMATAR0 + i, u32 a) ::
          (sm500_probe_peaks alloc (i + 1) n
            (sm500_iowrite32 st (SM500_REG_DMATAR0 + i) a)).1,
         (sm500_probe_peaks alloc (i + 1) n
            (sm500_iowrite32 st (SM500_REG_DMATAR0 + i) a)).2.1,
         (sm500_probe_peaks alloc (i + 1) n
            (sm500_iowrite32 st (SM500_REG_DMATAR0 + i) a)).2.2) := by
      simp only [sm500_probe_peaks, ha]
    rw [hrun]
    refine ⟨h1, ?_, ?_, ?_⟩
    · simp only
      rw [h2, List.range_succ_eq_map]
      simp only [List.map_cons, List.map_map, Nat.add_zero, ha, Option.getD_some]
      congr 1
      apply List.map_congr_left
      intro k _
      simp only [Function.comp]
      rw [show i + 1 + k = i + (k + 1) by omega]
    · intro reg hreg
      simp only
      rw [h3 reg (by omega)]
      simp only [sm500_iowrite32]
      exact Function.update_noteq (by omega) _ _
    · intro k hk
      simp only
      cases k with
      | zero =>
        simp only [Nat.add_zero]
        rw [h3 _ (by omega), ha]
        simp only [sm500_iowrite32, Function.update_same, Option.getD_some]
      | succ k =>
        have := h4 k (by omega)
        rwa [show i + 1 + k = i + (k + 1) by omega] at this

/-- Counterexample to C24 as stated: on a device that reports 16 peaks buffers,
the registration loop writes the bus addresses of buffers 8, 9 and 10 to
registers `0x0A`, `0x0B` and `0x0C`, the DMA transfer pointer, the DMA count
register and the DMA control register. -/
theorem C24_buffer_10_lands_in_dma_control :
    (fresh_dev 16).NumDmaPeaksBuffers = 16 ∧
    (sm500_probe_peaks page_alloc 0 (fresh_dev 16).NumDmaPeaksBuffers (fresh_dev 16)).2.1 = true ∧
    ((sm500_probe_peaks page_alloc 0 (fresh_dev 16).NumDmaPeaksBuffers (fresh_dev 16)).1.drop 8).take 3 =
      [(SM500_REG_DMAXP, 0x9000), (SM500_REG_DMACNT, 0xA000), (SM500_REG_DMACR, 0xB000)] ∧
    (sm500_probe_peaks page_alloc 0 (fresh_dev 16).NumDmaPeaksBuffers
      (fresh_dev 16)).2.2.BAR0 SM500_REG_DMACR = 0xB000 ∧
    page_alloc 10 = some 0xB000 := by
  refine ⟨rfl, by decide, by decide, by decide, rfl⟩

/-- C24 (amended): for every count in `NumDmaPeaksBuffers` (the value read from
the geometry register) and every allocator that succeeds for each buffer, the
registration loop of `sm500_probe` runs to its end and writes the bus address
of peaks buffer `i` to register `SM500_REG_DMATAR0 + i`, for `i = 0, 1, ...` in
ascending order, after which that register holds the address. The register
written for buffer `i` is one of `SM500_REG_DMATAR0 .. SM500_REG_DMATAR7`
exactly when `i < 8`; so with a count of at most 8 every register outside
these eight, the DMA pointer, count and control registers included, is as
before. -/
theorem C24_registration_in_ascending_slots (alloc : Nat → Option Nat) (st : dev_sm500)
    (hall : ∀ i, i < st.NumDmaPeaksBuffers → (alloc i).isSome = true) :
    (sm500_probe_peaks alloc 0 st.NumDmaPeaksBuffers st).2.1 = true ∧
    (sm500_probe_peaks alloc 0 st.NumDmaPeaksBuffers st).1 =
      (List.range st.NumDmaPeaksBuffers).map
        (fun i => (SM500_REG_DMATAR0 + i, u32 ((alloc i).getD 0))) ∧
    (∀ i, i < st.NumDmaPeaksBuffers →
      (sm500_probe_peaks alloc 0 st.NumDmaPeaksBuffers st).2.2.BAR0 (SM500_REG_DMATAR0 + i) =
        u32 ((alloc i).getD 0)) ∧
    (∀ i, (SM500_REG_DMATAR0 ≤ SM500_REG_DMATAR0 + i ∧
        SM500_REG_DMATAR0 + i ≤ SM500_REG_DMATAR7) ↔ i < 8) ∧
    (st.NumDmaPeaksBuffers ≤ 8 →
      ∀ reg, reg < SM500_REG_DMATAR0 ∨ SM500_REG_DMATAR7 < reg →
        (sm500_probe_peaks alloc 0 st.NumDmaPeaksBuffers st).2.2.BAR0 reg = st.BAR0 reg) := by
  obtain ⟨h1, h2, h3, h4⟩ := sm500_probe_peaks_spec alloc st.NumDmaPeaksBuffers 0 st
    (fun k hk => by rw [Nat.zero_add]; exact hall k hk)
  simp only [Nat.zero_add, Nat.add_zero] at h2 h3 h4
  refine ⟨h1, h2, h4, ?_, ?_⟩
  · intro i
    simp only [SM500_REG_DMATAR0, SM500_REG_DMATAR7]
    omega
  · intro hle reg hreg
    apply h3
    simp only [SM500_REG_DMATAR0, SM500_REG_DMATAR7] at hreg ⊢
    omega

/-- Instance of C24 (amended): a device that reports 4 peaks buffers. -/
theorem C24_registration_in_ascending_slots_witness :
    (sm500_probe_peaks page_alloc 0 (fresh_dev 4).NumDmaPeaksBuffers (fresh_dev 4)).1 =
      [(SM500_REG_DMATAR0, 0x1000), (SM500_REG_DMATAR0 + 1, 0x2000),
       (SM500_REG_DMATAR0 + 2, 0x3000), (SM500_REG_DMATAR0 + 3, 0x4000)] ∧
    (sm500_probe_peaks page_alloc 0 (fresh_dev 4).NumDmaPeaksBuffers (fresh_dev 4)).1 =
      (List.range (fresh_dev 4).NumDmaPeaksBuffers).map
        (fun i => (SM500_REG_DMATAR0 + i, u32 ((page_alloc i).getD 0))) :=
  ⟨by decide,
    (C24_registration_in_ascending_slots page_alloc (fresh_dev 4) (fun _ _ => rfl)).2.1⟩

/-! ## Length of the driver version string -/

theorem toDigits_length_le (x k : Nat) (hk : 0 < k) (hx : x < 10 ^ k) :
    (Nat.toDigits 10 x).length ≤ k :=
  Nat.toDigitsCore_length 10 (by decide) (x + 1) x k hx hk

/-- Counterexample to C28 as stated: for the raw value `0xFFFFFFFF` the call
writes "65535.65535" and the terminator, 12 characters, into the
10-character buffer. -/
theorem C28_version_65535_65535_needs_12 :
    Csm500DriverInterface.GetDriverVersion 0xFFFFFFFF =
      ['6', '5', '5', '3', '5', '.', '6', '5', '5', '3', '5', Char.ofNat 0] ∧
    (Csm500DriverInterface.GetDriverVersion 0xFFFFFFFF).length = 12 := by
  refine ⟨by decide, by decide⟩

/-- C28 (amended): for every 32-bit raw value, `GetDriverVersion` writes as many
characters as the two halves have decimal digits, plus the dot and the
terminator; that is at most 12, and at most 10, the size of `DriverVersion`,
whenever the high half (the major number) is below 1000. -/
theorem C28_version_length (val : Nat) :
    (Csm500DriverInterface.GetDriverVersion val).length =
      (Nat.toDigits 10 (u32 val >>> 16)).length +
        (Nat.toDigits 10 (u32 val &&& 0xFFFF)).length + 2 ∧
    (Csm500DriverInterface.GetDriverVersion val).length ≤ 12 ∧
    (u32 val >>> 16 < 1000 → (Csm500DriverInterface.GetDriverVersion val).length ≤ 10) := by
  have hu : u32 val < 2 ^ 32 := Nat.mod_lt _ (by decide)
  have hhi : u32 val >>> 16 < 2 ^ 16 := by
    rw [Nat.shiftRight_eq_div_pow]
    omega
  have hlo : u32 val &&& 0xFFFF < 2 ^ 16 := by
    rw [land_index_mask]
    exact Nat.mod_lt _ (by decide)
  have hlen : (Csm500DriverInterface.GetDriverVersion val).length =
      (Nat.toDigits 10 (u32 val >>> 16)).length +
        (Nat.toDigits 10 (u32 val &&& 0xFFFF)).length + 2 := by
    unfold Csm500DriverInterface.GetDriverVersion
    rw [printf_d_small _ hhi, printf_d_small _ hlo]
    simp only [List.length_append, List.length_singleton]
    omega
  have h5 := toDigits_length_le (u32 val >>> 16) 5 (by decide) (by omega)
  have h5' := toDigits_length_le (u32 val &&& 0xFFFF) 5 (by decide) (by omega)
  refine ⟨hlen, by omega, ?_⟩
  intro h3
  have := toDigits_length_le (u32 val >>> 16) 3 (by decide) (by omega)
  omega

/-- Instance of C28 (amended): the version the driver reports,
`SM500_VERSION_I`, gives "0.51" and the terminator. -/
theorem C28_version_length_witness :
    u32 SM500_VERSION_I >>> 16 < 1000 ∧
    (Csm500DriverInterface.GetDriverVersion SM500_VERSION_I).length ≤ 10 ∧
    Csm500DriverInterface.GetDriverVersion SM500_VERSION_I =
      ['0', '.', '5', '1', Char.ofNat 0] :=
  ⟨by decide, (C28_version_length SM500_VERSION_I).2.2 (by decide), by decide⟩


/-! ## A write pointer out of step with the serial number -/

/-- Sequence of peaks interrupts on a count-4 device loaded with the serial
number register at `sn`: every handler returns, the read pointer stays 0 and
the write pointer ends one past the final serial number, modulo 4. -/
theorem serial_bench_run (sn : Nat) (es : List irq_event) (hne : es ≠ [])
    (hpk : ∀ ev ∈ es, u32 ev.int_flag &&& SM500_INT_PK ≠ 0) :
    ∃ b', interrupts 3 es (serial_bench 4 sn) = some b' ∧
      b'.dev.NumDmaPeaksBuffers = 4 ∧
      b'.dev.peaks_buf_rd_ptr = 0 ∧
      b'.dev.peaks_buf_wr_ptr = (sn + total_completions es + 1) % 4 := by
  obtain ⟨b', r, n', rd', _, _, _, wq, _⟩ :=
    interrupts_peaks 3 2 (by decide) (by decide) es (serial_bench 4 sn) rfl
      (Nat.two_pow_pos 2) hpk
  exact ⟨b', r, n', rd', wq hne⟩

/-- Counterexample to C1 as stated, with `N = 4`, `w = 0` and `k = 1`. The
device is loaded while the serial number register reads 0, so
`read_ptr = write_ptr = 0`. One transfer completes (serial number 1, slot 1)
and is reported by one interrupt: the handler moves the write pointer from 0
to 2. One `GET_PEAKS_DATA` returns slot 0, which no transfer went into, and
leaves `read_ptr = 1`, `write_ptr = 2`: the cursors differ. -/
theorem C1_one_completion_out_of_step :
    (serial_bench 4 0).dev.NumDmaPeaksBuffers = 4 ∧
    (serial_bench 4 0).dev.peaks_buf_rd_ptr = 0 ∧
    (serial_bench 4 0).dev.peaks_buf_wr_ptr = 0 ∧
    total_completions [single_peak 1] = 1 ∧
    ∃ b' st', interrupts 3 [single_peak 1] (serial_bench 4 0) = some b' ∧
      b'.dev.BAR0 SM500_REG_DMASNLO = 1 ∧
      b'.peaks_dataset 1 = 1 ∧ b'.peaks_dataset 0 = 0 ∧
      b'.dev.peaks_buf_wr_ptr = 2 ∧
      retrieve_peaks 1 b'.dev = some ([0], st') ∧
      st'.peaks_buf_rd_ptr = 1 ∧ st'.peaks_buf_wr_ptr = 2 ∧
      st'.peaks_buf_rd_ptr ≠ st'.peaks_buf_wr_ptr :=
  ⟨rfl, rfl, rfl, rfl, _, _, rfl, rfl, rfl, rfl, rfl, rfl, rfl, rfl, by decide⟩

/-- Counterexample to C2 as stated, with `N = 4`. The device is loaded while
the serial number register reads 2, so `read_ptr = write_ptr = 0`. Five
transfers complete before any retrieval, each reported by its own interrupt:
the serial number is 7, the write pointer is `(7 + 1) mod 4 = 0`, equal to the
read pointer, and the first `GET_PEAKS_DATA` goes to sleep. -/
theorem C2_five_completions_out_of_step :
    (serial_bench 4 2).dev.NumDmaPeaksBuffers = 4 ∧
    (serial_bench 4 2).dev.peaks_buf_rd_ptr = (serial_bench 4 2).dev.peaks_buf_wr_ptr ∧
    total_completions ([1, 2, 3, 4, 5].map single_peak) = 4 + 1 ∧
    ∃ b', interrupts 3 ([1, 2, 3, 4, 5].map single_peak) (serial_bench 4 2) = some b' ∧
      b'.dev.peaks_buf_rd_ptr = 0 ∧ b'.dev.peaks_buf_wr_ptr = 0 ∧
      sm500_ioctl false .GET_PEAKS_DATA b'.dev = .sleeping := by
  obtain ⟨b', r, _, rd', wr'⟩ := serial_bench_run 2 ([1, 2, 3, 4, 5].map single_peak)
    (List.cons_ne_nil _ _) (fun ev h => (single_peaks_flag [1, 2, 3, 4, 5] ev h).2)
  have hwr : b'.dev.peaks_buf_wr_ptr = 0 := by rw [wr']; rfl
  exact ⟨rfl, rfl, rfl, b', r, rd', hwr, get_peaks_data_sleeps b'.dev (by rw [rd', hwr])⟩

/-- Counterexample to C7 as stated, with `N = 4` and `w = 0`. The device is
loaded while the serial number register reads 0, so `write_ptr = 0`. After
four completions, each reported by its own interrupt with the serial number
one higher than before, the write pointer is `(4 + 1) mod 4 = 1`, not 0. -/
theorem C7_four_completions_out_of_step :
    (serial_bench 4 0).dev.NumDmaPeaksBuffers = 4 ∧
    (serial_bench 4 0).dev.peaks_buf_wr_ptr = 0 ∧
    (∀ ev ∈ [1, 2, 3, 4].map single_peak, ev.completions = 1) ∧
    ∃ b', interrupts 3 ([1, 2, 3, 4].map single_peak) (serial_bench 4 0) = some b' ∧
      b'.dev.peaks_buf_wr_ptr = 1 := by
  obtain ⟨b', r, _, _, wr'⟩ := serial_bench_run 0 ([1, 2, 3, 4].map single_peak)
    (List.cons_ne_nil _ _) (fun ev h => (single_peaks_flag [1, 2, 3, 4] ev h).2)
  exact ⟨rfl, rfl, fun ev h => (single_peaks_flag [1, 2, 3, 4] ev h).1, b', r, by rw [wr']; rfl⟩

/-- Counterexample to C23 as stated, with `N = 4`. The device is loaded while
the serial number register reads 0, so `read_ptr = write_ptr = 0`. After
exactly four completions with no retrieval in between the write pointer is 1
and the read pointer is 0: the cursors differ, and `GET_PEAKS_DATA` returns
slot 0 at once instead of going to sleep. -/
theorem C23_four_completions_out_of_step :
    (serial_bench 4 0).dev.NumDmaPeaksBuffers = 4 ∧
    (serial_bench 4 0).dev.peaks_buf_rd_ptr = (serial_bench 4 0).dev.peaks_buf_wr_ptr ∧
    total_completions ([1, 2, 3, 4].map single_peak) = 4 ∧
    ∃ b' st', interrupts 3 ([1, 2, 3, 4].map single_peak) (serial_bench 4 0) = some b' ∧
      b'.dev.peaks_buf_rd_ptr = 0 ∧ b'.dev.peaks_buf_wr_ptr = 1 ∧
      sm500_ioctl false .GET_PEAKS_DATA b'.dev = .returned 0 (some 0) st' := by
  obtain ⟨b', r, _, rd', wr'⟩ := serial_bench_run 0 ([1, 2, 3, 4].map single_peak)
    (List.cons_ne_nil _ _) (fun ev h => (single_peaks_flag [1, 2, 3, 4] ev h).2)
  have hwr : b'.dev.peaks_buf_wr_ptr = 1 := by rw [wr']; rfl
  have hget := get_peaks_data_ready false b'.dev (by rw [rd', hwr]; decide)
  rw [rd'] at hget
  exact ⟨rfl, rfl, rfl, b', _, r, rd', hwr, hget⟩


/-- The handler brings the write pointer in step with the instrument: after a
peaks interrupt on a stream of `2 ^ e ≤ 256` buffers the write pointer is one
past the serial number, modulo the count, wherever it was before. -/
theorem interrupt_peaks_in_step (fuel e : Nat) (ev : irq_event) (b : sm500_bench) (he : e ≤ 8)
    (hN : b.dev.NumDmaPeaksBuffers = 2 ^ e) (hw : b.dev.peaks_buf_wr_ptr < 2 ^ e)
    (hpk : u32 ev.int_flag &&& SM500_INT_PK ≠ 0) (hfuel : 2 ^ e ≤ fuel + 1) :
    ∃ b', interrupt fuel ev b = some b' ∧
      b'.dev.NumDmaPeaksBuffers = 2 ^ e ∧
      b'.dev.peaks_buf_wr_ptr < 2 ^ e ∧
      (b'.dev.BAR0 SM500_REG_DMASNLO + 1) % 2 ^ e = b'.dev.peaks_buf_wr_ptr := by
  obtain ⟨b', r, n', _, _, sn', wr', _, _⟩ := interrupt_peaks fuel e ev b he hN hw hpk hfuel
  refine ⟨b', r, n', ?_, ?_⟩
  · rw [wr']; exact Nat.mod_lt _ (Nat.two_pow_pos _)
  · rw [wr']
    exact mod_two_pow_congr _ _ 1 e (by omega) sn'

end SM500
